import Mathlib

/-!
Verification of the core of the HAVisualAutomationViewer repository:
the automation graph parsing module (`graph_parser.py`) and the dependency
graph service (`services/dependency_graph_service.py`).

The Python code operates on untyped JSON-like values (`dict[str, Any]`).
We shallowly embed those values as the inductive type `PyVal` below
(numbers are modelled as integers; configurations containing floating
point numbers are outside the model).  Python mutation of the growing
graph is embedded as explicit state passing (`PState`), Python exceptions
as `Except String`, and the unbounded recursion of the source as
structural recursion on an explicit fuel parameter, so that every
definition is executable.  Python strings are Lean `String`s; `str(x)`
is `pyStrOf`; truthiness is `pyTruthy`; `x.get(k, d)` is `pyGetD`
(raising AttributeError on non-dicts exactly as the source does).
-/

mutual

inductive PyVal : Type where
  | none : PyVal
  | bool (b : Bool) : PyVal
  | int (n : Int) : PyVal
  | str (s : String) : PyVal
  | list (xs : PyList) : PyVal
  | dict (kvs : PyKvs) : PyVal

inductive PyList : Type where
  | nil : PyList
  | cons (x : PyVal) (rest : PyList) : PyList

inductive PyKvs : Type where
  | nil : PyKvs
  | cons (k : String) (v : PyVal) (rest : PyKvs) : PyKvs

end

/-- Convert a Lean list of values to an embedded Python list payload. -/
def pyListOf : List PyVal → PyList
  | [] => PyList.nil
  | x :: rest => PyList.cons x (pyListOf rest)

/-- Convert an embedded Python list payload back to a Lean list. -/
def PyList.toList : PyList → List PyVal
  | PyList.nil => []
  | PyList.cons x rest => x :: rest.toList

/-- Convert Lean key/value pairs to an embedded Python dict payload. -/
def pyDictOf : List (String × PyVal) → PyKvs
  | [] => PyKvs.nil
  | (k, v) :: rest => PyKvs.cons k v (pyDictOf rest)

/-- Convert an embedded Python dict payload to Lean key/value pairs. -/
def PyKvs.toList : PyKvs → List (String × PyVal)
  | PyKvs.nil => []
  | PyKvs.cons k v rest => (k, v) :: rest.toList

/-- Shorthand for an embedded Python list value. -/
def pyL (xs : List PyVal) : PyVal := PyVal.list (pyListOf xs)

/-- Shorthand for an embedded Python dict value. -/
def pyD (kvs : List (String × PyVal)) : PyVal := PyVal.dict (pyDictOf kvs)

mutual

/-- Structural size of an embedded value (used as recursion fuel bound). -/
def pySize : PyVal → Nat
  | PyVal.none => 1
  | PyVal.bool _ => 1
  | PyVal.int _ => 1
  | PyVal.str _ => 1
  | PyVal.list xs => 1 + pySizeList xs
  | PyVal.dict kvs => 1 + pySizeKvs kvs

/-- Structural size of a list payload. -/
def pySizeList : PyList → Nat
  | PyList.nil => 0
  | PyList.cons x rest => 1 + pySize x + pySizeList rest

/-- Structural size of a dict payload. -/
def pySizeKvs : PyKvs → Nat
  | PyKvs.nil => 0
  | PyKvs.cons _ v rest => 1 + pySize v + pySizeKvs rest

end

mutual

/-- Python `==` on embedded values (structural equality). -/
def pyBeq : PyVal → PyVal → Bool
  | PyVal.none, PyVal.none => true
  | PyVal.bool a, PyVal.bool b => a == b
  | PyVal.int a, PyVal.int b => a == b
  | PyVal.str a, PyVal.str b => a == b
  | PyVal.list a, PyVal.list b => pyBeqList a b
  | PyVal.dict a, PyVal.dict b => pyBeqKvs a b
  | _, _ => false

/-- Elementwise equality of list payloads. -/
def pyBeqList : PyList → PyList → Bool
  | PyList.nil, PyList.nil => true
  | PyList.cons x xs, PyList.cons y ys => pyBeq x y && pyBeqList xs ys
  | _, _ => false

/-- Entrywise equality of dict payloads. -/
def pyBeqKvs : PyKvs → PyKvs → Bool
  | PyKvs.nil, PyKvs.nil => true
  | PyKvs.cons k v r, PyKvs.cons k2 v2 r2 => k == k2 && pyBeq v v2 && pyBeqKvs r r2
  | _, _ => false

end

/-- First-match key lookup in a dict payload (Python dict keys are unique;
the embedding reads the first binding). -/
def kvLookup : PyKvs → String → Option PyVal
  | PyKvs.nil, _ => Option.none
  | PyKvs.cons k v rest, key => if k = key then some v else kvLookup rest key

/-- Python truthiness of an embedded value. -/
def pyTruthy : PyVal → Bool
  | PyVal.none => false
  | PyVal.bool b => b
  | PyVal.int n => n != 0
  | PyVal.str s => s != ""
  | PyVal.list PyList.nil => false
  | PyVal.list (PyList.cons _ _) => true
  | PyVal.dict PyKvs.nil => false
  | PyVal.dict (PyKvs.cons _ _ _) => true

/-- Python `a or b` (value-returning, short-circuit on truthiness). -/
def pyOr (a b : PyVal) : PyVal := if pyTruthy a then a else b

/-- Python `d.get(key, dflt)`: raises AttributeError on non-dict receivers. -/
def pyGetD (v : PyVal) (key : String) (dflt : PyVal) : Except String PyVal :=
  match v with
  | PyVal.dict kvs => Except.ok ((kvLookup kvs key).getD dflt)
  | _ => Except.error "AttributeError: object has no attribute get"

/-- Python subscript `d[key]` with a string key: KeyError when missing,
TypeError on non-dict receivers. -/
def pySubscr (v : PyVal) (key : String) : Except String PyVal :=
  match v with
  | PyVal.dict kvs =>
    match kvLookup kvs key with
    | some x => Except.ok x
    | Option.none => Except.error "KeyError"
  | _ => Except.error "TypeError: value is not subscriptable by str"

/-- Substring test on character lists (Python `pat in hay` for strings). -/
def charsContain (pat : List Char) : List Char → Bool
  | [] => pat.isEmpty
  | h :: t => pat.isPrefixOf (h :: t) || charsContain pat t

/-- Python `key in v`: key membership for dicts, substring test for
strings, element membership for lists, TypeError otherwise. -/
def pyInKey (key : String) (v : PyVal) : Except String Bool :=
  match v with
  | PyVal.dict kvs => Except.ok ((kvLookup kvs key).isSome)
  | PyVal.str s => Except.ok (charsContain key.toList s.toList)
  | PyVal.list xs => Except.ok (xs.toList.any (fun x => pyBeq x (PyVal.str key)))
  | _ => Except.error "TypeError: argument is not iterable"

/-- Python `len(v)`: length of strings, lists and dicts, TypeError otherwise. -/
def pyLen (v : PyVal) : Except String Nat :=
  match v with
  | PyVal.str s => Except.ok s.length
  | PyVal.list xs => Except.ok xs.toList.length
  | PyVal.dict kvs => Except.ok kvs.toList.length
  | _ => Except.error "TypeError: object has no len"

/-- Decimal digit as a character. -/
def digitChar : Nat → Char
  | 0 => '0'
  | 1 => '1'
  | 2 => '2'
  | 3 => '3'
  | 4 => '4'
  | 5 => '5'
  | 6 => '6'
  | 7 => '7'
  | 8 => '8'
  | _ => '9'

/-- Little-endian decimal digits of `n`, driven by a fuel parameter
(`fuel ≥ n` is always sufficient). -/
def natDigitsRev : Nat → Nat → List Nat
  | 0, _ => []
  | Nat.succ fuel, n => if n = 0 then [] else n % 10 :: natDigitsRev fuel (n / 10)

/-- Decimal rendering of a natural number, as produced by Python `str(n)`
inside an f-string. -/
def natToStr (n : Nat) : String :=
  if n = 0 then "0" else String.mk (((natDigitsRev n n).map digitChar).reverse)

/-- Decimal rendering of an integer (Python `str` of an int). -/
def intToStr (i : Int) : String :=
  if i < 0 then "-" ++ natToStr i.natAbs else natToStr i.natAbs

mutual

/-- Python `str(v)` of an embedded value. -/
def pyStrOf : PyVal → String
  | PyVal.none => "None"
  | PyVal.bool b => if b then "True" else "False"
  | PyVal.int n => intToStr n
  | PyVal.str s => s
  | PyVal.list xs => "[" ++ String.intercalate ", " (pyReprList xs) ++ "]"
  | PyVal.dict kvs => "\x7b" ++ String.intercalate ", " (pyReprKvs kvs) ++ "\x7d"

/-- Python `repr(v)` of an embedded value (used for container elements). -/
def pyReprOf : PyVal → String
  | PyVal.str s => "\x27" ++ s ++ "\x27"
  | PyVal.none => "None"
  | PyVal.bool b => if b then "True" else "False"
  | PyVal.int n => intToStr n
  | PyVal.list xs => "[" ++ String.intercalate ", " (pyReprList xs) ++ "]"
  | PyVal.dict kvs => "\x7b" ++ String.intercalate ", " (pyReprKvs kvs) ++ "\x7d"

/-- Reprs of the elements of a list payload. -/
def pyReprList : PyList → List String
  | PyList.nil => []
  | PyList.cons x rest => pyReprOf x :: pyReprList rest

/-- Reprs of the entries of a dict payload. -/
def pyReprKvs : PyKvs → List String
  | PyKvs.nil => []
  | PyKvs.cons k v rest => ("\x27" ++ k ++ "\x27: " ++ pyReprOf v) :: pyReprKvs rest

end

/-- Python `", ".join(xs)`: succeeds only when every element is a string. -/
def pyJoin (sep : String) (xs : List PyVal) : Except String String :=
  match xs with
  | [] => Except.ok ""
  | [PyVal.str s] => Except.ok s
  | PyVal.str s :: rest =>
    match pyJoin sep rest with
    | Except.ok tail => Except.ok (s ++ sep ++ tail)
    | Except.error e => Except.error e
  | _ => Except.error "TypeError: sequence item is not str"

/-! Graph data model of `graph_parser.py` (`AutomationNode`, `AutomationEdge`,
`AutomationGraph`) and the component type / color constants of `const.py`.
Node labels are `PyVal` because a handful of source paths store a raw
configuration value (e.g. the metadata node label is the raw alias). -/

def compTrigger : String := "trigger"

def compCondition : String := "condition"

def compAction : String := "action"

def compMetadata : String := "metadata"

def colorTrigger : String := "#4CAF50"

def colorCondition : String := "#FFC107"

def colorAction : String := "#2196F3"

def colorMetadata : String := "#9E9E9E"

structure AutomationNode where
  id : String
  label : PyVal
  type : String
  data : PyVal
  color : Option String := Option.none

structure AutomationEdge where
  from_node : String
  to_node : String
  label : Option String := Option.none
  deriving DecidableEq

structure AutomationGraph where
  nodes : List AutomationNode := []
  edges : List AutomationEdge := []
  metadata : List (String × PyVal) := []

/-- Mutable parser state: the per-call node-id counter (`self._node_counter`)
and the graph being filled in. -/
structure PState where
  counter : Nat
  nodes : List AutomationNode
  edges : List AutomationEdge

/-- Node id produced by `_generate_node_id` for a non-empty prefix:
`f"{prefix}_{counter}"`.  (Every call site of the source passes a
non-empty prefix, so the `node_{n}` fallback branch is never taken.) -/
def mkNodeId (pfx : String) (n : Nat) : String := pfx ++ "_" ++ natToStr n

/-- `_generate_node_id`: increment the counter and render the id. -/
def genNodeId (pfx : String) (st : PState) : String × PState :=
  (mkNodeId pfx (st.counter + 1), { st with counter := st.counter + 1 })

/-- Append a node to the graph under construction. -/
def addNode (st : PState) (n : AutomationNode) : PState :=
  { st with nodes := st.nodes ++ [n] }

/-- Append an edge to the graph under construction. -/
def addEdge (st : PState) (e : AutomationEdge) : PState :=
  { st with edges := st.edges ++ [e] }

/-- Lookup with default on an embedded dict payload (`d.get(k, dflt)` once
the receiver is known to be a dict). -/
def dGet (kvs : PyKvs) (k : String) (dflt : PyVal) : PyVal :=
  (kvLookup kvs k).getD dflt

/-- Python `"x" in d` for a known dict payload. -/
def dHas (kvs : PyKvs) (k : String) : Bool := (kvLookup kvs k).isSome

/-- Format the display of a state/numeric_state trigger entity_id field:
a joined listing for short lists, `first +k` for longer ones. -/
def entityListStr (v : PyVal) : Except String String :=
  match v with
  | PyVal.list xs =>
    let l := xs.toList
    if l.length ≤ 2 then pyJoin ", " l
    else
      match l with
      | e :: _ => Except.ok (pyStrOf e ++ " +" ++ natToStr (l.length - 1))
      | [] => pyJoin ", " l
  | other => Except.ok (pyStrOf other)

/-- Faithful translation of `_format_trigger_label`. -/
def formatTriggerLabel (trigger : PyVal) (index : Nat) : Except String String :=
  match trigger with
  | PyVal.dict kvs =>
    let platform := dGet kvs "platform" (PyVal.str "")
    if pyBeq platform (PyVal.str "state") then
      match entityListStr (dGet kvs "entity_id" (pyL [])) with
      | Except.error e => Except.error e
      | Except.ok entityStr =>
        let toState := dGet kvs "to" (PyVal.str "")
        let fromState := dGet kvs "from" (PyVal.str "")
        if pyTruthy toState && pyTruthy fromState then
          Except.ok ("State: " ++ entityStr ++ "\n" ++ pyStrOf fromState ++ " → " ++ pyStrOf toState)
        else if pyTruthy toState then
          Except.ok ("State: " ++ entityStr ++ " → " ++ pyStrOf toState)
        else if pyTruthy fromState then
          Except.ok ("State: " ++ entityStr ++ "\nfrom " ++ pyStrOf fromState)
        else Except.ok ("State: " ++ entityStr)
    else if pyBeq platform (PyVal.str "time") then
      let atTime := dGet kvs "at" (PyVal.str "")
      if pyTruthy atTime then
        match atTime with
        | PyVal.list xs =>
          Except.ok ("Time: " ++ String.intercalate ", " (xs.toList.map pyStrOf))
        | other => Except.ok ("Time: " ++ pyStrOf other)
      else Except.ok "Time trigger"
    else if pyBeq platform (PyVal.str "sun") then
      let event := dGet kvs "event" (PyVal.str "rise")
      let offset := dGet kvs "offset" (PyVal.str "")
      if pyTruthy offset then
        Except.ok ("Sun: " ++ pyStrOf event ++ " " ++ pyStrOf offset)
      else Except.ok ("Sun: " ++ pyStrOf event)
    else if pyBeq platform (PyVal.str "numeric_state") then
      match entityListStr (dGet kvs "entity_id" (pyL [])) with
      | Except.error e => Except.error e
      | Except.ok entityStr =>
        let above := dGet kvs "above" (PyVal.str "")
        let below := dGet kvs "below" (PyVal.str "")
        if pyTruthy above && pyTruthy below then
          Except.ok ("Numeric: " ++ entityStr ++ "\n" ++ pyStrOf below ++ " < value < " ++ pyStrOf above)
        else if pyTruthy above then
          Except.ok ("Numeric: " ++ entityStr ++ " > " ++ pyStrOf above)
        else if pyTruthy below then
          Except.ok ("Numeric: " ++ entityStr ++ " < " ++ pyStrOf below)
        else Except.ok ("Numeric: " ++ entityStr)
    else if pyBeq platform (PyVal.str "template") then
      let vt := dGet kvs "value_template" (PyVal.str "")
      if pyTruthy vt then
        match pyLen vt with
        | Except.error e => Except.error e
        | Except.ok n =>
          if n < 30 then Except.ok ("Template:\n" ++ pyStrOf vt)
          else Except.ok "Template trigger"
      else Except.ok "Template trigger"
    else if pyBeq platform (PyVal.str "time_pattern") then
      let hours := dGet kvs "hours" (PyVal.str "*")
      let minutes := dGet kvs "minutes" (PyVal.str "*")
      let seconds := dGet kvs "seconds" (PyVal.str "*")
      Except.ok ("Time pattern:\n" ++ pyStrOf hours ++ ":" ++ pyStrOf minutes ++ ":" ++ pyStrOf seconds)
    else if pyBeq platform (PyVal.str "webhook") then
      let wid := dGet kvs "webhook_id" (PyVal.str "")
      if pyTruthy wid then Except.ok ("Webhook: " ++ pyStrOf wid)
      else Except.ok "Webhook trigger"
    else if pyBeq platform (PyVal.str "event") then
      let et := dGet kvs "event_type" (PyVal.str "")
      if pyTruthy et then Except.ok ("Event: " ++ pyStrOf et)
      else Except.ok "Event trigger"
    else if pyBeq platform (PyVal.str "mqtt") then
      let topic := dGet kvs "topic" (PyVal.str "")
      if pyTruthy topic then Except.ok ("MQTT: " ++ pyStrOf topic)
      else Except.ok "MQTT trigger"
    else if pyBeq platform (PyVal.str "zone") then
      let entityId := dGet kvs "entity_id" (PyVal.str "")
      let zone := dGet kvs "zone" (PyVal.str "")
      let event := dGet kvs "event" (PyVal.str "enter")
      if pyTruthy entityId && pyTruthy zone then
        Except.ok ("Zone: " ++ pyStrOf entityId ++ "\n" ++ pyStrOf event ++ " " ++ pyStrOf zone)
      else Except.ok "Zone trigger"
    else if pyBeq platform (PyVal.str "geo_location") then
      let source := dGet kvs "source" (PyVal.str "")
      if pyTruthy source then Except.ok ("Geo: " ++ pyStrOf source)
      else Except.ok "Geo location trigger"
    else if pyBeq platform (PyVal.str "homeassistant") then
      let event := dGet kvs "event" (PyVal.str "start")
      Except.ok ("Home Assistant: " ++ pyStrOf event)
    else if pyBeq platform (PyVal.str "device") then
      let domain := dGet kvs "domain" (PyVal.str "")
      let triggerType := dGet kvs "type" (PyVal.str "")
      if pyTruthy triggerType then Except.ok ("Device: " ++ pyStrOf triggerType)
      else if pyTruthy domain then Except.ok ("Device: " ++ pyStrOf domain)
      else Except.ok "Device trigger"
    else if pyBeq platform (PyVal.str "tag") then
      let tagId := dGet kvs "tag_id" (PyVal.str "")
      if pyTruthy tagId then Except.ok ("Tag: " ++ pyStrOf tagId)
      else Except.ok "Tag scanned"
    else if pyBeq platform (PyVal.str "calendar") then
      let entityId := dGet kvs "entity_id" (PyVal.str "")
      let event := dGet kvs "event" (PyVal.str "start")
      Except.ok ("Calendar: " ++ pyStrOf entityId ++ "\n" ++ pyStrOf event)
    else if pyTruthy platform then
      Except.ok ("Trigger: " ++ pyStrOf platform)
    else
      let triggerId := dGet kvs "id" (PyVal.str "")
      if pyTruthy triggerId then Except.ok ("Trigger: " ++ pyStrOf triggerId)
      else if pyTruthy (PyVal.dict kvs) then
        let keys := (kvs.toList.map Prod.fst).filter (fun k => k ≠ "platform" ∧ k ≠ "id")
        match keys with
        | k :: _ => Except.ok ("Trigger: " ++ k)
        | [] => Except.ok ("Trigger #" ++ natToStr (index + 1))
      else Except.ok ("Trigger #" ++ natToStr (index + 1))
  | _ => Except.error "AttributeError: object has no attribute get"

/-- Faithful translation of `_format_condition_label`. -/
def formatConditionLabel (condition : PyVal) (index : Nat) : Except String String :=
  match condition with
  | PyVal.dict kvs =>
    let ctype := dGet kvs "condition" (PyVal.str "unknown")
    if pyBeq ctype (PyVal.str "state") then
      let entityId := dGet kvs "entity_id" (PyVal.str "unknown")
      let state := dGet kvs "state" (PyVal.str "unknown")
      Except.ok ("State: " ++ pyStrOf entityId ++ " = " ++ pyStrOf state)
    else if pyBeq ctype (PyVal.str "numeric_state") then
      let entityId := dGet kvs "entity_id" (PyVal.str "unknown")
      Except.ok ("Numeric: " ++ pyStrOf entityId)
    else if pyBeq ctype (PyVal.str "sun") then
      let after := dGet kvs "after" (PyVal.str "")
      let before := dGet kvs "before" (PyVal.str "")
      let parts := (if pyTruthy after then ["after " ++ pyStrOf after] else []) ++
        (if pyTruthy before then ["before " ++ pyStrOf before] else [])
      match parts with
      | [] => Except.ok "Sun condition"
      | _ => Except.ok ("Sun: " ++ String.intercalate ", " parts)
    else if pyBeq ctype (PyVal.str "time") then
      let after := dGet kvs "after" (PyVal.str "")
      let before := dGet kvs "before" (PyVal.str "")
      let parts := (if pyTruthy after then ["after " ++ pyStrOf after] else []) ++
        (if pyTruthy before then ["before " ++ pyStrOf before] else [])
      match parts with
      | [] => Except.ok "Time condition"
      | _ => Except.ok ("Time: " ++ String.intercalate ", " parts)
    else if pyBeq ctype (PyVal.str "template") then
      Except.ok "Template condition"
    else Except.ok ("Condition: " ++ pyStrOf ctype ++ " #" ++ natToStr (index + 1))
  | _ => Except.error "AttributeError: object has no attribute get"

/-- Faithful translation of `_summarize_conditions`.  The result is a
`PyVal` because two source paths return a raw configuration value
(`return entity` / `return cond_type`) instead of a string. -/
def summarizeConditions (conditions : List PyVal) : Except String PyVal :=
  match conditions with
  | [] => Except.ok (PyVal.str "condition")
  | [cond] =>
    match cond with
    | PyVal.dict kvs =>
      let ctype := dGet kvs "condition" (PyVal.str "unknown")
      if pyBeq ctype (PyVal.str "state") then
        let entity := dGet kvs "entity_id" (PyVal.str "entity")
        let state := dGet kvs "state" (PyVal.str "")
        if pyTruthy state then Except.ok (PyVal.str (pyStrOf entity ++ " = " ++ pyStrOf state))
        else Except.ok entity
      else if pyBeq ctype (PyVal.str "numeric_state") then
        let entity := dGet kvs "entity_id" (PyVal.str "entity")
        let above := dGet kvs "above" (PyVal.str "")
        let below := dGet kvs "below" (PyVal.str "")
        if pyTruthy above && pyTruthy below then
          Except.ok (PyVal.str (pyStrOf entity ++ ": " ++ pyStrOf below ++ " < x < " ++ pyStrOf above))
        else if pyTruthy above then
          Except.ok (PyVal.str (pyStrOf entity ++ " > " ++ pyStrOf above))
        else if pyTruthy below then
          Except.ok (PyVal.str (pyStrOf entity ++ " < " ++ pyStrOf below))
        else Except.ok (PyVal.str (pyStrOf entity ++ " numeric"))
      else if pyBeq ctype (PyVal.str "template") then
        let template := dGet kvs "value_template" (PyVal.str "")
        if pyTruthy template then
          match pyLen template with
          | Except.error e => Except.error e
          | Except.ok n =>
            if n < 40 then Except.ok (PyVal.str ("template: " ++ pyStrOf template))
            else Except.ok (PyVal.str "template")
        else Except.ok (PyVal.str "template")
      else if pyBeq ctype (PyVal.str "time") then
        let after := dGet kvs "after" (PyVal.str "")
        let before := dGet kvs "before" (PyVal.str "")
        if pyTruthy after && pyTruthy before then
          Except.ok (PyVal.str ("time: " ++ pyStrOf after ++ "-" ++ pyStrOf before))
        else if pyTruthy after then Except.ok (PyVal.str ("time after " ++ pyStrOf after))
        else if pyTruthy before then Except.ok (PyVal.str ("time before " ++ pyStrOf before))
        else Except.ok (PyVal.str "time condition")
      else if pyBeq ctype (PyVal.str "sun") then
        let after := dGet kvs "after" (PyVal.str "")
        let before := dGet kvs "before" (PyVal.str "")
        if pyTruthy after && pyTruthy before then
          Except.ok (PyVal.str ("sun: " ++ pyStrOf after ++ "-" ++ pyStrOf before))
        else if pyTruthy after then Except.ok (PyVal.str ("sun after " ++ pyStrOf after))
        else if pyTruthy before then Except.ok (PyVal.str ("sun before " ++ pyStrOf before))
        else Except.ok (PyVal.str "sun condition")
      else if pyBeq ctype (PyVal.str "zone") then
        let entity := dGet kvs "entity_id" (PyVal.str "entity")
        let zone := dGet kvs "zone" (PyVal.str "zone")
        Except.ok (PyVal.str (pyStrOf entity ++ " in " ++ pyStrOf zone))
      else if pyBeq ctype (PyVal.str "device") then
        let deviceType := dGet kvs "type" (PyVal.str "")
        if pyTruthy deviceType then Except.ok (PyVal.str ("device: " ++ pyStrOf deviceType))
        else Except.ok (PyVal.str "device condition")
      else if pyBeq ctype (PyVal.str "or") then
        match pyLen (dGet kvs "conditions" (pyL [])) with
        | Except.error e => Except.error e
        | Except.ok n => Except.ok (PyVal.str ("any of " ++ natToStr n))
      else if pyBeq ctype (PyVal.str "and") then
        match pyLen (dGet kvs "conditions" (pyL [])) with
        | Except.error e => Except.error e
        | Except.ok n => Except.ok (PyVal.str ("all of " ++ natToStr n))
      else if pyBeq ctype (PyVal.str "not") then
        Except.ok (PyVal.str "NOT condition")
      else Except.ok ctype
    | _ => Except.error "AttributeError: object has no attribute get"
  | first :: _ =>
    match first with
    | PyVal.dict kvs =>
      let ctype := dGet kvs "condition" (PyVal.str "")
      if pyBeq ctype (PyVal.str "state") then
        let entity := dGet kvs "entity_id" (PyVal.str "")
        if pyTruthy entity then
          Except.ok (PyVal.str (pyStrOf entity ++ "... +" ++ natToStr (conditions.length - 1) ++ " more"))
        else Except.ok (PyVal.str (natToStr conditions.length ++ " conditions"))
      else if pyBeq ctype (PyVal.str "numeric_state") then
        let entity := dGet kvs "entity_id" (PyVal.str "")
        if pyTruthy entity then
          Except.ok (PyVal.str (pyStrOf entity ++ "... +" ++ natToStr (conditions.length - 1) ++ " more"))
        else Except.ok (PyVal.str (natToStr conditions.length ++ " conditions"))
      else Except.ok (PyVal.str (natToStr conditions.length ++ " conditions"))
    | _ => Except.error "AttributeError: object has no attribute get"

/-- Resolve the entity_id used for a service-call label: from `target`,
then a top-level `entity_id`, then `data` (lines 1016-1022 of the source).
`PyVal.none` plays the role of Python `None`. -/
def serviceEntityId (kvs : PyKvs) (target data : PyVal) : PyVal :=
  match target with
  | PyVal.dict tkvs => dGet tkvs "entity_id" PyVal.none
  | _ =>
    if dHas kvs "entity_id" then dGet kvs "entity_id" PyVal.none
    else
      match data with
      | PyVal.dict dkvs =>
        if dHas dkvs "entity_id" then dGet dkvs "entity_id" PyVal.none
        else PyVal.none
      | _ => PyVal.none

/-- Target display string of a service-call label (lines 1025-1049). -/
def serviceTargetInfo (kvs : PyKvs) (target data : PyVal) : Except String String :=
  let entityId := serviceEntityId kvs target data
  if pyTruthy entityId then
    match entityId with
    | PyVal.list xs =>
      let l := xs.toList
      if l.length = 1 then
        match l with
        | e :: _ => Except.ok (pyStrOf e)
        | [] => Except.ok ""
      else if l.length ≤ 3 then pyJoin ", " l
      else
        match l with
        | e :: _ => Except.ok (pyStrOf e ++ " +" ++ natToStr (l.length - 1) ++ " more")
        | [] => Except.ok ""
    | other => Except.ok (pyStrOf other)
  else
    match target with
    | PyVal.dict tkvs =>
      if dHas tkvs "area_id" then
        match dGet tkvs "area_id" PyVal.none with
        | PyVal.list xs =>
          match pyJoin ", " xs.toList with
          | Except.error e => Except.error e
          | Except.ok s => Except.ok ("Area: " ++ s)
        | other => Except.ok ("Area: " ++ pyStrOf other)
      else if dHas tkvs "device_id" then
        match dGet tkvs "device_id" PyVal.none with
        | PyVal.list xs => Except.ok (natToStr xs.toList.length ++ " devices")
        | other => Except.ok ("Device: " ++ pyStrOf other)
      else Except.ok ""
    | _ => Except.ok ""

/-- Python `int((brightness / 255) * 100)` for an integer brightness
(float arithmetic modelled exactly on integers, truncating toward zero). -/
def brightnessPct (n : Int) : Int := Int.tdiv (n * 100) 255

/-- Data-parameter display fragments of a service-call label
(lines 1052-1145); ordered exactly as the source appends them. -/
def serviceDataParts (kvs : PyKvs) (data : PyVal) : Except String (List String) :=
  match data with
  | PyVal.dict d =>
    let p0 : List String := []
    let p1 := p0 ++
      (if dHas d "brightness" then
        match dGet d "brightness" PyVal.none with
        | PyVal.int n => ["Brightness: " ++ intToStr (brightnessPct n) ++ "%"]
        | other => ["Brightness: " ++ pyStrOf other]
      else [])
    let p2 := p1 ++
      (if dHas d "brightness_pct" then
        ["Brightness: " ++ pyStrOf (dGet d "brightness_pct" PyVal.none) ++ "%"]
      else [])
    let p3 := p2 ++
      (if dHas d "rgb_color" then
        match dGet d "rgb_color" PyVal.none with
        | PyVal.list (PyList.cons r (PyList.cons g (PyList.cons b PyList.nil))) =>
          ["RGB: (" ++ pyStrOf r ++ "," ++ pyStrOf g ++ "," ++ pyStrOf b ++ ")"]
        | other => ["RGB: " ++ pyStrOf other]
      else [])
    let p4 := p3 ++
      (if dHas d "kelvin" then ["Color temp: " ++ pyStrOf (dGet d "kelvin" PyVal.none) ++ "K"] else [])
    let p5 := p4 ++
      (if dHas d "color_temp" then ["Color temp: " ++ pyStrOf (dGet d "color_temp" PyVal.none)] else [])
    let p6 := p5 ++
      (if dHas d "color_name" then ["Color: " ++ pyStrOf (dGet d "color_name" PyVal.none)] else [])
    let p7 := p6 ++
      (if dHas d "temperature" then ["Temp: " ++ pyStrOf (dGet d "temperature" PyVal.none) ++ "°"] else [])
    let p8 := p7 ++
      (if dHas d "target_temp_high" && dHas d "target_temp_low" then
        ["Range: " ++ pyStrOf (dGet d "target_temp_low" PyVal.none) ++ "-" ++
          pyStrOf (dGet d "target_temp_high" PyVal.none) ++ "°"]
      else if dHas d "target_temp_high" then
        ["Max: " ++ pyStrOf (dGet d "target_temp_high" PyVal.none) ++ "°"]
      else if dHas d "target_temp_low" then
        ["Min: " ++ pyStrOf (dGet d "target_temp_low" PyVal.none) ++ "°"]
      else [])
    let p9 := p8 ++
      (if dHas d "hvac_mode" then ["Mode: " ++ pyStrOf (dGet d "hvac_mode" PyVal.none)] else [])
    let p10 := p9 ++
      (if dHas d "fan_mode" then ["Fan: " ++ pyStrOf (dGet d "fan_mode" PyVal.none)] else [])
    let p11 := p10 ++
      (if dHas d "position" then ["Position: " ++ pyStrOf (dGet d "position" PyVal.none) ++ "%"] else [])
    let p12 := p11 ++
      (if dHas d "tilt_position" then ["Tilt: " ++ pyStrOf (dGet d "tilt_position" PyVal.none) ++ "%"] else [])
    let p13 := p12 ++
      (if dHas d "media_content_id" then
        let content := pyStrOf (dGet d "media_content_id" PyVal.none)
        let content := if content.length > 30 then content.take 30 ++ "..." else content
        ["Media: " ++ content]
      else [])
    match
      (if dHas d "volume_level" then
        match dGet d "volume_level" PyVal.none with
        | PyVal.int n => Except.ok ["Volume: " ++ intToStr (n * 100) ++ "%"]
        | _ => Except.error "TypeError: float conversion"
      else Except.ok ([] : List String)) with
    | Except.error e => Except.error e
    | Except.ok volPart =>
      let p14 := p13 ++ volPart
      let p15 := p14 ++
        (if dHas d "message" then
          let msg := pyStrOf (dGet d "message" PyVal.none)
          let msg := if msg.length > 40 then msg.take 40 ++ "..." else msg
          ["Message: \"" ++ msg ++ "\""]
        else [])
      let p16 := p15 ++
        (if dHas d "title" then
          let title := pyStrOf (dGet d "title" PyVal.none)
          let title := if title.length > 30 then title.take 30 ++ "..." else title
          ["Title: \"" ++ title ++ "\""]
        else [])
      let p17 := p16 ++
        (if dHas d "value" && !(dHas d "message") then
          ["Value: " ++ pyStrOf (dGet d "value" PyVal.none)]
        else [])
      let p18 := p17 ++
        (if dHas d "option" then ["Option: " ++ pyStrOf (dGet d "option" PyVal.none)] else [])
      let p19 := p18 ++
        (if dHas d "duration" && !(dHas kvs "delay") then
          ["Duration: " ++ pyStrOf (dGet d "duration" PyVal.none)]
        else [])
      let p20 := p19 ++
        (if dHas d "state" then ["State: " ++ pyStrOf (dGet d "state" PyVal.none)] else [])
      Except.ok p20
  | _ => Except.ok []

/-- Service-call branch of `_format_action_label` (lines 1006-1162). -/
def formatServiceLabel (kvs : PyKvs) : Except String PyVal :=
  let service := dGet kvs "service" (PyVal.str "unknown")
  let target := dGet kvs "target" (pyD [])
  let data := dGet kvs "data" (pyD [])
  match serviceTargetInfo kvs target data with
  | Except.error e => Except.error e
  | Except.ok targetInfo =>
    match serviceDataParts kvs data with
    | Except.error e => Except.error e
    | Except.ok dataParts =>
      let dataInfo :=
        if dataParts.isEmpty then ""
        else
          String.intercalate "\n" (dataParts.take 3) ++
            (if dataParts.length > 3 then "\n+" ++ natToStr (dataParts.length - 3) ++ " more params"
             else "")
      if dataInfo ≠ "" then
        Except.ok (PyVal.str
          ((pyStrOf service ++ "\n" ++ (if targetInfo ≠ "" then targetInfo else "") ++ "\n" ++ dataInfo).trim))
      else if targetInfo ≠ "" then
        Except.ok (PyVal.str (pyStrOf service ++ "\n" ++ targetInfo))
      else Except.ok service

/-- Faithful translation of `_format_action_label`.  The result is a
`PyVal` because the service branch can return the raw `service` value. -/
def formatActionLabel (action : PyVal) (index : Nat) : Except String PyVal :=
  match action with
  | PyVal.str s => Except.ok (PyVal.str ("Action: " ++ s))
  | _ =>
    match pyInKey "service" action with
    | Except.error e => Except.error e
    | Except.ok true =>
      match action with
      | PyVal.dict kvs => formatServiceLabel kvs
      | _ => Except.error "AttributeError: object has no attribute get"
    | Except.ok false =>
    match pyInKey "delay" action with
    | Except.error e => Except.error e
    | Except.ok true =>
      match action with
      | PyVal.dict kvs =>
        let delayVal := dGet kvs "delay" (PyVal.str "unknown")
        match delayVal with
        | PyVal.dict dkvs =>
          let hours := dGet dkvs "hours" (PyVal.int 0)
          let minutes := dGet dkvs "minutes" (PyVal.int 0)
          let seconds := dGet dkvs "seconds" (PyVal.int 0)
          let parts := (if pyTruthy hours then [pyStrOf hours ++ "h"] else []) ++
            (if pyTruthy minutes then [pyStrOf minutes ++ "m"] else []) ++
            (if pyTruthy seconds then [pyStrOf seconds ++ "s"] else [])
          let s := if parts.isEmpty then "0s" else String.intercalate " " parts
          Except.ok (PyVal.str ("Delay: " ++ s))
        | other => Except.ok (PyVal.str ("Delay: " ++ pyStrOf other))
      | _ => Except.error "AttributeError: object has no attribute get"
    | Except.ok false =>
    match pyInKey "wait_template" action with
    | Except.error e => Except.error e
    | Except.ok true =>
      match action with
      | PyVal.dict kvs =>
        let timeout := dGet kvs "timeout" (PyVal.str "")
        if pyTruthy timeout then Except.ok (PyVal.str ("Wait (timeout: " ++ pyStrOf timeout ++ ")"))
        else Except.ok (PyVal.str "Wait for template")
      | _ => Except.error "AttributeError: object has no attribute get"
    | Except.ok false =>
    match pyInKey "wait_for_trigger" action with
    | Except.error e => Except.error e
    | Except.ok true =>
      match action with
      | PyVal.dict kvs =>
        let timeout := dGet kvs "timeout" (PyVal.str "")
        if pyTruthy timeout then
          Except.ok (PyVal.str ("Wait for trigger\n(timeout: " ++ pyStrOf timeout ++ ")"))
        else Except.ok (PyVal.str "Wait for trigger")
      | _ => Except.error "AttributeError: object has no attribute get"
    | Except.ok false =>
    match pyInKey "event" action with
    | Except.error e => Except.error e
    | Except.ok true =>
      match action with
      | PyVal.dict kvs =>
        Except.ok (PyVal.str ("Fire event: " ++ pyStrOf (dGet kvs "event" (PyVal.str "unknown"))))
      | _ => Except.error "AttributeError: object has no attribute get"
    | Except.ok false =>
    match pyInKey "scene" action with
    | Except.error e => Except.error e
    | Except.ok true =>
      match action with
      | PyVal.dict kvs =>
        Except.ok (PyVal.str ("Scene: " ++ pyStrOf (dGet kvs "scene" (PyVal.str "unknown"))))
      | _ => Except.error "AttributeError: object has no attribute get"
    | Except.ok false =>
    match pyInKey "device_id" action with
    | Except.error e => Except.error e
    | Except.ok true =>
      match action with
      | PyVal.dict kvs =>
        let deviceType := dGet kvs "type" (PyVal.str "")
        let domain := dGet kvs "domain" (PyVal.str "")
        if pyTruthy deviceType then Except.ok (PyVal.str ("Device: " ++ pyStrOf deviceType))
        else if pyTruthy domain then Except.ok (PyVal.str ("Device: " ++ pyStrOf domain))
        else Except.ok (PyVal.str "Device action")
      | _ => Except.error "AttributeError: object has no attribute get"
    | Except.ok false =>
    match pyInKey "stop" action with
    | Except.error e => Except.error e
    | Except.ok true =>
      match action with
      | PyVal.dict kvs =>
        let stopMsg := dGet kvs "stop" (PyVal.str "")
        if pyTruthy stopMsg then Except.ok (PyVal.str ("Stop: " ++ pyStrOf stopMsg))
        else Except.ok (PyVal.str "Stop")
      | _ => Except.error "AttributeError: object has no attribute get"
    | Except.ok false =>
    match pyInKey "variables" action with
    | Except.error e => Except.error e
    | Except.ok true =>
      match action with
      | PyVal.dict kvs =>
        match dGet kvs "variables" (pyD []) with
        | PyVal.dict vkvs =>
          let varNames := vkvs.toList.map Prod.fst
          match varNames with
          | [n] => Except.ok (PyVal.str ("Set variable: " ++ n))
          | _ =>
            if varNames.length ≤ 3 then
              Except.ok (PyVal.str ("Set variables:\n" ++ String.intercalate ", " varNames))
            else Except.ok (PyVal.str ("Set " ++ natToStr varNames.length ++ " variables"))
        | _ => Except.ok (PyVal.str "Set variables")
      | _ => Except.error "AttributeError: object has no attribute get"
    | Except.ok false =>
    match pyInKey "choose" action with
    | Except.error e => Except.error e
    | Except.ok true => Except.ok (PyVal.str "Choose/If-Then")
    | Except.ok false =>
    match pyInKey "parallel" action with
    | Except.error e => Except.error e
    | Except.ok true => Except.ok (PyVal.str "Parallel actions")
    | Except.ok false =>
    match pyInKey "repeat" action with
    | Except.error e => Except.error e
    | Except.ok true => Except.ok (PyVal.str "Repeat loop")
    | Except.ok false =>
    match pyInKey "if" action with
    | Except.error e => Except.error e
    | Except.ok true => Except.ok (PyVal.str "If condition")
    | Except.ok false =>
      match action with
      | PyVal.dict kvs =>
        let actionKeys := (kvs.toList.map Prod.fst).filter
          (fun k => k ≠ "alias" ∧ k ≠ "enabled" ∧ k ≠ "continue_on_error")
        match actionKeys with
        | k :: _ => Except.ok (PyVal.str ("Action: " ++ k))
        | [] => Except.ok (PyVal.str ("Action #" ++ natToStr (index + 1)))
      | _ => Except.error "AttributeError: object has no attribute keys"

/-! Core recursive expansion of `_process_action_recursive`.  The Python
recursion is unbounded; it is embedded as structural recursion on a fuel
parameter (`parse_automation` supplies `pySize cfg`, which the stability
lemmas below show is always sufficient).  The three `for` loops over
nested sequences, choose branches and parallel threads are the
parameterized loop functions `seqLoop`, `choicesLoop` and `parallelLoop`;
they receive the recursive processor as the argument `pa`. -/

/-- Normalization `x if isinstance(x, list) else [x]` (no truthiness test). -/
def listWrapAlways (v : PyVal) : List PyVal :=
  match v with
  | PyVal.list xs => xs.toList
  | other => [other]

/-- Normalization `x if isinstance(x, list) else ([x] if x else [])`. -/
def listWrapTruthy (v : PyVal) : List PyVal :=
  match v with
  | PyVal.list xs => xs.toList
  | other => if pyTruthy other then [other] else []

/-- Unlabeled (or uniformly labeled) edges chaining consecutive ids. -/
def chainEdges (lbl : Option String) : List String → List AutomationEdge
  | [] => []
  | [_] => []
  | a :: b :: rest => { from_node := a, to_node := b, label := lbl } :: chainEdges lbl (b :: rest)

/-- One nested-sequence loop of the source (the six structurally identical
`for seq_idx, seq_action in enumerate(...)` loops).  `startId` is the node
the loop was started from, `firstLabel` the label attached to the edge
leaving `startId` (`None` for the choose-branch and default loops), and
`prev` the running predecessor.  Returns the final predecessor. -/
def seqLoop (pa : PyVal → Nat → PState → Except String (List String × PState)) :
    List PyVal → Nat → String → Option String → String → PState →
    Except String (String × PState)
  | [], _, _, _, prev, st => Except.ok (prev, st)
  | x :: rest, seqIdx, startId, firstLabel, prev, st =>
    match pa x seqIdx st with
    | Except.error e => Except.error e
    | Except.ok (ids, st1) =>
      match ids with
      | [] => seqLoop pa rest (seqIdx + 1) startId firstLabel prev st1
      | i0 :: tl =>
        let lbl := if prev == startId then firstLabel else Option.none
        let st2 := addEdge st1 { from_node := prev, to_node := i0, label := lbl }
        let st3 := { st2 with edges := st2.edges ++ chainEdges Option.none (i0 :: tl) }
        seqLoop pa rest (seqIdx + 1) startId firstLabel (tl.getLastD i0) st3

/-- Branch-condition data of a choose branch:
`choice.get("conditions") or choice.get("condition", dflt)`. -/
def chooseCondVal (choice : PyVal) (dflt : PyVal) : Except String PyVal :=
  match pyGetD choice "conditions" PyVal.none with
  | Except.error e => Except.error e
  | Except.ok c1 =>
    if pyTruthy c1 then Except.ok c1
    else pyGetD choice "condition" dflt

/-- Label of a choose branch node (lines 318-327 of the source). -/
def chooseBranchLabel (choice : PyVal) (choiceIdx : Nat) : Except String String :=
  let base := "Branch " ++ natToStr (choiceIdx + 1)
  match pyInKey "conditions" choice with
  | Except.error e => Except.error e
  | Except.ok b1 =>
    match (if b1 then Except.ok true else pyInKey "condition" choice) with
    | Except.error e => Except.error e
    | Except.ok false => Except.ok base
    | Except.ok true =>
      match chooseCondVal choice (pyL []) with
      | Except.error e => Except.error e
      | Except.ok cv =>
        let conditions := listWrapTruthy cv
        if conditions.isEmpty then Except.ok base
        else
          match summarizeConditions conditions with
          | Except.error e => Except.error e
          | Except.ok summary => Except.ok ("If: " ++ pyStrOf summary)

/-- The `for choice_idx, choice in enumerate(choose_list)` loop
(lines 315-367 of the source). -/
def choicesLoop (pa : PyVal → Nat → PState → Except String (List String × PState)) :
    List PyVal → Nat → String → PState → Except String PState
  | [], _, _, st => Except.ok st
  | choice :: rest, choiceIdx, chooseId, st =>
    let (branchId, st1) := genNodeId "action" st
    match chooseBranchLabel choice choiceIdx with
    | Except.error e => Except.error e
    | Except.ok branchLabel =>
      match chooseCondVal choice (pyD []) with
      | Except.error e => Except.error e
      | Except.ok branchData =>
        let st2 := addNode st1
          { id := branchId, label := PyVal.str branchLabel, type := compCondition,
            data := branchData, color := some colorCondition }
        let st3 := addEdge st2
          { from_node := chooseId, to_node := branchId,
            label := some ("option " ++ natToStr (choiceIdx + 1)) }
        match pyGetD choice "sequence" (pyL []) with
        | Except.error e => Except.error e
        | Except.ok sv =>
          match seqLoop pa (listWrapTruthy sv) 0 branchId Option.none branchId st3 with
          | Except.error e => Except.error e
          | Except.ok (_, st4) => choicesLoop pa rest (choiceIdx + 1) chooseId st4

/-- The `for par_idx, sequence in enumerate(parallel_sequences)` loop
(lines 506-534 of the source). -/
def parallelLoop (pa : PyVal → Nat → PState → Except String (List String × PState)) :
    List PyVal → Nat → String → PState → Except String PState
  | [], _, _, st => Except.ok st
  | sv :: rest, parIdx, parallelId, st =>
    match seqLoop pa (listWrapTruthy sv) 0 parallelId
        (some ("thread " ++ natToStr (parIdx + 1))) parallelId st with
    | Except.error e => Except.error e
    | Except.ok (_, st1) => parallelLoop pa rest (parIdx + 1) parallelId st1

/-- Faithful translation of `_process_action_recursive`, structurally
recursive on the fuel parameter.  Returns the list of top-level node ids
created for this action item (always a singleton in the source). -/
def processActionF : Nat → PyVal → Nat → PState → Except String (List String × PState)
  | 0, _, _, _ => Except.error "RecursionError: maximum recursion depth exceeded"
  | Nat.succ fuel, action, index, st =>
    match pyInKey "choose" action with
    | Except.error e => Except.error e
    | Except.ok true =>
      let (chooseId, st1) := genNodeId "action" st
      let st2 := addNode st1
        { id := chooseId, label := PyVal.str "Choose/If-Then", type := compAction,
          data := pyD [("type", PyVal.str "choose")], color := some colorAction }
      match pyGetD action "choose" (pyL []) with
      | Except.error e => Except.error e
      | Except.ok cv =>
        match choicesLoop (processActionF fuel) (listWrapAlways cv) 0 chooseId st2 with
        | Except.error e => Except.error e
        | Except.ok st3 =>
          match pyInKey "default" action with
          | Except.error e => Except.error e
          | Except.ok false => Except.ok ([chooseId], st3)
          | Except.ok true =>
            let (defaultId, st4) := genNodeId "action" st3
            let st5 := addNode st4
              { id := defaultId, label := PyVal.str "Default/Else", type := compCondition,
                data := pyD [("type", PyVal.str "default")], color := some colorCondition }
            let st6 := addEdge st5
              { from_node := chooseId, to_node := defaultId, label := some "else" }
            match pyGetD action "default" (pyL []) with
            | Except.error e => Except.error e
            | Except.ok dv =>
              match seqLoop (processActionF fuel) (listWrapTruthy dv) 0 defaultId
                  Option.none defaultId st6 with
              | Except.error e => Except.error e
              | Except.ok (_, st7) => Except.ok ([chooseId], st7)
    | Except.ok false =>
    match pyInKey "if" action with
    | Except.error e => Except.error e
    | Except.ok true =>
      let (ifId, st1) := genNodeId "action" st
      match pyGetD action "if" (pyL []) with
      | Except.error e => Except.error e
      | Except.ok condv =>
        match summarizeConditions (listWrapTruthy condv) with
        | Except.error e => Except.error e
        | Except.ok summary =>
          match pyGetD action "if" (pyD []) with
          | Except.error e => Except.error e
          | Except.ok datav =>
            let st2 := addNode st1
              { id := ifId, label := PyVal.str ("If: " ++ pyStrOf summary),
                type := compCondition, data := datav, color := some colorCondition }
            match pyInKey "then" action with
            | Except.error e => Except.error e
            | Except.ok hasThen =>
              match
                (if hasThen then
                  match pyGetD action "then" (pyL []) with
                  | Except.error e => Except.error e
                  | Except.ok tv =>
                    match seqLoop (processActionF fuel) (listWrapTruthy tv) 0 ifId
                        (some "then") ifId st2 with
                    | Except.error e => Except.error e
                    | Except.ok (_, st3) => Except.ok st3
                else Except.ok st2) with
              | Except.error e => Except.error e
              | Except.ok st3 =>
                match pyInKey "else" action with
                | Except.error e => Except.error e
                | Except.ok hasElse =>
                  match
                    (if hasElse then
                      match pyGetD action "else" (pyL []) with
                      | Except.error e => Except.error e
                      | Except.ok ev =>
                        match seqLoop (processActionF fuel) (listWrapTruthy ev) 0 ifId
                            (some "else") ifId st3 with
                        | Except.error e => Except.error e
                        | Except.ok (_, st4) => Except.ok st4
                    else Except.ok st3) with
                  | Except.error e => Except.error e
                  | Except.ok st4 => Except.ok ([ifId], st4)
    | Except.ok false =>
    match pyInKey "parallel" action with
    | Except.error e => Except.error e
    | Except.ok true =>
      let (parallelId, st1) := genNodeId "action" st
      let st2 := addNode st1
        { id := parallelId, label := PyVal.str "Parallel Actions", type := compAction,
          data := pyD [("type", PyVal.str "parallel")], color := some colorAction }
      match pyGetD action "parallel" (pyL []) with
      | Except.error e => Except.error e
      | Except.ok pv =>
        match parallelLoop (processActionF fuel) (listWrapAlways pv) 0 parallelId st2 with
        | Except.error e => Except.error e
        | Except.ok st3 => Except.ok ([parallelId], st3)
    | Except.ok false =>
    match pyInKey "repeat" action with
    | Except.error e => Except.error e
    | Except.ok true =>
      let (repeatId, st1) := genNodeId "action" st
      match pyGetD action "repeat" (pyD []) with
      | Except.error e => Except.error e
      | Except.ok rc =>
        match pyInKey "count" rc with
        | Except.error e => Except.error e
        | Except.ok hasCount =>
          match
            (if hasCount then
              match pySubscr rc "count" with
              | Except.error e => Except.error e
              | Except.ok cnt => Except.ok ("Repeat " ++ pyStrOf cnt ++ "x")
            else
              match pyInKey "while" rc with
              | Except.error e => Except.error e
              | Except.ok true => Except.ok "Repeat while..."
              | Except.ok false =>
                match pyInKey "until" rc with
                | Except.error e => Except.error e
                | Except.ok true => Except.ok "Repeat until..."
                | Except.ok false => Except.ok "Repeat") with
          | Except.error e => Except.error e
          | Except.ok repeatLabel =>
            let st2 := addNode st1
              { id := repeatId, label := PyVal.str repeatLabel, type := compAction,
                data := pyD [("type", PyVal.str "repeat"), ("config", rc)],
                color := some colorAction }
            match pyGetD rc "sequence" (pyL []) with
            | Except.error e => Except.error e
            | Except.ok sv =>
              match seqLoop (processActionF fuel) (listWrapTruthy sv) 0 repeatId
                  (some "loop") repeatId st2 with
              | Except.error e => Except.error e
              | Except.ok (_, st3) => Except.ok ([repeatId], st3)
    | Except.ok false =>
      let (actionId, st1) := genNodeId "action" st
      match formatActionLabel action index with
      | Except.error e => Except.error e
      | Except.ok lbl =>
        let st2 := addNode st1
          { id := actionId, label := lbl, type := compAction,
            data := action, color := some colorAction }
        Except.ok ([actionId], st2)

/-! Top-level extraction pipeline of `parse_automation`. -/

/-- Trigger normalization of `_extract_triggers` (lines 183-187):
`cfg.get("triggers") or cfg.get("trigger", [])`, then wrap a non-list
unconditionally. -/
def normTriggers (cfg : PyVal) : Except String (List PyVal) :=
  match pyGetD cfg "triggers" PyVal.none with
  | Except.error e => Except.error e
  | Except.ok t1 =>
    if pyTruthy t1 then Except.ok (listWrapAlways t1)
    else
      match pyGetD cfg "trigger" (pyL []) with
      | Except.error e => Except.error e
      | Except.ok t2 => Except.ok (listWrapAlways t2)

/-- Condition normalization of `_extract_conditions` (lines 222-229):
like triggers but a falsy non-list value becomes the empty sequence. -/
def normConditions (cfg : PyVal) : Except String (List PyVal) :=
  match pyGetD cfg "conditions" PyVal.none with
  | Except.error e => Except.error e
  | Except.ok c1 =>
    if pyTruthy c1 then Except.ok (listWrapTruthy c1)
    else
      match pyGetD cfg "condition" (pyL []) with
      | Except.error e => Except.error e
      | Except.ok c2 => Except.ok (listWrapTruthy c2)

/-- Action normalization of `_extract_actions` (lines 263-267), same
shape as condition normalization. -/
def normActions (cfg : PyVal) : Except String (List PyVal) :=
  match pyGetD cfg "actions" PyVal.none with
  | Except.error e => Except.error e
  | Except.ok a1 =>
    if pyTruthy a1 then Except.ok (listWrapTruthy a1)
    else
      match pyGetD cfg "action" (pyL []) with
      | Except.error e => Except.error e
      | Except.ok a2 => Except.ok (listWrapTruthy a2)

/-- `_extract_metadata`: creates the metadata node and returns its id
together with the graph-level metadata entries. -/
def extractMetadata (cfg : PyVal) (st : PState) :
    Except String (String × List (String × PyVal) × PState) :=
  let (metaId, st1) := genNodeId "metadata" st
  match pyGetD cfg "alias" (PyVal.str "Automation") with
  | Except.error e => Except.error e
  | Except.ok aliasV =>
    match pyGetD cfg "description" (PyVal.str "") with
    | Except.error e => Except.error e
    | Except.ok description =>
      match pyGetD cfg "id" (PyVal.str "unknown") with
      | Except.error e => Except.error e
      | Except.ok automationId =>
        let st2 := addNode st1
          { id := metaId, label := aliasV, type := compMetadata,
            data := pyD [("automation_id", automationId), ("alias", aliasV),
              ("description", description)],
            color := some colorMetadata }
        Except.ok (metaId, [("automation_id", automationId), ("alias", aliasV)], st2)

/-- Node-creating loop of `_extract_triggers` (lines 190-206).  The
source first evaluates the unused `trigger.get("platform", "unknown")`,
which is what raises on a non-dict trigger item. -/
def triggersLoop : List PyVal → Nat → List String → PState →
    Except String (List String × PState)
  | [], _, acc, st => Except.ok (acc, st)
  | item :: rest, idx, acc, st =>
    let (triggerId, st1) := genNodeId "trigger" st
    match pyGetD item "platform" (PyVal.str "unknown") with
    | Except.error e => Except.error e
    | Except.ok _ =>
      match formatTriggerLabel item idx with
      | Except.error e => Except.error e
      | Except.ok lbl =>
        let st2 := addNode st1
          { id := triggerId, label := PyVal.str lbl, type := compTrigger,
            data := item, color := some colorTrigger }
        triggersLoop rest (idx + 1) (acc ++ [triggerId]) st2

/-- Node-creating loop of `_extract_conditions` (lines 232-246). -/
def conditionsLoop : List PyVal → Nat → List String → PState →
    Except String (List String × PState)
  | [], _, acc, st => Except.ok (acc, st)
  | item :: rest, idx, acc, st =>
    let (conditionId, st1) := genNodeId "condition" st
    match formatConditionLabel item idx with
    | Except.error e => Except.error e
    | Except.ok lbl =>
      let st2 := addNode st1
        { id := conditionId, label := PyVal.str lbl, type := compCondition,
          data := item, color := some colorCondition }
      conditionsLoop rest (idx + 1) (acc ++ [conditionId]) st2

/-- Action loop of `_extract_actions` (lines 269-273): each item goes
through the recursive expansion and its returned ids are appended. -/
def actionsLoop (fuel : Nat) : List PyVal → Nat → List String → PState →
    Except String (List String × PState)
  | [], _, acc, st => Except.ok (acc, st)
  | item :: rest, idx, acc, st =>
    match processActionF fuel item idx st with
    | Except.error e => Except.error e
    | Except.ok (ids, st1) => actionsLoop fuel rest (idx + 1) (acc ++ ids) st1

/-- Append several edges at once. -/
def addEdges (st : PState) (es : List AutomationEdge) : PState :=
  { st with edges := st.edges ++ es }

/-- Faithful translation of `_build_edges` (lines 708-774). -/
def buildEdges (metaId : String) (triggerIds conditionIds actionIds : List String)
    (st : PState) : PState :=
  let st1 := addEdges st (triggerIds.map fun t =>
    { from_node := metaId, to_node := t, label := Option.none })
  let st2 :=
    match conditionIds with
    | c0 :: crest =>
      let sA := addEdges st1 (triggerIds.map fun t =>
        { from_node := t, to_node := c0, label := some "if" })
      let sB := addEdges sA (chainEdges (some "AND") conditionIds)
      match actionIds with
      | a0 :: _ =>
        addEdge sB { from_node := crest.getLastD c0, to_node := a0, label := some "then" }
      | [] => sB
    | [] =>
      match actionIds with
      | a0 :: _ =>
        addEdges st1 (triggerIds.map fun t =>
          { from_node := t, to_node := a0, label := Option.none })
      | [] => st1
  addEdges st2 (chainEdges Option.none actionIds)

/-- `parse_automation` body given an explicit fuel bound: fresh graph,
counter reset to zero, the four extraction passes, then `_build_edges`.
Returns the graph together with the final node counter. -/
def parseFrom (fuel : Nat) (cfg : PyVal) : Except String (AutomationGraph × Nat) :=
  let st0 : PState := { counter := 0, nodes := [], edges := [] }
  match extractMetadata cfg st0 with
  | Except.error e => Except.error e
  | Except.ok (metaId, gmeta, st1) =>
    match normTriggers cfg with
    | Except.error e => Except.error e
    | Except.ok triggerItems =>
      match triggersLoop triggerItems 0 [] st1 with
      | Except.error e => Except.error e
      | Except.ok (triggerIds, st2) =>
        match normConditions cfg with
        | Except.error e => Except.error e
        | Except.ok conditionItems =>
          match conditionsLoop conditionItems 0 [] st2 with
          | Except.error e => Except.error e
          | Except.ok (conditionIds, st3) =>
            match normActions cfg with
            | Except.error e => Except.error e
            | Except.ok actionItems =>
              match actionsLoop fuel actionItems 0 [] st3 with
              | Except.error e => Except.error e
              | Except.ok (actionIds, st4) =>
                let st5 := buildEdges metaId triggerIds conditionIds actionIds st4
                Except.ok ({ nodes := st5.nodes, edges := st5.edges, metadata := gmeta },
                  st5.counter)

/-- The module-level convenience function `parse_automation` (a fresh
parser per call).  The fuel `pySize cfg` is sufficient for the nested
recursion (see the stability lemmas below). -/
def parse_automation (cfg : PyVal) : Except String AutomationGraph :=
  (parseFrom (pySize cfg) cfg).map Prod.fst

/-- The method `AutomationGraphParser.parse_automation` called on an
instance whose node counter currently holds `priorCounter`: line 108 of
the source resets the counter to zero before parsing, so the prior
instance state is never read. -/
def parse_automation_method (_priorCounter : Nat) (cfg : PyVal) :
    Except String AutomationGraph :=
  (parseFrom (pySize cfg) cfg).map Prod.fst

/-! Embedding of `services/dependency_graph_service.py`.  The service
methods are `async` but perform no real suspension; they are embedded as
pure functions over the automation collection (the `hass.data["automation"]`
mapping, modelled as an ordered association list of id/config pairs).
The blanket `try/except` of each method is modelled where it is
observable; `Option` results use `none` for an escape by exception or for
exhaustion of the recursion (Python: `RecursionError`), both of which the
blanket handlers catch. -/

structure DependencyRelation where
  source_automation_id : String
  target_automation_id : String
  source_alias : PyVal
  target_alias : PyVal
  dependency_type : String
  is_required : Bool := true
  likelihood : Rat := 1
  delay : Option Int := Option.none
  has_circular_dependency : Bool := false
  could_cause_race_condition : Bool := false
  could_cause_loop : Bool := false

structure DependencyChain where
  automations : List String := []
  aliases : List PyVal := []
  total_estimated_duration : Nat := 0
  is_circular : Bool := false
  is_optimal : Bool := true
  risk_level : String := "low"
  potential_issues : List String := []
  optimization_suggestions : List String := []

structure DependencyGraph where
  nodes : List String := []
  edges : List DependencyRelation := []
  chains : List DependencyChain := []
  circular_dependencies : List DependencyChain := []
  total_automations : Nat := 0
  total_dependencies : Nat := 0
  avg_chain_length : Rat := 0
  has_circular_deps : Bool := false
  critical_path_length : Nat := 0

/-- First-match lookup in the automation collection
(`automations.get(aid)`). -/
def autosGet (autos : List (String × PyVal)) (aid : String) : Option PyVal :=
  match autos with
  | [] => Option.none
  | (k, v) :: rest => if k = aid then some v else autosGet rest aid

/-- `automations_config.get(aid, {}).get("alias", aid)`: raises when the
stored config is not a dict. -/
def aliasOf (autos : List (String × PyVal)) (aid : String) : Except String PyVal :=
  match autosGet autos aid with
  | Option.none => Except.ok (PyVal.str aid)
  | some cfg => pyGetD cfg "alias" (PyVal.str aid)

/-- Aliases of a whole id sequence (first failure propagates). -/
def aliasesOf (autos : List (String × PyVal)) : List String → Except String (List PyVal)
  | [] => Except.ok []
  | aid :: rest =>
    match aliasOf autos aid with
    | Except.error e => Except.error e
    | Except.ok a =>
      match aliasesOf autos rest with
      | Except.error e => Except.error e
      | Except.ok as2 => Except.ok (a :: as2)

/-- Python `set.add` modelled on an insertion-ordered list. -/
def addStr (xs : List String) (x : String) : List String :=
  if xs.contains x then xs else xs ++ [x]

/-- Python `set.add` for embedded values (entity-id sets). -/
def addEnt (es : List PyVal) (v : PyVal) : List PyVal :=
  if es.any (fun s => pyBeq s v) then es else es ++ [v]

/-- Entity ids referenced by the source automation actions
(lines 141-148): only dict action items with a top-level `entity_id`
contribute; list values are unioned elementwise. -/
def srcEntities (actions : List PyVal) : List PyVal :=
  actions.foldl
    (fun es a =>
      match a with
      | PyVal.dict kvs =>
        match kvLookup kvs "entity_id" with
        | some (PyVal.list xs) => xs.toList.foldl addEnt es
        | some v => addEnt es v
        | Option.none => es
      | _ => es)
    []

/-- Whether some trigger item references one of the source entities
(lines 160-190: first matching trigger appends one edge and breaks). -/
def triggersMatch (ses : List PyVal) (triggers : List PyVal) : Bool :=
  triggers.any fun tg =>
    match tg with
    | PyVal.dict kvs =>
      let te := dGet kvs "entity_id" PyVal.none
      pyTruthy te &&
        (match te with
         | PyVal.list xs => xs.toList.any (fun e => ses.any (fun s => pyBeq s e))
         | v => ses.any (fun s => pyBeq s v))
    | _ => false

/-- Inner loop of `build_dependency_graph` over target automations for a
fixed source (lines 151-190). -/
def depEdgesForSource (allAutos : List (String × PyVal)) (sid : String)
    (salias : PyVal) (ses : List PyVal) :
    List (String × PyVal) → Except String (List DependencyRelation)
  | [] => Except.ok []
  | (tid, tcfg) :: rest =>
    if sid = tid then depEdgesForSource allAutos sid salias ses rest
    else
      match pyGetD tcfg "alias" (PyVal.str tid) with
      | Except.error e => Except.error e
      | Except.ok talias =>
        match pyGetD tcfg "trigger" (pyL []) with
        | Except.error e => Except.error e
        | Except.ok tv =>
          let triggers := listWrapAlways tv
          match depEdgesForSource allAutos sid salias ses rest with
          | Except.error e => Except.error e
          | Except.ok more =>
            if triggersMatch ses triggers then
              Except.ok
                ({ source_automation_id := sid, target_automation_id := tid,
                   source_alias := salias, target_alias := talias,
                   dependency_type := "entity_trigger", is_required := true,
                   likelihood := (9 : Rat) / 10 } :: more)
            else Except.ok more

/-- Edge collection of `build_dependency_graph` (lines 131-192): for each
ordered pair of distinct automations, one `entity_trigger` relation when
a source action entity feeds a target trigger. -/
def buildDepEdgesE : List (String × PyVal) → List (String × PyVal) →
    Except String (List DependencyRelation)
  | _, [] => Except.ok []
  | allAutos, (sid, cfg) :: rest =>
    match pyGetD cfg "alias" (PyVal.str sid) with
    | Except.error e => Except.error e
    | Except.ok salias =>
      match pyGetD cfg "action" (pyL []) with
      | Except.error e => Except.error e
      | Except.ok sa =>
        let ses := srcEntities (listWrapTruthy sa)
        match depEdgesForSource allAutos sid salias ses allAutos with
        | Except.error e => Except.error e
        | Except.ok here =>
          match buildDepEdgesE allAutos rest with
          | Except.error e => Except.error e
          | Except.ok more => Except.ok (here ++ more)

/-- The dependency edges of the whole collection. -/
def build_dependency_edges (autos : List (String × PyVal)) :
    Except String (List DependencyRelation) :=
  buildDepEdgesE autos autos

/-- Edge scan of one `has_cycle` activation (lines 294-324).  `hc` is the
recursive call on an unvisited neighbor; `visited` and the chain list are
threaded through the loop, the recursion stack and the path belong to the
current activation.  `Option.none` models an escape by exception or by
`RecursionError`, both swallowed by the method-level `except`. -/
def cycEdgeLoop
    (hc : String → List String → List DependencyChain →
      Option (Bool × List String × List DependencyChain))
    (autos : List (String × PyVal)) (node : String) (recStack1 path1 : List String) :
    List DependencyRelation → List String → List DependencyChain →
    Option (Bool × List String × List DependencyChain)
  | [], visited, chains => some (false, visited, chains)
  | e :: rest, visited, chains =>
    if e.source_automation_id = node then
      let neighbor := e.target_automation_id
      if visited.contains neighbor then
        if recStack1.contains neighbor then
          match path1.indexOf? neighbor with
          | Option.none => Option.none
          | some i =>
            let cycleIds := path1.drop i
            match aliasesOf autos cycleIds with
            | Except.error _ => Option.none
            | Except.ok als =>
              some (true, visited, chains ++
                [{ automations := cycleIds, aliases := als, is_circular := true,
                   risk_level := "high",
                   potential_issues := ["Circular dependency detected",
                     "Could cause infinite execution loops"] }])
        else cycEdgeLoop hc autos node recStack1 path1 rest visited chains
      else
        match hc neighbor visited chains with
        | Option.none => Option.none
        | some (true, v2, ch2) => some (true, v2, ch2)
        | some (false, v2, ch2) => cycEdgeLoop hc autos node recStack1 path1 rest v2 ch2
    else cycEdgeLoop hc autos node recStack1 path1 rest visited chains

/-- Faithful translation of the nested `has_cycle` (lines 283-327),
structurally recursive on fuel. -/
def hasCycleF : Nat → List DependencyRelation → List (String × PyVal) → String →
    List String → List String → List String → List DependencyChain →
    Option (Bool × List String × List DependencyChain)
  | 0, _, _, _, _, _, _, _ => Option.none
  | Nat.succ fuel, edges, autos, node, visited, recStack, path, chains =>
    let visited1 := addStr visited node
    let recStack1 := addStr recStack node
    let path1 := path ++ [node]
    cycEdgeLoop (fun nb v ch => hasCycleF fuel edges autos nb v recStack1 path1 ch)
      autos node recStack1 path1 edges visited1 chains

/-- Outer node loop of `detect_circular_dependencies` (lines 329-332). -/
def detectOuterLoop (edges : List DependencyRelation) (autos : List (String × PyVal))
    (fuel : Nat) :
    List String → List String → List DependencyChain →
    Option (List DependencyChain)
  | [], _, chains => some chains
  | node :: rest, visited, chains =>
    if visited.contains node then detectOuterLoop edges autos fuel rest visited chains
    else
      match hasCycleF fuel edges autos node visited [] [] chains with
      | Option.none => Option.none
      | some (_, v2, ch2) => detectOuterLoop edges autos fuel rest v2 ch2

/-- The DFS part of `detect_circular_dependencies` (lines 280-338) run on
an already-built dependency graph: returns the circular chains, or the
empty list when the inner computation escapes by exception (that is the
method-level `except ... return []`).  Fuel `nodes + edges + 1` exceeds
the number of possible `has_cycle` activations (each consumes an
unvisited node). -/
def detect_circular_dependencies_on (g : DependencyGraph)
    (autos : List (String × PyVal)) : List DependencyChain :=
  match detectOuterLoop g.edges autos (g.nodes.length + g.edges.length + 1)
      g.nodes [] [] with
  | some chains => chains
  | Option.none => []

/-- A recorded (non-circular) chain of `find_chains` (lines 251-258). -/
def mkTraceChain (ids : List String) (als : List PyVal) : DependencyChain :=
  { automations := ids, aliases := als,
    total_estimated_duration := ids.length * 100,
    is_circular := false, risk_level := "low" }

/-- Edge scan of one `trace_chain` activation (lines 236-241). -/
def chainEdgeLoop
    (tc : String → List String → List DependencyChain →
      Option (List String × List DependencyChain))
    (start : String) :
    List DependencyRelation → List String → List DependencyChain →
    Option (List String × List DependencyChain)
  | [], visited, chains => some (visited, chains)
  | e :: rest, visited, chains =>
    if e.source_automation_id = start then
      match tc e.target_automation_id visited chains with
      | Option.none => Option.none
      | some (v2, ch2) => chainEdgeLoop tc start rest v2 ch2
    else chainEdgeLoop tc start rest visited chains

/-- Faithful translation of the nested `trace_chain` (lines 226-259).
The source bounds the walk by `len(current_chain) > 20`; fuel 25 per
top-level start is therefore never exhausted. -/
def traceChainF (edges : List DependencyRelation) (autos : List (String × PyVal)) :
    Nat → String → List String → List String → List DependencyChain →
    Option (List String × List DependencyChain)
  | 0, _, _, _, _ => Option.none
  | Nat.succ fuel, start, chain, visited, chains =>
    if visited.contains start || decide (chain.length > 20) then some (visited, chains)
    else
      let visited1 := addStr visited start
      let chain1 := chain ++ [start]
      match chainEdgeLoop (fun tgt v ch => traceChainF edges autos fuel tgt chain1 v ch)
          start edges visited1 chains with
      | Option.none => Option.none
      | some (v2, ch2) =>
        if !(edges.any fun e => e.source_automation_id == start) &&
            decide (chain1.length > 1) then
          match aliasesOf autos chain1 with
          | Except.error _ => Option.none
          | Except.ok als => some (v2, ch2 ++ [mkTraceChain chain1 als])
        else some (v2, ch2)

/-- Outer loop of `find_chains` over graph nodes (lines 261-263), run on
an already-built dependency graph. -/
def findChainsLoop (edges : List DependencyRelation) (autos : List (String × PyVal)) :
    List String → List String → List DependencyChain → Option (List DependencyChain)
  | [], _, chains => some chains
  | node :: rest, visited, chains =>
    if visited.contains node then findChainsLoop edges autos rest visited chains
    else
      match traceChainF edges autos 25 node [] visited chains with
      | Option.none => Option.none
      | some (v2, ch2) => findChainsLoop edges autos rest v2 ch2

/-- The chain-walk part of `find_chains` on an already-built graph. -/
def find_chains_on (g : DependencyGraph) (autos : List (String × PyVal)) :
    List DependencyChain :=
  match findChainsLoop g.edges autos g.nodes [] [] with
  | some chains => chains
  | Option.none => []

/-- One direct-dependent entry of `analyze_automation_impact`
(lines 361-368). -/
structure DirectDep where
  automation_id : String
  aliasV : PyVal
  dependency_type : String
  risk : String

/-- Result dictionary of `analyze_automation_impact` (lines 388-399), or
the `{"error": ...}` dictionary produced by its `except` handler. -/
inductive ImpactOut : Type where
  | ok (automation_id : String) (direct_dependents : List DirectDep)
      (cascade_count : Int) (total_affected : Nat)
      (affected_automations : List String) (risk_level : String) : ImpactOut
  | err (msg : String) : ImpactOut

/-- Faithful translation of the nested `find_cascade` (lines 372-384).
Its loop body first adds the target to the affected set and then runs
`cascade_count += 1`; `cascade_count` is a local of the enclosing scope
with no `nonlocal` declaration, so that statement raises
`UnboundLocalError` before the recursive call is ever reached.  No
recursion or depth bookkeeping is therefore observable: the function
either finds no edge whose target is missing from `affected` (and
returns it unchanged) or raises on the first one it finds. -/
def findCascade : List DependencyRelation → List String → String →
    Except String (List String)
  | [], affected, _ => Except.ok affected
  | e :: rest, affected, autoId =>
    if e.source_automation_id = autoId && !(affected.contains e.target_automation_id) then
      Except.error "UnboundLocalError: cascade_count referenced before assignment"
    else findCascade rest affected autoId

/-- `analyze_automation_impact` (lines 340-403) run on an already-built
dependency graph. -/
def analyze_automation_impact_on (g : DependencyGraph) (autoId : String) : ImpactOut :=
  let matching := g.edges.filter (fun e => e.source_automation_id = autoId)
  let direct := matching.map fun e =>
    { automation_id := e.target_automation_id, aliasV := e.target_alias,
      dependency_type := e.dependency_type,
      risk := if e.could_cause_loop then "high" else "low" : DirectDep }
  let affected := matching.foldl (fun acc e => addStr acc e.target_automation_id) []
  match findCascade g.edges affected autoId with
  | Except.error e => ImpactOut.err e
  | Except.ok affected2 =>
    ImpactOut.ok autoId direct ((affected2.length : Int) - (direct.length : Int))
      affected2.length affected2
      (if affected2.length > 5 then "high"
       else if affected2.length > 2 then "medium" else "low")

/-- One entry of the simulated execution order (lines 527-538). -/
structure ExecEntry where
  order : Nat
  automation_id : String
  aliasV : PyVal
  depth : Nat
  estimated_duration_ms : Nat
  expected_start_ms : Nat

/-- Edge scan of one `add_to_execution` activation (lines 541-543). -/
def simEdgeLoop
    (ae : String → List String → List ExecEntry →
      Option (List String × List ExecEntry))
    (auto : String) :
    List DependencyRelation → List String → List ExecEntry →
    Option (List String × List ExecEntry)
  | [], visited, order => some (visited, order)
  | e :: rest, visited, order =>
    if e.source_automation_id = auto then
      match ae e.target_automation_id visited order with
      | Option.none => Option.none
      | some (v2, o2) => simEdgeLoop ae auto rest v2 o2
    else simEdgeLoop ae auto rest visited order

/-- Faithful translation of the nested `add_to_execution`
(lines 517-543); the walk is bounded by `depth > 10`, so fuel 15 is never
exhausted. -/
def addToExecutionF (edges : List DependencyRelation) (autos : List (String × PyVal)) :
    Nat → String → Nat → List String → List ExecEntry →
    Option (List String × List ExecEntry)
  | 0, _, _, _, _ => Option.none
  | Nat.succ fuel, auto, depth, visited, order =>
    if visited.contains auto || decide (depth > 10) then some (visited, order)
    else
      let visited1 := addStr visited auto
      match aliasOf autos auto with
      | Except.error _ => Option.none
      | Except.ok al =>
        let order1 := order ++
          [{ order := order.length + 1, automation_id := auto, aliasV := al,
             depth := depth, estimated_duration_ms := 100 * (depth + 1),
             expected_start_ms := 100 * order.length }]
        simEdgeLoop (fun tgt v o => addToExecutionF edges autos fuel tgt (depth + 1) v o)
          auto edges visited1 order1

/-- `simulate_execution_order` (lines 498-551) on an already-built graph. -/
def simulate_execution_order_on (g : DependencyGraph)
    (autos : List (String × PyVal)) (startId : String) : List ExecEntry :=
  match addToExecutionF g.edges autos 15 startId 0 [] [] with
  | some (_, order) => order
  | Option.none => []

/-- Graph fields of `build_dependency_graph` set before the recursive
call (lines 127-197): node ids, totals, edges and the average length. -/
def buildGraphCoreFields (autos : List (String × PyVal))
    (es : List DependencyRelation) : DependencyGraph :=
  { nodes := autos.map Prod.fst,
    edges := es,
    total_automations := autos.length,
    total_dependencies := es.length,
    avg_chain_length := (es.length : Rat) / (max 1 autos.length : Rat) }

mutual

/-- Faithful translation of `build_dependency_graph` (lines 112-210) with
the number of remaining interpreter call frames as fuel.  For a non-empty
collection line 201 invokes `detect_circular_dependencies`, which on
line 281 invokes `build_dependency_graph` again: the two methods recurse
mutually with no base case, so no finite fuel lets the call return
(`Option.none`).  When the edge computation raises (a non-dict config),
the `except` handler returns the partially filled graph without reaching
the recursive call. -/
def build_dependency_graph_fuel : Nat → List (String × PyVal) → Option DependencyGraph
  | 0, _ => Option.none
  | Nat.succ fuel, autos =>
    if autos.isEmpty then some {}
    else
      match build_dependency_edges autos with
      | Except.error _ =>
        some { nodes := autos.map Prod.fst, total_automations := autos.length }
      | Except.ok es =>
        match detect_circular_dependencies_fuel fuel autos with
        | Option.none => Option.none
        | some circ =>
          some { buildGraphCoreFields autos es with
                 circular_dependencies := circ,
                 has_circular_deps := !circ.isEmpty }

/-- Faithful translation of `detect_circular_dependencies`
(lines 271-338): it first rebuilds the whole dependency graph
(line 281) and only then runs the DFS on it. -/
def detect_circular_dependencies_fuel : Nat → List (String × PyVal) →
    Option (List DependencyChain)
  | 0, _ => Option.none
  | Nat.succ fuel, autos =>
    match build_dependency_graph_fuel fuel autos with
    | Option.none => Option.none
    | some g => some (detect_circular_dependencies_on g autos)

end

/-- Faithful translation of `find_chains` (lines 212-269): builds the
graph (line 222), then walks the chains. -/
def find_chains_fuel : Nat → List (String × PyVal) → Option (List DependencyChain)
  | 0, _ => Option.none
  | Nat.succ fuel, autos =>
    match build_dependency_graph_fuel fuel autos with
    | Option.none => Option.none
    | some g => some (find_chains_on g autos)

/-- Faithful translation of `analyze_automation_impact` (line 352 builds
the graph first). -/
def analyze_automation_impact_fuel : Nat → List (String × PyVal) → String →
    Option ImpactOut
  | 0, _, _ => Option.none
  | Nat.succ fuel, autos, autoId =>
    match build_dependency_graph_fuel fuel autos with
    | Option.none => Option.none
    | some g => some (analyze_automation_impact_on g autoId)

/-- Faithful translation of `simulate_execution_order` (line 513 builds
the graph first). -/
def simulate_execution_order_fuel : Nat → List (String × PyVal) → String →
    Option (List ExecEntry)
  | 0, _, _ => Option.none
  | Nat.succ fuel, autos, startId =>
    match build_dependency_graph_fuel fuel autos with
    | Option.none => Option.none
    | some g => some (simulate_execution_order_on g autos startId)

/-! Claim theorems. -/

/-- The concrete input of claim C2. -/
def c2Cfg : PyVal := pyD [
  ("alias", PyVal.str "t"),
  ("trigger", pyD [("platform", PyVal.str "state"), ("entity_id", PyVal.str "s.x"),
    ("to", PyVal.str "on")]),
  ("action", pyD [("service", PyVal.str "light.turn_on"),
    ("target", pyD [("entity_id", PyVal.str "light.y")])])]

/-- C2: on the concrete configuration with one state trigger and one
service-call action, `parse_automation` returns a graph with exactly
three nodes — one metadata, one trigger, one action, in that order — and
exactly two edges, metadata→trigger and trigger→action, both unlabeled. -/
theorem claim_C2_concrete_scenario :
    (parse_automation c2Cfg).map
        (fun g => (g.nodes.map (fun n => (n.id, n.type)), g.edges)) =
      Except.ok
        ([("metadata_1", compMetadata), ("trigger_2", compTrigger),
          ("action_3", compAction)],
         [{ from_node := "metadata_1", to_node := "trigger_2", label := Option.none },
          { from_node := "trigger_2", to_node := "action_3", label := Option.none }]) := rfl

/-- C10: the parse result does not depend on the node-counter state the
parser instance happens to hold before the call (line 108 resets it), so
two successive calls on the identical input return identical graphs —
in particular identical node counts, node labels, edge endpoints and
edge labels. -/
theorem claim_C10_deterministic (cfg : PyVal) (prior1 prior2 : Nat) :
    parse_automation_method prior1 cfg = parse_automation_method prior2 cfg ∧
    parse_automation_method prior1 cfg = parse_automation cfg :=
  ⟨rfl, rfl⟩

/-- An `entity_trigger` relation as `build_dependency_graph` creates it. -/
def entityRel (s t : String) : DependencyRelation :=
  { source_automation_id := s, target_automation_id := t,
    source_alias := PyVal.str s, target_alias := PyVal.str t,
    dependency_type := "entity_trigger", is_required := true,
    likelihood := (9 : Rat) / 10 }

/-- Dependency graph with edges A→B and B→C (the C9 failing input). -/
def c9Graph : DependencyGraph :=
  { nodes := ["A", "B", "C"], edges := [entityRel "A" "B", entityRel "B" "C"],
    total_automations := 3, total_dependencies := 2 }

/-- C9 (code bug): on the graph A→B→C, `analyze_automation_impact("A")`
returns only the direct dependent B — `total_affected = 1`, C absent —
because `find_cascade` never recurses: every target of an edge leaving
"A" is already in `affected_automations` before it runs, so the
depth-bounded transitive closure promised by the docstring (and the
spec) is never computed. -/
theorem claim_C9_no_cascade :
    analyze_automation_impact_on c9Graph "A" =
      ImpactOut.ok "A"
        [{ automation_id := "B", aliasV := PyVal.str "B",
           dependency_type := "entity_trigger", risk := "low" }]
        0 1 ["B"] "low" := rfl

/-- Helper for C1: for a non-empty collection whose edge computation does
not raise, `build_dependency_graph` and `detect_circular_dependencies`
never return, whatever the available call depth. -/
theorem buildDetectNeverReturns (autos : List (String × PyVal))
    (hne : autos ≠ []) (es : List DependencyRelation)
    (hok : build_dependency_edges autos = Except.ok es) :
    ∀ fuel : Nat,
      build_dependency_graph_fuel fuel autos = Option.none ∧
      detect_circular_dependencies_fuel fuel autos = Option.none := by
  intro fuel
  induction fuel with
  | zero => exact ⟨rfl, rfl⟩
  | succ f ih =>
    have hempty : autos.isEmpty = false := by
      cases autos with
      | nil => exact absurd rfl hne
      | cons a rest => rfl
    constructor
    · show build_dependency_graph_fuel (f + 1) autos = Option.none
      simp only [build_dependency_graph_fuel, hempty, Bool.false_eq_true, if_false, hok]
      rw [ih.2]
    · show detect_circular_dependencies_fuel (f + 1) autos = Option.none
      simp only [detect_circular_dependencies_fuel]
      rw [ih.1]

/-- C1 (code bug): no Dependency Graph Engine entry point terminates on a
non-empty automation collection (here: any collection whose edge
computation itself does not raise).  `build_dependency_graph` (line 201)
calls `detect_circular_dependencies`, which (line 281) calls
`build_dependency_graph` again — an unbounded mutual recursion that no
visited-set bookkeeping limits, and every other entry point starts by
building the graph.  In the fuel model: whatever call depth `fuel` is
granted, every entry point exhausts it. -/
theorem claim_C1_entry_points_diverge (autos : List (String × PyVal))
    (autoId : String) (fuel : Nat) (hne : autos ≠ [])
    (hok : ∃ es, build_dependency_edges autos = Except.ok es) :
    build_dependency_graph_fuel fuel autos = Option.none ∧
    detect_circular_dependencies_fuel fuel autos = Option.none ∧
    find_chains_fuel fuel autos = Option.none ∧
    analyze_automation_impact_fuel fuel autos autoId = Option.none ∧
    simulate_execution_order_fuel fuel autos autoId = Option.none := by
  obtain ⟨es, hok⟩ := hok
  have h := buildDetectNeverReturns autos hne es hok
  refine ⟨(h fuel).1, (h fuel).2, ?_, ?_, ?_⟩ <;>
    cases fuel with
    | zero => rfl
    | succ f =>
      simp only [find_chains_fuel, analyze_automation_impact_fuel,
        simulate_execution_order_fuel]
      rw [(h f).1]

/-- Witness for C1 at the one-automation collection `{"a1": {}}`. -/
theorem claim_C1_witness :
    build_dependency_graph_fuel 6 [("a1", pyD [])] = Option.none ∧
    detect_circular_dependencies_fuel 6 [("a1", pyD [])] = Option.none ∧
    find_chains_fuel 6 [("a1", pyD [])] = Option.none ∧
    analyze_automation_impact_fuel 6 [("a1", pyD [])] "a1" = Option.none ∧
    simulate_execution_order_fuel 6 [("a1", pyD [])] "a1" = Option.none :=
  claim_C1_entry_points_diverge [("a1", pyD [])] "a1" 6 (by simp) ⟨[], rfl⟩

/-! Claim C4 compares the Dependency Engine's entity extraction with the
Parser's.  The following specification-side definitions spell out the
claim wording "the same extraction rules as the Parser": actions and
triggers are normalized with the Parser's normalizers (which accept both
the singular and the plural key spellings), an action references its
top-level `entity_id` or the `entity_id` of a service call's `target`,
and a trigger references its `entity_id`. -/

/-- Append the entity id(s) in `v` to the set `es` (list values union
their elements). -/
def addEntVal (es : List PyVal) (v : PyVal) : List PyVal :=
  match v with
  | PyVal.list xs => xs.toList.foldl addEnt es
  | other => addEnt es other

/-- Entity reference of one action item per the claim wording: its
top-level `entity_id`, else the `entity_id` of its `target`. -/
def specActionEntity (kvs : PyKvs) : Option PyVal :=
  match kvLookup kvs "entity_id" with
  | some v => some v
  | Option.none =>
    match kvLookup kvs "target" with
    | some (PyVal.dict tkvs) => kvLookup tkvs "entity_id"
    | _ => Option.none

/-- Parser-rule entity usage of an automation's actions. -/
def specSourceEntities (cfg : PyVal) : List PyVal :=
  match normActions cfg with
  | Except.error _ => []
  | Except.ok items =>
    items.foldl
      (fun es a =>
        match a with
        | PyVal.dict kvs =>
          match specActionEntity kvs with
          | some v => addEntVal es v
          | Option.none => es
        | _ => es)
      []

/-- Parser-rule entity usage of an automation's triggers. -/
def specTargetTriggerEntities (cfg : PyVal) : List PyVal :=
  match normTriggers cfg with
  | Except.error _ => []
  | Except.ok items =>
    items.foldl
      (fun es tg =>
        match tg with
        | PyVal.dict kvs =>
          let te := dGet kvs "entity_id" PyVal.none
          if pyTruthy te then addEntVal es te else es
        | _ => es)
      []

/-- Non-empty intersection of two entity sets. -/
def entsIntersect (a b : List PyVal) : Bool :=
  a.any fun x => b.any fun y => pyBeq x y

/-- Dependency pairs according to the claim wording: ordered pairs of
distinct automations whose parser-rule action entities meet the
target's parser-rule trigger entities. -/
def spec_dependency_pairs (autos : List (String × PyVal)) : List (String × String) :=
  autos.foldr
    (fun s acc =>
      ((autos.filter fun t =>
          t.1 != s.1 && entsIntersect (specSourceEntities s.2) (specTargetTriggerEntities t.2)).map
        fun t => (s.1, t.1)) ++ acc)
    []

/-- Collection A→B spelled with singular keys and top-level entity ids. -/
def c4Singular : List (String × PyVal) :=
  [("A", pyD [("action", pyD [("entity_id", PyVal.str "e1")])]),
   ("B", pyD [("trigger", pyD [("entity_id", PyVal.str "e1")])])]

/-- The same collection spelled with the plural keys. -/
def c4Plural : List (String × PyVal) :=
  [("A", pyD [("actions", pyD [("entity_id", PyVal.str "e1")])]),
   ("B", pyD [("triggers", pyD [("entity_id", PyVal.str "e1")])])]

/-- The same collection with the source entity given via the service
call's `target`. -/
def c4Target : List (String × PyVal) :=
  [("A", pyD [("action", pyD [("service", PyVal.str "light.turn_on"),
      ("target", pyD [("entity_id", PyVal.str "e1")])])]),
   ("B", pyD [("trigger", pyD [("entity_id", PyVal.str "e1")])])]

/-- C4 counterexample: the parser-rule extraction treats the three
spellings as the same dependency A→B, but the engine emits the edge only
for the singular top-level spelling — plural keys and service-target
references yield no edges at all. -/
theorem claim_C4_counterexample :
    build_dependency_edges c4Singular = Except.ok [entityRel "A" "B"] ∧
    build_dependency_edges c4Plural = Except.ok [] ∧
    build_dependency_edges c4Target = Except.ok [] ∧
    spec_dependency_pairs c4Singular = [("A", "B")] ∧
    spec_dependency_pairs c4Plural = [("A", "B")] ∧
    spec_dependency_pairs c4Target = [("A", "B")] :=
  ⟨rfl, rfl, rfl, rfl, rfl, rfl⟩

/-- No trigger can match against the empty source-entity set. -/
theorem triggersMatch_nil : ∀ triggers : List PyVal, triggersMatch [] triggers = false := by
  have hin : ∀ l : List PyVal, (l.any fun e => ([] : List PyVal).any fun s => pyBeq s e) = false := by
    intro l
    induction l with
    | nil => rfl
    | cons a t ih => simp only [List.any_cons, List.any_nil, Bool.false_or]; exact ih
  have hfalse : ∀ l : List PyVal, (l.any fun _ => false) = false := by
    intro l
    induction l with
    | nil => rfl
    | cons a t ih => simp only [List.any_cons, Bool.false_or]; exact ih
  intro triggers
  induction triggers with
  | nil => rfl
  | cons tg rest ih =>
    simp only [triggersMatch] at ih ⊢
    rw [List.any_cons, ih, Bool.or_false]
    cases tg with
    | dict kvs =>
      cases hte : dGet kvs "entity_id" PyVal.none <;>
        simp only [hte, hin, hfalse, List.any_nil, Bool.and_false]
    | none => rfl
    | bool b => rfl
    | int n => rfl
    | str s => rfl
    | list xs => rfl

/-- Source scan against an empty entity set never emits an edge and
never raises when every target config is a dict. -/
theorem depEdgesForSource_empty (allAutos : List (String × PyVal)) (sid : String)
    (salias : PyVal) (targets : List (String × PyVal))
    (ht : ∀ p ∈ targets, ∃ kvs, p.2 = PyVal.dict kvs) :
    depEdgesForSource allAutos sid salias [] targets = Except.ok [] := by
  induction targets with
  | nil => rfl
  | cons p rest ih =>
    obtain ⟨tid, tcfg⟩ := p
    obtain ⟨kvs, hk⟩ := ht (tid, tcfg) (List.mem_cons_self _ _)
    have hrest := ih fun q hq => ht q (List.mem_cons_of_mem _ hq)
    simp only at hk
    subst hk
    simp only [depEdgesForSource, pyGetD, hrest, triggersMatch_nil, Bool.false_eq_true,
      if_false]
    split
    · rfl
    · rfl

/-- C4 (amended): the Dependency Engine does not reuse the Parser's
extraction rules; it reads only the singular `action`/`trigger` keys and
top-level `entity_id` fields.  In particular a collection whose configs
carry no singular `action` key (e.g. one spelled entirely with the
plural keys) contributes no source entities and therefore produces no
dependency edges at all, even when the parser-rule extraction finds
dependencies. -/
theorem claim_C4_amended_plural_invisible (autos : List (String × PyVal))
    (h : ∀ p ∈ autos, ∃ kvs, p.2 = PyVal.dict kvs ∧ kvLookup kvs "action" = Option.none) :
    build_dependency_edges autos = Except.ok [] := by
  have hT : ∀ p ∈ autos, ∃ kvs, p.2 = PyVal.dict kvs :=
    fun p hp => (h p hp).imp fun kvs hk => hk.1
  have core : ∀ sources : List (String × PyVal),
      (∀ p ∈ sources, ∃ kvs, p.2 = PyVal.dict kvs ∧ kvLookup kvs "action" = Option.none) →
      buildDepEdgesE autos sources = Except.ok [] := by
    intro sources hs
    induction sources with
    | nil => rfl
    | cons p rest ih =>
      obtain ⟨sid, cfg⟩ := p
      obtain ⟨kvs, hdict, hact⟩ := hs (sid, cfg) (List.mem_cons_self _ _)
      have hrest := ih fun q hq => hs q (List.mem_cons_of_mem _ hq)
      simp only at hdict
      subst hdict
      simp only [buildDepEdgesE, pyGetD, hact, Option.getD_none, hrest]
      have hse : srcEntities (listWrapTruthy (pyL [])) = [] := rfl
      rw [hse, depEdgesForSource_empty autos sid _ autos hT]
      rfl
  exact core autos h

/-- Witness for the amended C4 at the concrete plural-keyed collection. -/
theorem claim_C4_amended_witness : build_dependency_edges c4Plural = Except.ok [] := by
  apply claim_C4_amended_plural_invisible
  intro p hp
  simp only [c4Plural, List.mem_cons, List.not_mem_nil, or_false] at hp
  rcases hp with rfl | rfl
  · exact ⟨_, rfl, rfl⟩
  · exact ⟨_, rfl, rfl⟩

/-! Claim C3: dependency-graph paths and soundness of the cycle DFS. -/

/-- Non-empty directed path along dependency edges. -/
inductive DepPath (edges : List DependencyRelation) : String → String → Prop where
  | single : ∀ {e : DependencyRelation}, e ∈ edges →
      DepPath edges e.source_automation_id e.target_automation_id
  | cons : ∀ {e : DependencyRelation} {c : String}, e ∈ edges →
      DepPath edges e.target_automation_id c → DepPath edges e.source_automation_id c

/-- Extend a path by one edge at its end. -/
theorem DepPath.snoc {edges : List DependencyRelation} {a b : String}
    (p : DepPath edges a b) :
    ∀ {e : DependencyRelation}, e ∈ edges → e.source_automation_id = b →
      DepPath edges a e.target_automation_id := by
  induction p with
  | single h1 => intro e he hsrc; exact DepPath.cons h1 (hsrc ▸ DepPath.single he)
  | cons h1 _ ih => intro e he hsrc; exact DepPath.cons h1 (ih he hsrc)

/-- A rank function increasing along every edge bounds every path. -/
theorem depPath_rank {edges : List DependencyRelation} (r : String → Nat)
    (hr : ∀ e ∈ edges, r e.source_automation_id < r e.target_automation_id) :
    ∀ {a b : String}, DepPath edges a b → r a < r b := by
  intro a b p
  induction p with
  | single h1 => exact hr _ h1
  | cons h1 _ ih => exact lt_trans (hr _ h1) ih

/-- A rank certificate makes the edge list acyclic. -/
theorem rank_acyclic {edges : List DependencyRelation} (r : String → Nat)
    (hr : ∀ e ∈ edges, r e.source_automation_id < r e.target_automation_id) :
    ∀ a, ¬ DepPath edges a a :=
  fun _ p => lt_irrefl _ (depPath_rank r hr p)

/-- Membership after a set-style insertion. -/
theorem mem_addStr {xs : List String} {x y : String} (h : y ∈ addStr xs x) :
    y ∈ xs ∨ y = x := by
  unfold addStr at h
  split at h
  · exact Or.inl h
  · rcases List.mem_append.mp h with h1 | h2
    · exact Or.inl h1
    · exact Or.inr (List.mem_singleton.mp h2)

/-- Soundness of `has_cycle` on an acyclic edge list: whenever the DFS
returns (rather than escaping), it has recorded nothing and reports no
cycle — provided every recursion-stack entry reaches the current node,
which every caller establishes. -/
theorem hasCycleF_sound (edges : List DependencyRelation)
    (autos : List (String × PyVal)) (hacyc : ∀ a, ¬ DepPath edges a a) :
    ∀ (fuel : Nat) (node : String) (visited recStack path : List String)
      (chains : List DependencyChain) (b : Bool) (v : List String)
      (ch : List DependencyChain),
      (∀ x ∈ recStack, x = node ∨ DepPath edges x node) →
      hasCycleF fuel edges autos node visited recStack path chains = some (b, v, ch) →
      b = false ∧ ch = chains := by
  intro fuel
  induction fuel with
  | zero =>
    intro node visited recStack path chains b v ch _ h
    simp only [hasCycleF] at h
    exact absurd h (by simp)
  | succ f ihf =>
    intro node visited recStack path chains b v ch hrec h
    have hrec1 : ∀ x ∈ addStr recStack node, x = node ∨ DepPath edges x node := by
      intro x hx
      rcases mem_addStr hx with h1 | h2
      · exact hrec x h1
      · exact Or.inl h2
    have loopLemma : ∀ rem : List DependencyRelation, (∀ x ∈ rem, x ∈ edges) →
        ∀ (visited0 : List String) (chains0 : List DependencyChain),
        cycEdgeLoop (fun nb vv cc => hasCycleF f edges autos nb vv
            (addStr recStack node) (path ++ [node]) cc)
          autos node (addStr recStack node) (path ++ [node]) rem visited0 chains0 =
          some (b, v, ch) →
        b = false ∧ ch = chains0 := by
      intro rem
      induction rem with
      | nil =>
        intro _ visited0 chains0 h0
        simp only [cycEdgeLoop, Option.some.injEq, Prod.mk.injEq] at h0
        exact ⟨h0.1.symm, h0.2.2.symm⟩
      | cons e rest ih =>
        intro hrem visited0 chains0 h0
        have he : e ∈ edges := hrem e (List.mem_cons_self e rest)
        have hrest : ∀ x ∈ rest, x ∈ edges :=
          fun x hx => hrem x (List.mem_cons_of_mem e hx)
        simp only [cycEdgeLoop] at h0
        split at h0
        case isTrue hsrc =>
          split at h0
          case isTrue hv =>
            split at h0
            case isTrue hrs =>
              exfalso
              have hnb : e.target_automation_id ∈ addStr recStack node := by
                simpa using hrs
              rcases hrec1 _ hnb with heq | hp
              · have p := DepPath.single he
                rw [hsrc, heq] at p
                exact hacyc node p
              · exact hacyc _ (DepPath.snoc hp he hsrc)
            case isFalse hrs => exact ih hrest _ _ h0
          case isFalse hv =>
            split at h0
            case h_1 => exact absurd h0 (by simp)
            case h_2 v2 ch2 heq =>
              have hrecNb : ∀ x ∈ addStr recStack node,
                  x = e.target_automation_id ∨ DepPath edges x e.target_automation_id := by
                intro x hx
                rcases hrec1 x hx with h1 | hp
                · subst h1
                  have p := DepPath.single he
                  rw [hsrc] at p
                  exact Or.inr p
                · exact Or.inr (DepPath.snoc hp he hsrc)
              have := ihf _ _ _ _ _ _ _ _ hrecNb heq
              exact absurd this.1 (by simp)
            case h_3 v2 ch2 heq =>
              have hch2 := ihf _ _ _ _ _ _ _ _
                (by
                  intro x hx
                  rcases hrec1 x hx with h1 | hp
                  · subst h1
                    have p := DepPath.single he
                    rw [hsrc] at p
                    exact Or.inr p
                  · exact Or.inr (DepPath.snoc hp he hsrc))
                heq
              have := ih hrest _ _ h0
              exact ⟨this.1, this.2.trans hch2.2⟩
        case isFalse hsrc => exact ih hrest _ _ h0
    simp only [hasCycleF] at h
    exact loopLemma edges (fun _ hx => hx) _ _ h

/-- On an acyclic edge list the outer DFS loop never adds a chain. -/
theorem detectOuterLoop_sound (edges : List DependencyRelation)
    (autos : List (String × PyVal)) (fuel : Nat)
    (hacyc : ∀ a, ¬ DepPath edges a a) :
    ∀ (nodes visited : List String) (chains r : List DependencyChain),
      detectOuterLoop edges autos fuel nodes visited chains = some r → r = chains := by
  intro nodes
  induction nodes with
  | nil =>
    intro visited chains r h
    simp only [detectOuterLoop, Option.some.injEq] at h
    exact h.symm
  | cons node rest ih =>
    intro visited chains r h
    simp only [detectOuterLoop] at h
    split at h
    · exact ih _ _ _ h
    · split at h
      case h_1 => exact absurd h (by simp)
      case h_2 x v2 ch2 heq =>
        have hch := hasCycleF_sound edges autos hacyc _ _ _ _ _ _ _ _ _
          (by intro y hy; cases hy) heq
        exact (ih _ _ _ h).trans hch.2

/-- The A→B→C→A triangle of claim C3. -/
def c3Triangle : DependencyGraph :=
  { nodes := ["A", "B", "C"],
    edges := [entityRel "A" "B", entityRel "B" "C", entityRel "C" "A"] }

/-- C3: on the dependency graph with exactly the edges A→B, B→C, C→A the
cycle detector returns exactly one chain, listing A, B, C, flagged
circular with risk level "high"; and on every acyclic dependency graph
it returns the empty list. -/
theorem claim_C3_cycle_detection :
    detect_circular_dependencies_on c3Triangle [] =
      [{ automations := ["A", "B", "C"],
         aliases := [PyVal.str "A", PyVal.str "B", PyVal.str "C"],
         is_circular := true, risk_level := "high",
         potential_issues := ["Circular dependency detected",
           "Could cause infinite execution loops"] }] ∧
    ∀ (g : DependencyGraph) (autos : List (String × PyVal)),
      (∀ a, ¬ DepPath g.edges a a) →
      detect_circular_dependencies_on g autos = [] := by
  constructor
  · rfl
  · intro g autos hacyc
    unfold detect_circular_dependencies_on
    split
    case h_1 chains heq => exact detectOuterLoop_sound g.edges autos _ hacyc _ _ _ _ heq
    case h_2 => rfl

/-- Witness for the acyclic half of C3 at the two-edge chain A→B→C. -/
theorem claim_C3_witness : detect_circular_dependencies_on c9Graph [] = [] := by
  apply claim_C3_cycle_detection.2 c9Graph []
  apply rank_acyclic (fun s => if s = "A" then 0 else if s = "B" then 1 else 2)
  intro e he
  have : c9Graph.edges = [entityRel "A" "B", entityRel "B" "C"] := rfl
  rw [this] at he
  rcases List.mem_cons.mp he with rfl | he2
  · decide
  · rcases List.mem_cons.mp he2 with rfl | he3
    · decide
    · cases he3

/-! Claim C8: failure policy of the parser. -/

/-- The C8 counterexample input: a trigger whose single item is the bare
string "x" rather than a mapping. -/
def c8BadCfg : PyVal := pyD [("trigger", pyL [PyVal.str "x"])]

/-- C8 counterexample: `parse_automation` does raise on an item-level
shape problem.  The string trigger item hits
`trigger.get("platform", "unknown")` (line 193), the AttributeError
propagates to `parse_automation`, which logs and re-raises (line 130) —
no best-effort node is produced. -/
theorem claim_C8_counterexample :
    parse_automation c8BadCfg =
      Except.error "AttributeError: object has no attribute get" := rfl

/-- Empty normalizations reduce to the empty item list. -/
theorem listWrapAlways_nil : listWrapAlways (pyL []) = [] := rfl

/-- Empty truthy normalization reduces to the empty item list. -/
theorem listWrapTruthy_nil : listWrapTruthy (pyL []) = [] := rfl

/-- C8 (amended): the documented defaults hold and never raise — a
configuration carrying none of the alias/trigger/condition/action keys
parses to the single metadata node labeled "Automation" with no edges —
and a mapping action item matching none of the known shapes still yields
exactly one best-effort action node; but (see the counterexample) a
non-mapping trigger or condition item aborts the parse with an error. -/
theorem claim_C8_amended_defaults_and_fallback :
    (∀ kvs : PyKvs,
      kvLookup kvs "alias" = Option.none →
      kvLookup kvs "triggers" = Option.none →
      kvLookup kvs "trigger" = Option.none →
      kvLookup kvs "conditions" = Option.none →
      kvLookup kvs "condition" = Option.none →
      kvLookup kvs "actions" = Option.none →
      kvLookup kvs "action" = Option.none →
      (parse_automation (PyVal.dict kvs)).map
          (fun g => (g.nodes.map fun n => (n.label, n.type), g.edges)) =
        Except.ok ([(PyVal.str "Automation", compMetadata)], [])) ∧
    (∀ (kvs : PyKvs) (fuel index : Nat) (st : PState),
      kvLookup kvs "choose" = Option.none →
      kvLookup kvs "if" = Option.none →
      kvLookup kvs "parallel" = Option.none →
      kvLookup kvs "repeat" = Option.none →
      kvLookup kvs "service" = Option.none →
      kvLookup kvs "delay" = Option.none →
      kvLookup kvs "wait_template" = Option.none →
      kvLookup kvs "wait_for_trigger" = Option.none →
      kvLookup kvs "event" = Option.none →
      kvLookup kvs "scene" = Option.none →
      kvLookup kvs "device_id" = Option.none →
      kvLookup kvs "stop" = Option.none →
      kvLookup kvs "variables" = Option.none →
      ∃ s : String,
        processActionF (fuel + 1) (PyVal.dict kvs) index st =
          Except.ok ([mkNodeId "action" (st.counter + 1)],
            { counter := st.counter + 1,
              nodes := st.nodes ++
                [{ id := mkNodeId "action" (st.counter + 1), label := PyVal.str s,
                   type := compAction, data := PyVal.dict kvs,
                   color := some colorAction }],
              edges := st.edges })) := by
  constructor
  · intro kvs ha htr2 htr hc2 hc hac2 hac
    simp only [parse_automation, parseFrom, extractMetadata, genNodeId, pyGetD,
      ha, htr2, htr, hc2, hc, hac2, hac, Option.getD_none,
      normTriggers, normConditions, normActions, pyTruthy,
      Bool.false_eq_true, if_false,
      listWrapAlways_nil, listWrapTruthy_nil, triggersLoop, conditionsLoop,
      actionsLoop, buildEdges, addNode, addEdges, chainEdges,
      List.map_nil, List.append_nil, List.nil_append, Except.map, List.map_cons]
  · intro kvs fuel index st h1 h2 h3 h4 h5 h6 h7 h8 h9 h10 h11 h12 h13
    simp only [processActionF, pyInKey, h1, h2, h3, h4, Option.isSome_none,
      genNodeId, formatActionLabel, h5, h6, h7, h8, h9, h10, h11, h12, h13,
      addNode]
    cases hk : (kvs.toList.map Prod.fst).filter
        (fun k => k ≠ "alias" ∧ k ≠ "enabled" ∧ k ≠ "continue_on_error") with
    | nil => exact ⟨"Action #" ++ natToStr (index + 1), by simp [hk]⟩
    | cons k krest => exact ⟨"Action: " ++ k, by simp [hk]⟩

/-- Witness for the amended C8: the empty configuration and the
unrecognized mapping action `{"foo": 1}`. -/
theorem claim_C8_amended_witness :
    (parse_automation (PyVal.dict PyKvs.nil)).map
        (fun g => (g.nodes.map fun n => (n.label, n.type), g.edges)) =
      Except.ok ([(PyVal.str "Automation", compMetadata)], []) ∧
    ∃ s : String,
      processActionF (0 + 1) (PyVal.dict (pyDictOf [("foo", PyVal.int 1)])) 0
          { counter := 0, nodes := [], edges := [] } =
        Except.ok ([mkNodeId "action" (0 + 1)],
          { counter := 0 + 1,
            nodes := [] ++
              [{ id := mkNodeId "action" (0 + 1), label := PyVal.str s,
                 type := compAction, data := PyVal.dict (pyDictOf [("foo", PyVal.int 1)]),
                 color := some colorAction }],
            edges := [] }) :=
  ⟨claim_C8_amended_defaults_and_fallback.1 PyKvs.nil rfl rfl rfl rfl rfl rfl rfl,
   claim_C8_amended_defaults_and_fallback.2 (pyDictOf [("foo", PyVal.int 1)]) 0 0
     { counter := 0, nodes := [], edges := [] }
     rfl rfl rfl rfl rfl rfl rfl rfl rfl rfl rfl rfl rfl⟩

/-! Claim C6: fuel-stability of the parser and scalar-vs-list
normalization equivalence.  The size lemmas below show the canonical
fuel `pySize cfg` always suffices, which also discharges the model
obligation that the fuel embedding is faithful to the source's
unbounded recursion. -/

/-- Every embedded value has positive size. -/
theorem pySize_pos : ∀ v : PyVal, 1 ≤ pySize v := by
  intro v
  cases v <;> simp [pySize]

/-- Size bound for a successful key lookup (payload level). -/
theorem kvLookup_size : ∀ (kvs : PyKvs) (k : String) (v : PyVal),
    kvLookup kvs k = some v → pySize v + 1 ≤ pySizeKvs kvs
  | PyKvs.nil, _, _, h => by cases h
  | PyKvs.cons k0 v0 rest, k, v, h => by
    simp only [kvLookup] at h
    split at h
    · cases h
      simp only [pySizeKvs]
      omega
    · have := kvLookup_size rest k v h
      simp only [pySizeKvs]
      omega

/-- Size bound for a successful key lookup (value level). -/
theorem kvLookup_size_dict {kvs : PyKvs} {k : String} {v : PyVal}
    (h : kvLookup kvs k = some v) : pySize v + 2 ≤ pySize (PyVal.dict kvs) := by
  have := kvLookup_size kvs k v h
  simp only [pySize]
  omega

/-- Size bound for membership in a list payload. -/
theorem toList_mem_size : ∀ (xs : PyList) (x : PyVal),
    x ∈ xs.toList → pySize x + 1 ≤ pySizeList xs
  | PyList.nil, _, h => by cases h
  | PyList.cons a rest, x, h => by
    rcases List.mem_cons.mp h with rfl | h2
    · simp only [pySizeList]; omega
    · have := toList_mem_size rest x h2
      simp only [pySizeList]
      omega

/-- Elements of the unconditional wrap are no larger than the value. -/
theorem wrapA_mem_le {v x : PyVal} (h : x ∈ listWrapAlways v) : pySize x ≤ pySize v := by
  cases v with
  | list xs =>
    have := toList_mem_size xs x h
    simp only [pySize]
    omega
  | none => rcases List.mem_singleton.mp h with rfl; exact le_refl _
  | bool b => rcases List.mem_singleton.mp h with rfl; exact le_refl _
  | int n => rcases List.mem_singleton.mp h with rfl; exact le_refl _
  | str s => rcases List.mem_singleton.mp h with rfl; exact le_refl _
  | dict kvs => rcases List.mem_singleton.mp h with rfl; exact le_refl _

/-- Elements of the truthy wrap are no larger than the value. -/
theorem wrapT_mem_le {v x : PyVal} (h : x ∈ listWrapTruthy v) : pySize x ≤ pySize v := by
  cases v with
  | list xs =>
    have := toList_mem_size xs x h
    simp only [pySize]
    omega
  | none => simp only [listWrapTruthy, pyTruthy, if_false] at h; cases h
  | bool b =>
    simp only [listWrapTruthy] at h
    split at h
    · rcases List.mem_singleton.mp h with rfl; exact le_refl _
    · cases h
  | int n =>
    simp only [listWrapTruthy] at h
    split at h
    · rcases List.mem_singleton.mp h with rfl; exact le_refl _
    · cases h
  | str s =>
    simp only [listWrapTruthy] at h
    split at h
    · rcases List.mem_singleton.mp h with rfl; exact le_refl _
    · cases h
  | dict kvs =>
    simp only [listWrapTruthy] at h
    split at h
    · rcases List.mem_singleton.mp h with rfl; exact le_refl _
    · cases h

/-- A successful `get` with default returns the default or a strictly
smaller stored value. -/
theorem pyGetD_ok_size {d : PyVal} {k : String} {dflt v : PyVal}
    (h : pyGetD d k dflt = Except.ok v) :
    v = dflt ∨ pySize v + 2 ≤ pySize d := by
  cases d with
  | dict kvs =>
    simp only [pyGetD, Except.ok.injEq] at h
    cases hl : kvLookup kvs k with
    | none => rw [hl, Option.getD_none] at h; exact Or.inl h.symm
    | some w =>
      rw [hl, Option.getD_some] at h
      exact Or.inr (h ▸ kvLookup_size_dict hl)
  | none => cases h
  | bool b => cases h
  | int n => cases h
  | str s => cases h
  | list xs => cases h

/-- Two action processors agreeing on the items of a sequence drive
`seqLoop` to the same result. -/
theorem seqLoop_congr
    (pa1 pa2 : PyVal → Nat → PState → Except String (List String × PState)) :
    ∀ (items : List PyVal),
      (∀ x ∈ items, ∀ idx st, pa1 x idx st = pa2 x idx st) →
      ∀ (seqIdx : Nat) (startId : String) (firstLabel : Option String)
        (prev : String) (st : PState),
        seqLoop pa1 items seqIdx startId firstLabel prev st =
          seqLoop pa2 items seqIdx startId firstLabel prev st := by
  intro items
  induction items with
  | nil => intro _ _ _ _ _ _; rfl
  | cons x rest ih =>
    intro h seqIdx startId firstLabel prev st
    have hrest := ih fun y hy => h y (List.mem_cons_of_mem x hy)
    simp only [seqLoop, h x (List.mem_cons_self x rest)]
    cases pa2 x seqIdx st with
    | error e => rfl
    | ok r =>
      obtain ⟨ids, st1⟩ := r
      cases ids with
      | nil => exact hrest _ _ _ _ _
      | cons i0 tl => exact hrest _ _ _ _ _

/-- Congruence for the choose-branch loop. -/
theorem choicesLoop_congr
    (pa1 pa2 : PyVal → Nat → PState → Except String (List String × PState)) :
    ∀ (choices : List PyVal),
      (∀ c ∈ choices, ∀ sv, pyGetD c "sequence" (pyL []) = Except.ok sv →
        ∀ x ∈ listWrapTruthy sv, ∀ idx st, pa1 x idx st = pa2 x idx st) →
      ∀ (choiceIdx : Nat) (chooseId : String) (st : PState),
        choicesLoop pa1 choices choiceIdx chooseId st =
          choicesLoop pa2 choices choiceIdx chooseId st := by
  intro choices
  induction choices with
  | nil => intro _ _ _ _; rfl
  | cons choice rest ih =>
    intro h choiceIdx chooseId st
    have hrest := ih fun c hc => h c (List.mem_cons_of_mem choice hc)
    simp only [choicesLoop]
    cases chooseBranchLabel choice choiceIdx with
    | error e => rfl
    | ok branchLabel =>
      dsimp only
      cases chooseCondVal choice (pyD []) with
      | error e => rfl
      | ok branchData =>
        dsimp only
        cases hsv : pyGetD choice "sequence" (pyL []) with
        | error e => rfl
        | ok sv =>
          dsimp only
          rw [seqLoop_congr pa1 pa2 (listWrapTruthy sv)
            (h choice (List.mem_cons_self choice rest) sv hsv)]
          simp only [hrest]

/-- Congruence for the parallel-thread loop. -/
theorem parallelLoop_congr
    (pa1 pa2 : PyVal → Nat → PState → Except String (List String × PState)) :
    ∀ (seqs : List PyVal),
      (∀ sv ∈ seqs, ∀ x ∈ listWrapTruthy sv, ∀ idx st, pa1 x idx st = pa2 x idx st) →
      ∀ (parIdx : Nat) (parallelId : String) (st : PState),
        parallelLoop pa1 seqs parIdx parallelId st =
          parallelLoop pa2 seqs parIdx parallelId st := by
  intro seqs
  induction seqs with
  | nil => intro _ _ _ _; rfl
  | cons sv rest ih =>
    intro h parIdx parallelId st
    have hrest := ih fun y hy => h y (List.mem_cons_of_mem sv hy)
    simp only [parallelLoop]
    rw [seqLoop_congr pa1 pa2 (listWrapTruthy sv) (h sv (List.mem_cons_self sv rest))]
    simp only [hrest]

/-- Congruence for the top-level action loop at two fuel values. -/
theorem actionsLoop_congr (f g : Nat) :
    ∀ (items : List PyVal),
      (∀ x ∈ items, ∀ idx st, processActionF f x idx st = processActionF g x idx st) →
      ∀ (idx : Nat) (acc : List String) (st : PState),
        actionsLoop f items idx acc st = actionsLoop g items idx acc st := by
  intro items
  induction items with
  | nil => intro _ _ _ _; rfl
  | cons x rest ih =>
    intro h idx acc st
    have hrest := ih fun y hy => h y (List.mem_cons_of_mem x hy)
    simp only [actionsLoop, h x (List.mem_cons_self x rest)]
    simp only [hrest]

/-- Sub-item bound: nested sequence elements fetched with a truthy wrap
are strictly smaller than the owning action. -/
theorem bound_wrapT_get {a dv x : PyVal} {k : String}
    (hdv : pyGetD a k (pyL []) = Except.ok dv) (hx : x ∈ listWrapTruthy dv) :
    pySize x + 2 ≤ pySize a := by
  rcases pyGetD_ok_size hdv with rfl | h2
  · rw [listWrapTruthy_nil] at hx; cases hx
  · have := wrapT_mem_le hx; omega

/-- Sub-item bound for choose branches. -/
theorem bound_choose {a cv c sv x : PyVal}
    (hcv : pyGetD a "choose" (pyL []) = Except.ok cv)
    (hc : c ∈ listWrapAlways cv)
    (hsv : pyGetD c "sequence" (pyL []) = Except.ok sv)
    (hx : x ∈ listWrapTruthy sv) : pySize x + 4 ≤ pySize a := by
  rcases pyGetD_ok_size hsv with rfl | h2
  · rw [listWrapTruthy_nil] at hx; cases hx
  · rcases pyGetD_ok_size hcv with rfl | h3
    · rw [listWrapAlways_nil] at hc; cases hc
    · have h4 := wrapA_mem_le hc
      have h5 := wrapT_mem_le hx
      omega

/-- Sub-item bound for parallel threads. -/
theorem bound_parallel {a pv sv x : PyVal}
    (hpv : pyGetD a "parallel" (pyL []) = Except.ok pv)
    (hsv : sv ∈ listWrapAlways pv)
    (hx : x ∈ listWrapTruthy sv) : pySize x + 2 ≤ pySize a := by
  rcases pyGetD_ok_size hpv with rfl | h2
  · rw [listWrapAlways_nil] at hsv; cases hsv
  · have h3 := wrapA_mem_le hsv
    have h4 := wrapT_mem_le hx
    omega

/-- Sub-item bound for repeat bodies. -/
theorem bound_repeat {a rc sv x : PyVal}
    (hrc : pyGetD a "repeat" (pyD []) = Except.ok rc)
    (hsv : pyGetD rc "sequence" (pyL []) = Except.ok sv)
    (hx : x ∈ listWrapTruthy sv) : pySize x + 4 ≤ pySize a := by
  rcases pyGetD_ok_size hsv with rfl | h2
  · rw [listWrapTruthy_nil] at hx; cases hx
  · rcases pyGetD_ok_size hrc with rfl | h3
    · exfalso
      have h4 := pySize_pos sv
      have h5 : pySize (pyD []) = 1 := rfl
      omega
    · have := wrapT_mem_le hx
      omega

/-- The recursive expansion is fuel-stable above the item size. -/
theorem processActionF_stable :
    ∀ (f : Nat) (a : PyVal) (g idx : Nat) (st : PState),
      pySize a ≤ f → pySize a ≤ g →
      processActionF f a idx st = processActionF g a idx st := by
  intro f
  induction f with
  | zero =>
    intro a g idx st hf _
    exact absurd hf (by have := pySize_pos a; omega)
  | succ f' ihf =>
    intro a g idx st hf hg
    cases g with
    | zero => exact absurd hg (by have := pySize_pos a; omega)
    | succ g' =>
      have hstep : ∀ (x : PyVal) (idx2 : Nat) (st2 : PState),
          pySize x ≤ f' → pySize x ≤ g' →
          processActionF f' x idx2 st2 = processActionF g' x idx2 st2 :=
        fun x idx2 st2 h1 h2 => ihf x g' idx2 st2 h1 h2
      simp only [processActionF]
      cases hin1 : pyInKey "choose" a with
      | error e => rfl
      | ok b1 =>
      cases b1 with
      | true =>
        dsimp only
        cases hcv : pyGetD a "choose" (pyL []) with
        | error e => rfl
        | ok cv =>
          dsimp only
          have hchoices : ∀ cIdx chooseId st2,
              choicesLoop (processActionF f') (listWrapAlways cv) cIdx chooseId st2 =
                choicesLoop (processActionF g') (listWrapAlways cv) cIdx chooseId st2 := by
            intro cIdx chooseId st2
            apply choicesLoop_congr
            intro c hc sv hsv x hx idx2 st3
            have hb := bound_choose hcv hc hsv hx
            exact hstep x idx2 st3 (by omega) (by omega)
          cases hdef : pyInKey "default" a with
          | error e => simp only [hchoices]
          | ok hasDef =>
            cases hasDef with
            | false => simp only [hchoices]
            | true =>
              cases hdv : pyGetD a "default" (pyL []) with
              | error e => simp only [hchoices]
              | ok dv =>
                have hdseq : ∀ i s l p st2,
                    seqLoop (processActionF f') (listWrapTruthy dv) i s l p st2 =
                      seqLoop (processActionF g') (listWrapTruthy dv) i s l p st2 := by
                  intro i s l p st2
                  apply seqLoop_congr
                  intro x hx idx2 st3
                  have hb := bound_wrapT_get hdv hx
                  exact hstep x idx2 st3 (by omega) (by omega)
                simp only [hchoices, hdseq]
      | false =>
      dsimp only
      cases hin2 : pyInKey "if" a with
      | error e => rfl
      | ok b2 =>
      cases b2 with
      | true =>
        dsimp only
        cases hcondv : pyGetD a "if" (pyL []) with
        | error e => rfl
        | ok condv =>
          dsimp only
          cases summarizeConditions (listWrapTruthy condv) with
          | error e => rfl
          | ok summary =>
            dsimp only
            cases pyGetD a "if" (pyD []) with
            | error e => rfl
            | ok datav =>
              dsimp only
              cases hthen : pyInKey "then" a with
              | error e => rfl
              | ok hasThen =>
                have hthenseq : ∀ tv, pyGetD a "then" (pyL []) = Except.ok tv →
                    ∀ i s l p st2,
                      seqLoop (processActionF f') (listWrapTruthy tv) i s l p st2 =
                        seqLoop (processActionF g') (listWrapTruthy tv) i s l p st2 := by
                  intro tv htv i s l p st2
                  apply seqLoop_congr
                  intro x hx idx2 st3
                  have hb := bound_wrapT_get htv hx
                  exact hstep x idx2 st3 (by omega) (by omega)
                have helseseq : ∀ ev, pyGetD a "else" (pyL []) = Except.ok ev →
                    ∀ i s l p st2,
                      seqLoop (processActionF f') (listWrapTruthy ev) i s l p st2 =
                        seqLoop (processActionF g') (listWrapTruthy ev) i s l p st2 := by
                  intro ev hev i s l p st2
                  apply seqLoop_congr
                  intro x hx idx2 st3
                  have hb := bound_wrapT_get hev hx
                  exact hstep x idx2 st3 (by omega) (by omega)
                cases hasThen with
                | false =>
                  dsimp only
                  cases pyInKey "else" a with
                  | error e => rfl
                  | ok hasElse =>
                    cases hasElse with
                    | false => rfl
                    | true =>
                      dsimp only
                      cases hev : pyGetD a "else" (pyL []) with
                      | error e => rfl
                      | ok ev =>
                        simp only [Bool.false_eq_true, if_false, if_true,
                          helseseq ev hev]
                | true =>
                  dsimp only
                  cases htv : pyGetD a "then" (pyL []) with
                  | error e => rfl
                  | ok tv =>
                    cases pyInKey "else" a with
                    | error e =>
                      simp only [Bool.false_eq_true, if_false, if_true,
                        hthenseq tv htv]
                    | ok hasElse =>
                      cases hasElse with
                      | false =>
                        simp only [Bool.false_eq_true, if_false, if_true,
                          hthenseq tv htv]
                      | true =>
                        cases hev : pyGetD a "else" (pyL []) with
                        | error e =>
                          simp only [Bool.false_eq_true, if_false, if_true,
                            hthenseq tv htv]
                        | ok ev =>
                          simp only [Bool.false_eq_true, if_false, if_true,
                            hthenseq tv htv, helseseq ev hev]
      | false =>
      dsimp only
      cases hin3 : pyInKey "parallel" a with
      | error e => rfl
      | ok b3 =>
      cases b3 with
      | true =>
        dsimp only
        cases hpv : pyGetD a "parallel" (pyL []) with
        | error e => rfl
        | ok pv =>
          have hpar : ∀ pIdx parId st2,
              parallelLoop (processActionF f') (listWrapAlways pv) pIdx parId st2 =
                parallelLoop (processActionF g') (listWrapAlways pv) pIdx parId st2 := by
            intro pIdx parId st2
            apply parallelLoop_congr
            intro sv hsv x hx idx2 st3
            have hb := bound_parallel hpv hsv hx
            exact hstep x idx2 st3 (by omega) (by omega)
          simp only [hpar]
      | false =>
      dsimp only
      cases hin4 : pyInKey "repeat" a with
      | error e => rfl
      | ok b4 =>
      cases b4 with
      | true =>
        dsimp only
        cases hrc : pyGetD a "repeat" (pyD []) with
        | error e => rfl
        | ok rc =>
          dsimp only
          cases pyInKey "count" rc with
          | error e => rfl
          | ok hasCount =>
            have hrepseq : ∀ sv, pyGetD rc "sequence" (pyL []) = Except.ok sv →
                ∀ i s l p st2,
                  seqLoop (processActionF f') (listWrapTruthy sv) i s l p st2 =
                    seqLoop (processActionF g') (listWrapTruthy sv) i s l p st2 := by
              intro sv hsv i s l p st2
              apply seqLoop_congr
              intro x hx idx2 st3
              have hb := bound_repeat hrc hsv hx
              exact hstep x idx2 st3 (by omega) (by omega)
            cases hasCount with
            | true =>
              dsimp only
              cases pySubscr rc "count" with
              | error e => rfl
              | ok cnt =>
                dsimp only
                cases hsv : pyGetD rc "sequence" (pyL []) with
                | error e => rfl
                | ok sv => simp only [hrepseq sv hsv]
            | false =>
              dsimp only
              cases pyInKey "while" rc with
              | error e => rfl
              | ok hasWhile =>
                cases hasWhile with
                | true =>
                  dsimp only
                  cases hsv : pyGetD rc "sequence" (pyL []) with
                  | error e => rfl
                  | ok sv => simp only [hrepseq sv hsv]
                | false =>
                  dsimp only
                  cases pyInKey "until" rc with
                  | error e => rfl
                  | ok hasUntil =>
                    cases hasUntil with
                    | true =>
                      dsimp only
                      cases hsv : pyGetD rc "sequence" (pyL []) with
                      | error e => rfl
                      | ok sv => simp only [hrepseq sv hsv]
                    | false =>
                      dsimp only
                      cases hsv : pyGetD rc "sequence" (pyL []) with
                      | error e => rfl
                      | ok sv => simp only [hrepseq sv hsv]
      | false => rfl

/-- Item-size bound for the normalized action list. -/
theorem normActions_item_size {kvs : PyKvs} {items : List PyVal}
    (h : normActions (PyVal.dict kvs) = Except.ok items) :
    ∀ x ∈ items, pySize x + 2 ≤ pySize (PyVal.dict kvs) := by
  intro x hx
  simp only [normActions, pyGetD] at h
  cases ha1 : kvLookup kvs "actions" with
  | some w =>
    rw [ha1, Option.getD_some] at h
    by_cases hw : pyTruthy w = true
    · rw [if_pos hw] at h
      cases h
      have := wrapT_mem_le hx
      have := kvLookup_size_dict ha1
      omega
    · rw [if_neg hw] at h
      cases ha2 : kvLookup kvs "action" with
      | some u =>
        rw [ha2, Option.getD_some] at h
        cases h
        have := wrapT_mem_le hx
        have := kvLookup_size_dict ha2
        omega
      | none =>
        rw [ha2, Option.getD_none] at h
        cases h
        rw [listWrapTruthy_nil] at hx
        cases hx
  | none =>
    rw [ha1, Option.getD_none] at h
    simp only [pyTruthy, Bool.false_eq_true, if_false] at h
    cases ha2 : kvLookup kvs "action" with
    | some u =>
      rw [ha2, Option.getD_some] at h
      cases h
      have := wrapT_mem_le hx
      have := kvLookup_size_dict ha2
      omega
    | none =>
      rw [ha2, Option.getD_none] at h
      cases h
      rw [listWrapTruthy_nil] at hx
      cases hx

/-- The parse pipeline depends on the configuration only through the
metadata lookups and the three normalized item lists; above the size
bound the fuel is irrelevant. -/
theorem parseFrom_congr (f1 f2 : Nat) (kvs1 kvs2 : PyKvs)
    (hmA : kvLookup kvs1 "alias" = kvLookup kvs2 "alias")
    (hmD : kvLookup kvs1 "description" = kvLookup kvs2 "description")
    (hmI : kvLookup kvs1 "id" = kvLookup kvs2 "id")
    (htrig : normTriggers (PyVal.dict kvs1) = normTriggers (PyVal.dict kvs2))
    (hcond : normConditions (PyVal.dict kvs1) = normConditions (PyVal.dict kvs2))
    (hact : normActions (PyVal.dict kvs1) = normActions (PyVal.dict kvs2))
    (hf1 : pySize (PyVal.dict kvs1) ≤ f1) (hf2 : pySize (PyVal.dict kvs2) ≤ f2) :
    parseFrom f1 (PyVal.dict kvs1) = parseFrom f2 (PyVal.dict kvs2) := by
  simp only [parseFrom, extractMetadata, pyGetD, hmA, hmD, hmI, htrig, hcond, hact]
  cases hitems2 : normActions (PyVal.dict kvs2) with
  | error e => rfl
  | ok items =>
    have hitems1 : normActions (PyVal.dict kvs1) = Except.ok items := hact ▸ hitems2
    have hloop : ∀ idx acc st,
        actionsLoop f1 items idx acc st = actionsLoop f2 items idx acc st := by
      intro idx acc st
      apply actionsLoop_congr
      intro x hx idx2 st2
      have hb1 := normActions_item_size hitems1 x hx
      have hb2 := normActions_item_size hitems2 x hx
      exact processActionF_stable f1 x f2 idx2 st2 (by omega) (by omega)
    simp only [hloop]

theorem normTriggers_scalar_list {kvs1 kvs2 dkvs : PyKvs}
    (hplural : kvLookup kvs1 "triggers" = kvLookup kvs2 "triggers")
    (h1 : kvLookup kvs1 "trigger" = some (PyVal.dict dkvs))
    (h2 : kvLookup kvs2 "trigger" =
      some (PyVal.list (PyList.cons (PyVal.dict dkvs) PyList.nil))) :
    normTriggers (PyVal.dict kvs1) = normTriggers (PyVal.dict kvs2) := by
  simp only [normTriggers, pyGetD, hplural, h1, h2, Option.getD_some]
  split
  · rfl
  · rfl

theorem normConditions_scalar_list {kvs1 kvs2 dkvs : PyKvs}
    (htruthy : pyTruthy (PyVal.dict dkvs) = true)
    (hplural : kvLookup kvs1 "conditions" = kvLookup kvs2 "conditions")
    (h1 : kvLookup kvs1 "condition" = some (PyVal.dict dkvs))
    (h2 : kvLookup kvs2 "condition" =
      some (PyVal.list (PyList.cons (PyVal.dict dkvs) PyList.nil))) :
    normConditions (PyVal.dict kvs1) = normConditions (PyVal.dict kvs2) := by
  simp only [normConditions, pyGetD, hplural, h1, h2, Option.getD_some]
  split
  · rfl
  · simp [listWrapTruthy, htruthy, PyList.toList]

theorem normActions_scalar_list {kvs1 kvs2 dkvs : PyKvs}
    (htruthy : pyTruthy (PyVal.dict dkvs) = true)
    (hplural : kvLookup kvs1 "actions" = kvLookup kvs2 "actions")
    (h1 : kvLookup kvs1 "action" = some (PyVal.dict dkvs))
    (h2 : kvLookup kvs2 "action" =
      some (PyVal.list (PyList.cons (PyVal.dict dkvs) PyList.nil))) :
    normActions (PyVal.dict kvs1) = normActions (PyVal.dict kvs2) := by
  simp only [normActions, pyGetD, hplural, h1, h2, Option.getD_some]
  split
  · rfl
  · simp [listWrapTruthy, htruthy, PyList.toList]

theorem normTriggers_congr {kvs1 kvs2 : PyKvs}
    (hA : kvLookup kvs1 "triggers" = kvLookup kvs2 "triggers")
    (hB : kvLookup kvs1 "trigger" = kvLookup kvs2 "trigger") :
    normTriggers (PyVal.dict kvs1) = normTriggers (PyVal.dict kvs2) := by
  simp only [normTriggers, pyGetD, hA, hB]

theorem normConditions_congr {kvs1 kvs2 : PyKvs}
    (hA : kvLookup kvs1 "conditions" = kvLookup kvs2 "conditions")
    (hB : kvLookup kvs1 "condition" = kvLookup kvs2 "condition") :
    normConditions (PyVal.dict kvs1) = normConditions (PyVal.dict kvs2) := by
  simp only [normConditions, pyGetD, hA, hB]

theorem normActions_congr {kvs1 kvs2 : PyKvs}
    (hA : kvLookup kvs1 "actions" = kvLookup kvs2 "actions")
    (hB : kvLookup kvs1 "action" = kvLookup kvs2 "action") :
    normActions (PyVal.dict kvs1) = normActions (PyVal.dict kvs2) := by
  simp only [normActions, pyGetD, hA, hB]

/-- C6: amended scalar-vs-list equivalence. Replacing the value of the
singular "trigger", "condition" or "action" key, when it is a truthy
(non-empty) mapping, by the one-element sequence holding that same mapping
leaves the graph returned by parse_automation unchanged (full structural
equality: same nodes, labels, edges and edge labels), provided every other
key of the configuration is unchanged. The claim as stated, quantified over
every configuration, is refuted by the empty mapping (see the
counterexample): a falsy scalar condition or action is normalized to the
empty sequence while the one-element list keeps the item. -/
theorem claim_C6_scalar_vs_list (kvs1 kvs2 dkvs : PyKvs) (k : String)
    (hk : k = "trigger" ∨ k = "condition" ∨ k = "action")
    (htruthy : pyTruthy (PyVal.dict dkvs) = true)
    (h1 : kvLookup kvs1 k = some (PyVal.dict dkvs))
    (h2 : kvLookup kvs2 k =
      some (PyVal.list (PyList.cons (PyVal.dict dkvs) PyList.nil)))
    (hothers : ∀ key, key ≠ k → kvLookup kvs1 key = kvLookup kvs2 key) :
    parse_automation (PyVal.dict kvs1) = parse_automation (PyVal.dict kvs2) := by
  rcases hk with rfl | rfl | rfl
  · simp only [parse_automation]
    rw [parseFrom_congr (pySize (PyVal.dict kvs1)) (pySize (PyVal.dict kvs2)) kvs1 kvs2
      (hothers "alias" (by decide)) (hothers "description" (by decide))
      (hothers "id" (by decide))
      (normTriggers_scalar_list (hothers "triggers" (by decide)) h1 h2)
      (normConditions_congr (hothers "conditions" (by decide))
        (hothers "condition" (by decide)))
      (normActions_congr (hothers "actions" (by decide))
        (hothers "action" (by decide)))
      (le_refl _) (le_refl _)]
  · simp only [parse_automation]
    rw [parseFrom_congr (pySize (PyVal.dict kvs1)) (pySize (PyVal.dict kvs2)) kvs1 kvs2
      (hothers "alias" (by decide)) (hothers "description" (by decide))
      (hothers "id" (by decide))
      (normTriggers_congr (hothers "triggers" (by decide))
        (hothers "trigger" (by decide)))
      (normConditions_scalar_list htruthy (hothers "conditions" (by decide)) h1 h2)
      (normActions_congr (hothers "actions" (by decide))
        (hothers "action" (by decide)))
      (le_refl _) (le_refl _)]
  · simp only [parse_automation]
    rw [parseFrom_congr (pySize (PyVal.dict kvs1)) (pySize (PyVal.dict kvs2)) kvs1 kvs2
      (hothers "alias" (by decide)) (hothers "description" (by decide))
      (hothers "id" (by decide))
      (normTriggers_congr (hothers "triggers" (by decide))
        (hothers "trigger" (by decide)))
      (normConditions_congr (hothers "conditions" (by decide))
        (hothers "condition" (by decide)))
      (normActions_scalar_list htruthy (hothers "actions" (by decide)) h1 h2)
      (le_refl _) (le_refl _)]

/-- C6 witness: the equivalence theorem applied at a concrete configuration
whose condition is the non-empty mapping \x7b"condition": "state"\x7d,
supplied bare on one side and as a one-element list on the other. -/
theorem claim_C6_witness :
    parse_automation (PyVal.dict (pyDictOf [("condition",
      PyVal.dict (pyDictOf [("condition", PyVal.str "state")]))])) =
    parse_automation (PyVal.dict (pyDictOf [("condition",
      PyVal.list (PyList.cons
        (PyVal.dict (pyDictOf [("condition", PyVal.str "state")]))
        PyList.nil))])) :=
  claim_C6_scalar_vs_list
    (pyDictOf [("condition", PyVal.dict (pyDictOf [("condition", PyVal.str "state")]))])
    (pyDictOf [("condition", PyVal.list (PyList.cons
      (PyVal.dict (pyDictOf [("condition", PyVal.str "state")])) PyList.nil))])
    (pyDictOf [("condition", PyVal.str "state")]) "condition"
    (Or.inr (Or.inl rfl)) rfl rfl rfl
    (by
      intro key hne
      simp only [pyDictOf, kvLookup]
      rw [if_neg (fun h => hne h.symm), if_neg (fun h => hne h.symm)])

/-- C6 counterexample: the claim quantifies over every configuration, but
the empty mapping breaks it in condition position: a bare \x7b\x7d condition
is falsy, is normalized to the empty sequence and yields a 1-node graph,
while the one-element list [\x7b\x7d] keeps the item and yields 2 nodes. -/
theorem claim_C6_counterexample :
    (parse_automation (pyD [("condition", pyD [])])).map
      (fun g => g.nodes.length) = Except.ok 1 ∧
    (parse_automation (pyD [("condition", pyL [pyD []])])).map
      (fun g => g.nodes.length) = Except.ok 2 :=
  ⟨rfl, rfl⟩

/-! Rank extraction from generated node ids.  Every id minted by
`_generate_node_id` has the shape `prefix_<counter>`; the counter value can
be read back off the id string, which gives a strictly increasing rank
along every edge the parser creates and hence acyclicity. -/

/-- Value of a little-endian decimal digit list. -/
def digitsVal : List Nat → Nat
  | [] => 0
  | d :: rest => d + 10 * digitsVal rest

/-- Decimal digit characters. -/
def isDigitCh (c : Char) : Bool :=
  c == '0' || c == '1' || c == '2' || c == '3' || c == '4' ||
  c == '5' || c == '6' || c == '7' || c == '8' || c == '9'

/-- Inverse of `digitChar` on the ten digit characters. -/
def charDigitVal (c : Char) : Nat :=
  if c = '1' then 1 else if c = '2' then 2 else if c = '3' then 3
  else if c = '4' then 4 else if c = '5' then 5 else if c = '6' then 6
  else if c = '7' then 7 else if c = '8' then 8 else if c = '9' then 9 else 0

/-- Value of a reversed decimal character run (least significant first). -/
def revDigitsVal : List Char → Nat
  | [] => 0
  | c :: rest => charDigitVal c + 10 * revDigitsVal rest

/-- Counter value encoded in a node id: parse the trailing digit run. -/
def idRank (s : String) : Nat :=
  revDigitsVal (s.data.reverse.takeWhile isDigitCh)

theorem digitsVal_natDigitsRev : ∀ fuel n, n ≤ fuel →
    digitsVal (natDigitsRev fuel n) = n := by
  intro fuel
  induction fuel with
  | zero => intro n h; interval_cases n; rfl
  | succ f ih =>
    intro n h
    by_cases h0 : n = 0
    · subst h0; rfl
    · have hdiv : n / 10 ≤ f := by
        have : n / 10 < n := Nat.div_lt_self (Nat.pos_of_ne_zero h0) (by omega)
        omega
      simp only [natDigitsRev, h0, if_false, digitsVal, ih _ hdiv]
      omega

theorem natDigitsRev_lt_ten : ∀ fuel n, ∀ d ∈ natDigitsRev fuel n, d < 10 := by
  intro fuel
  induction fuel with
  | zero => intro n d hd; cases hd
  | succ f ih =>
    intro n d hd
    by_cases h0 : n = 0
    · subst h0; cases hd
    · simp only [natDigitsRev, h0, if_false, List.mem_cons] at hd
      rcases hd with rfl | hd
      · exact Nat.mod_lt _ (by omega)
      · exact ih _ _ hd

theorem charDigitVal_digitChar {d : Nat} (h : d < 10) :
    charDigitVal (digitChar d) = d := by
  interval_cases d <;> rfl

theorem isDigitCh_digitChar {d : Nat} (h : d < 10) :
    isDigitCh (digitChar d) = true := by
  interval_cases d <;> rfl

theorem revDigitsVal_map_digitChar : ∀ ds : List Nat, (∀ d ∈ ds, d < 10) →
    revDigitsVal (ds.map digitChar) = digitsVal ds := by
  intro ds
  induction ds with
  | nil => intro _; rfl
  | cons d rest ih =>
    intro h
    simp only [List.map_cons, revDigitsVal, digitsVal]
    rw [charDigitVal_digitChar (h d (by simp)), ih (fun x hx => h x (by simp [hx]))]

theorem takeWhile_append_stop {p : Char → Bool} :
    ∀ (l1 : List Char) (c : Char) (l2 : List Char),
    (∀ x ∈ l1, p x = true) → p c = false →
    (l1 ++ c :: l2).takeWhile p = l1 := by
  intro l1
  induction l1 with
  | nil => intro c l2 _ hc; simp [List.takeWhile, hc]
  | cons x rest ih =>
    intro c l2 h hc
    have hx : p x = true := h x (by simp)
    simp only [List.cons_append, List.takeWhile, hx, List.append_eq]
    rw [ih c l2 (fun y hy => h y (by simp [hy])) hc]

theorem idRank_mkNodeId (pfx : String) (n : Nat) : idRank (mkNodeId pfx n) = n := by
  have hdata : (mkNodeId pfx n).data = pfx.data ++ '_' :: (natToStr n).data := by
    simp [mkNodeId, String.data_append]
  by_cases h0 : n = 0
  · subst h0
    simp only [idRank, hdata]
    have : (natToStr 0).data = ['0'] := rfl
    rw [this]
    have hrev : (pfx.data ++ '_' :: ['0']).reverse = '0' :: '_' :: pfx.data.reverse := by
      simp
    rw [hrev]
    rw [show ('0' :: '_' :: pfx.data.reverse) = ['0'] ++ '_' :: pfx.data.reverse from rfl]
    rw [takeWhile_append_stop ['0'] '_' pfx.data.reverse (by intro x hx; simp at hx; subst hx; rfl) rfl]
    rfl
  · simp only [idRank, hdata]
    have hns : (natToStr n).data = ((natDigitsRev n n).map digitChar).reverse := by
      simp [natToStr, h0]
    rw [hns]
    have hrev : (pfx.data ++ '_' :: ((natDigitsRev n n).map digitChar).reverse).reverse =
        (natDigitsRev n n).map digitChar ++ '_' :: pfx.data.reverse := by
      simp
    rw [hrev]
    rw [takeWhile_append_stop _ '_' _
      (by
        intro x hx
        simp only [List.mem_map] at hx
        obtain ⟨d, hd, rfl⟩ := hx
        exact isDigitCh_digitChar (natDigitsRev_lt_ten n n d hd)) rfl]
    rw [revDigitsVal_map_digitChar _ (natDigitsRev_lt_ten n n)]
    exact digitsVal_natDigitsRev n n (le_refl n)

theorem mkNodeId_ne_of_rank_ne {p q : String} {a b : Nat} (h : a ≠ b) :
    mkNodeId p a ≠ mkNodeId q b := by
  intro he
  have := congrArg idRank he
  rw [idRank_mkNodeId, idRank_mkNodeId] at this
  exact h this

/-- Edge whose endpoints were minted inside a counter window: the source
rank is strictly above `lo`, ranks strictly increase along the edge, and
the target rank is at most `hi`. -/
def edgeRanked (lo hi : Nat) (e : AutomationEdge) : Prop :=
  lo < idRank e.from_node ∧ idRank e.from_node < idRank e.to_node ∧ idRank e.to_node ≤ hi

theorem edgeRanked_mono {lo lo2 hi hi2 : Nat} {e : AutomationEdge}
    (h : edgeRanked lo hi e) (hlo : lo2 ≤ lo) (hhi : hi ≤ hi2) :
    edgeRanked lo2 hi2 e := by
  obtain ⟨h1, h2, h3⟩ := h
  exact ⟨by omega, h2, by omega⟩

/-- The `option i` edges a choose junction sends to its branch nodes. -/
def optionEdges (chooseId : String) : List String → Nat → List AutomationEdge
  | [], _ => []
  | b :: rest, i =>
    { from_node := chooseId, to_node := b,
      label := some ("option " ++ natToStr (i + 1)) } :: optionEdges chooseId rest (i + 1)

/-- The sequence edge from the running predecessor to the node of the next
sequence item. -/
def seqEdge (prev i0 startId : String) (fl : Option String) : AutomationEdge :=
  { from_node := prev, to_node := i0, label := if prev == startId then fl else Option.none }

/-- Behavioural contract of one recursive action-processing step, as used
by the sequence/choices/parallel loops: a successful call returns the
singleton id minted first, strictly advances the counter, only appends to
the node list, and only appends edges whose endpoint ranks lie inside the
call's counter window and increase along the edge. -/
def paSpec (pa : PyVal → Nat → PState → Except String (List String × PState)) : Prop :=
  ∀ a idx st ids st', pa a idx st = Except.ok (ids, st') →
    ids = [mkNodeId "action" (st.counter + 1)] ∧
    st.counter < st'.counter ∧
    (∃ dn, st'.nodes = st.nodes ++ dn) ∧
    (∃ de, st'.edges = st.edges ++ de ∧ ∀ e ∈ de, edgeRanked st.counter st'.counter e)

theorem seqLoop_inv (pa : PyVal → Nat → PState → Except String (List String × PState))
    (hpa : paSpec pa) :
    ∀ (items : List PyVal) (seqIdx : Nat) (startId : String) (fl : Option String)
      (prev : String) (st : PState) (lo : Nat) (prev' : String) (st' : PState),
    lo < idRank prev → idRank prev ≤ st.counter →
    seqLoop pa items seqIdx startId fl prev st = Except.ok (prev', st') →
    st.counter ≤ st'.counter ∧ lo < idRank prev' ∧ idRank prev' ≤ st'.counter ∧
    (∃ dn, st'.nodes = st.nodes ++ dn) ∧
    (∃ de, st'.edges = st.edges ++ de ∧ ∀ e ∈ de, edgeRanked lo st'.counter e) := by
  intro items
  induction items with
  | nil =>
    intro seqIdx startId fl prev st lo prev' st' hlo hhi hok
    simp only [seqLoop] at hok
    injection hok with h
    injection h with h1 h2
    subst h1; subst h2
    exact ⟨le_refl _, hlo, hhi, ⟨[], by simp⟩, ⟨[], by simp, by intro e he; cases he⟩⟩
  | cons x rest ih =>
    intro seqIdx startId fl prev st lo prev' st' hlo hhi hok
    simp only [seqLoop] at hok
    cases hx : pa x seqIdx st with
    | error e => rw [hx] at hok; cases hok
    | ok r =>
      obtain ⟨ids, st1⟩ := r
      obtain ⟨hids, hcnt, ⟨dn1, hdn1⟩, ⟨de1, hde1, hde1r⟩⟩ := hpa x seqIdx st ids st1 hx
      rw [hx] at hok
      subst hids
      simp only [chainEdges, List.getLastD, addEdge, List.append_nil] at hok
      have hrank0 : idRank (mkNodeId "action" (st.counter + 1)) = st.counter + 1 :=
        idRank_mkNodeId _ _
      obtain ⟨hc2, hp2, hp3, ⟨dn2, hdn2⟩, ⟨de2, hde2, hde2r⟩⟩ :=
        ih (seqIdx + 1) startId fl (mkNodeId "action" (st.counter + 1))
          { st1 with
            edges := st1.edges ++
              [seqEdge prev (mkNodeId "action" (st.counter + 1)) startId fl] }
          lo prev' st' (by omega) (by dsimp only; omega) (by rw [← hok]; rfl)
      dsimp only at hc2 hdn2 hde2
      refine ⟨by omega, hp2, hp3,
        ⟨dn1 ++ dn2, by rw [hdn2, hdn1, List.append_assoc]⟩,
        ⟨de1 ++ [seqEdge prev (mkNodeId "action" (st.counter + 1)) startId fl] ++ de2,
          ?_, ?_⟩⟩
      · rw [hde2]
        rw [hde1]
        simp [List.append_assoc]
      · intro e he
        simp only [List.mem_append, List.mem_singleton] at he
        rcases he with (he1 | rfl) | he2
        · exact edgeRanked_mono (hde1r e he1) (by omega) (by omega)
        · exact ⟨hlo, by simp only [seqEdge]; omega,
            by simp only [seqEdge]; rw [hrank0]; omega⟩
        · exact hde2r e he2

theorem parallelLoop_inv (pa : PyVal → Nat → PState → Except String (List String × PState))
    (hpa : paSpec pa) :
    ∀ (seqs : List PyVal) (parIdx : Nat) (parallelId : String) (st : PState)
      (lo : Nat) (st' : PState),
    lo < idRank parallelId → idRank parallelId ≤ st.counter →
    parallelLoop pa seqs parIdx parallelId st = Except.ok st' →
    st.counter ≤ st'.counter ∧
    (∃ dn, st'.nodes = st.nodes ++ dn) ∧
    (∃ de, st'.edges = st.edges ++ de ∧ ∀ e ∈ de, edgeRanked lo st'.counter e) := by
  intro seqs
  induction seqs with
  | nil =>
    intro parIdx parallelId st lo st' hlo hhi hok
    simp only [parallelLoop] at hok
    injection hok with h
    subst h
    exact ⟨le_refl _, ⟨[], by simp⟩, ⟨[], by simp, by intro e he; cases he⟩⟩
  | cons sv rest ih =>
    intro parIdx parallelId st lo st' hlo hhi hok
    simp only [parallelLoop] at hok
    cases hs : seqLoop pa (listWrapTruthy sv) 0 parallelId
        (some ("thread " ++ natToStr (parIdx + 1))) parallelId st with
    | error e => rw [hs] at hok; cases hok
    | ok r =>
      obtain ⟨p1, st1⟩ := r
      rw [hs] at hok
      obtain ⟨hc1, _, _, ⟨dn1, hdn1⟩, ⟨de1, hde1, hde1r⟩⟩ :=
        seqLoop_inv pa hpa (listWrapTruthy sv) 0 parallelId
          (some ("thread " ++ natToStr (parIdx + 1))) parallelId st lo p1 st1 hlo hhi hs
      obtain ⟨hc2, ⟨dn2, hdn2⟩, ⟨de2, hde2, hde2r⟩⟩ :=
        ih (parIdx + 1) parallelId st1 lo st' hlo (by omega) hok
      refine ⟨by omega, ⟨dn1 ++ dn2, by rw [hdn2, hdn1, List.append_assoc]⟩,
        ⟨de1 ++ de2, by rw [hde2, hde1, List.append_assoc], ?_⟩⟩
      intro e he
      rcases List.mem_append.mp he with he1 | he2
      · exact edgeRanked_mono (hde1r e he1) (le_refl _) (by omega)
      · exact hde2r e he2

theorem choicesLoop_inv (pa : PyVal → Nat → PState → Except String (List String × PState))
    (hpa : paSpec pa) :
    ∀ (choices : List PyVal) (cIdx : Nat) (chooseId : String) (st : PState)
      (lo : Nat) (st' : PState),
    lo < idRank chooseId → idRank chooseId ≤ st.counter →
    choicesLoop pa choices cIdx chooseId st = Except.ok st' →
    st.counter ≤ st'.counter ∧
    ∃ dn de rs,
      st'.nodes = st.nodes ++ dn ∧
      st'.edges = st.edges ++ de ∧
      rs.length = choices.length ∧
      List.Chain' (· < ·) rs ∧
      (∀ r ∈ rs, st.counter < r ∧ r ≤ st'.counter) ∧
      de.filter (fun e => e.from_node == chooseId) =
        optionEdges chooseId (rs.map (fun r => mkNodeId "action" r)) cIdx ∧
      (∀ r ∈ rs, ∃ nd ∈ dn, nd.id = mkNodeId "action" r ∧ nd.type = compCondition ∧
        nd.color = some colorCondition) ∧
      (∀ e ∈ de, edgeRanked lo st'.counter e) := by
  intro choices
  induction choices with
  | nil =>
    intro cIdx chooseId st lo st' hlo hhi hok
    simp only [choicesLoop] at hok
    injection hok with h
    subst h
    refine ⟨le_refl _, [], [], [], by simp, by simp, rfl, by simp, ?_, rfl, ?_, ?_⟩
    · intro r hr; cases hr
    · intro r hr; cases hr
    · intro e he; cases he
  | cons choice rest ih =>
    intro cIdx chooseId st lo st' hlo hhi hok
    simp only [choicesLoop, genNodeId] at hok
    cases hbl : chooseBranchLabel choice cIdx with
    | error e => rw [hbl] at hok; cases hok
    | ok branchLabel =>
      rw [hbl] at hok
      cases hcv : chooseCondVal choice (pyD []) with
      | error e => rw [hcv] at hok; cases hok
      | ok branchData =>
        rw [hcv] at hok
        simp only [addNode, addEdge] at hok
        cases hsv : pyGetD choice "sequence" (pyL []) with
        | error e => rw [hsv] at hok; cases hok
        | ok sv =>
          rw [hsv] at hok
          dsimp only at hok
          cases hsq : seqLoop pa (listWrapTruthy sv) 0 (mkNodeId "action" (st.counter + 1))
              Option.none (mkNodeId "action" (st.counter + 1))
              { counter := st.counter + 1,
                nodes := st.nodes ++
                  [{ id := mkNodeId "action" (st.counter + 1),
                     label := PyVal.str branchLabel, type := compCondition,
                     data := branchData, color := some colorCondition }],
                edges := st.edges ++
                  [{ from_node := chooseId, to_node := mkNodeId "action" (st.counter + 1),
                     label := some ("option " ++ natToStr (cIdx + 1)) }] } with
          | error e => rw [hsq] at hok; cases hok
          | ok r =>
            obtain ⟨p1, st4⟩ := r
            rw [hsq] at hok
            have hbrank : idRank (mkNodeId "action" (st.counter + 1)) = st.counter + 1 :=
              idRank_mkNodeId _ _
            obtain ⟨hc4, _, _, ⟨dnS, hdnS⟩, ⟨deS, hdeS, hdeSr⟩⟩ :=
              seqLoop_inv pa hpa (listWrapTruthy sv) 0 (mkNodeId "action" (st.counter + 1))
                Option.none (mkNodeId "action" (st.counter + 1)) _ (idRank chooseId) p1 st4
                (by omega) (by dsimp only; omega) hsq
            dsimp only at hc4 hdnS hdeS
            obtain ⟨hc2, dn2, de2, rs2, hdn2, hde2, hlen2, hchain2, hwin2, hfil2, hnd2, hrk2⟩ :=
              ih (cIdx + 1) chooseId st4 lo st' hlo (by omega) hok
            refine ⟨by omega,
              ({ id := mkNodeId "action" (st.counter + 1), label := PyVal.str branchLabel,
                 type := compCondition, data := branchData,
                 color := some colorCondition } :: dnS) ++ dn2,
              ({ from_node := chooseId, to_node := mkNodeId "action" (st.counter + 1),
                 label := some ("option " ++ natToStr (cIdx + 1)) } :: deS) ++ de2,
              (st.counter + 1) :: rs2, ?_, ?_, by simp [hlen2], ?_, ?_, ?_, ?_, ?_⟩
            · rw [hdn2, hdnS]; simp
            · rw [hde2, hdeS]; simp
            · rw [List.chain'_cons']
              refine ⟨?_, hchain2⟩
              intro b hb
              have hbmem : b ∈ rs2 := List.mem_of_mem_head? hb
              have := (hwin2 b hbmem).1
              omega
            · intro r hr
              rcases List.mem_cons.mp hr with rfl | hr2
              · omega
              · have := hwin2 r hr2
                omega
            · simp only [List.cons_append, List.filter_append, List.filter_cons]
              have hself : (chooseId == chooseId) = true := by simp
              simp only [hself, if_true]
              have hdropS : deS.filter (fun e => e.from_node == chooseId) = [] := by
                rw [List.filter_eq_nil_iff]
                intro e he
                have := (hdeSr e he).1
                simp only [beq_iff_eq]
                intro hcontra
                rw [hcontra] at this
                omega
              rw [hdropS, hfil2]
              simp only [List.map_cons, optionEdges, List.nil_append]
            · intro r hr
              rcases List.mem_cons.mp hr with rfl | hr2
              · refine ⟨{ id := mkNodeId "action" (st.counter + 1),
                            label := PyVal.str branchLabel, type := compCondition,
                            data := branchData, color := some colorCondition },
                  by simp, rfl, rfl, rfl⟩
              · obtain ⟨nd, hndm, hnd⟩ := hnd2 r hr2
                exact ⟨nd, by simp [hndm], hnd⟩
            · intro e he
              simp only [List.cons_append, List.mem_cons, List.mem_append] at he
              rcases he with rfl | heS | he2
              · exact ⟨hlo, by dsimp only; omega, by dsimp only; rw [hbrank]; omega⟩
              · exact edgeRanked_mono (hdeSr e heS) (by omega) (by omega)
              · exact hrk2 e he2

theorem nodes_delta_two {A B : List AutomationNode} (m1 m2 : List AutomationNode)
    (h : B = A ++ m1 ++ m2) : ∃ dn, B = A ++ dn :=
  ⟨m1 ++ m2, by rw [h, List.append_assoc]⟩

theorem nodes_delta_trans {A B C : List AutomationNode}
    (h1 : ∃ dn, B = A ++ dn) (h2 : ∃ dn, C = B ++ dn) : ∃ dn, C = A ++ dn := by
  obtain ⟨l1, h1⟩ := h1
  obtain ⟨l2, h2⟩ := h2
  exact ⟨l1 ++ l2, by rw [h2, h1, List.append_assoc]⟩

theorem edges_delta_nil {A : List AutomationEdge} {lo hi : Nat} :
    ∃ de, A = A ++ de ∧ ∀ e ∈ de, edgeRanked lo hi e :=
  ⟨[], by simp, by intro e he; cases he⟩

theorem edges_delta_of_eq {A B : List AutomationEdge} {lo hi : Nat}
    (de0 : List AutomationEdge) (h : B = A ++ de0)
    (hr : ∀ e ∈ de0, edgeRanked lo hi e) :
    ∃ de, B = A ++ de ∧ ∀ e ∈ de, edgeRanked lo hi e :=
  ⟨de0, h, hr⟩

theorem edges_delta_trans {A B C : List AutomationEdge} {lo m1 m2 hi : Nat}
    (h1 : ∃ de, B = A ++ de ∧ ∀ e ∈ de, edgeRanked lo m1 e)
    (h2 : ∃ de, C = B ++ de ∧ ∀ e ∈ de, edgeRanked lo m2 e)
    (hm1 : m1 ≤ hi) (hm2 : m2 ≤ hi) :
    ∃ de, C = A ++ de ∧ ∀ e ∈ de, edgeRanked lo hi e := by
  obtain ⟨d1, hB, hr1⟩ := h1
  obtain ⟨d2, hC, hr2⟩ := h2
  refine ⟨d1 ++ d2, by rw [hC, hB, List.append_assoc], ?_⟩
  intro e he
  rcases List.mem_append.mp he with h | h
  · exact edgeRanked_mono (hr1 e h) (le_refl _) hm1
  · exact edgeRanked_mono (hr2 e h) (le_refl _) hm2

theorem processActionF_spec : ∀ fuel, paSpec (processActionF fuel) := by
  intro fuel
  induction fuel with
  | zero => intro a idx st ids st' hok; cases hok
  | succ fuel ih =>
    intro a idx st ids st' hok
    have hR : ∀ k : Nat, idRank (mkNodeId "action" k) = k := fun k => idRank_mkNodeId _ _
    simp only [processActionF, genNodeId, addNode, addEdge] at hok
    cases hin1 : pyInKey "choose" a with
    | error e => rw [hin1] at hok; cases hok
    | ok b1 =>
    rw [hin1] at hok
    cases b1 with
    | true =>
      dsimp only at hok
      cases hcv : pyGetD a "choose" (pyL []) with
      | error e => rw [hcv] at hok; cases hok
      | ok cv =>
        rw [hcv] at hok
        dsimp only at hok
        cases hcl : choicesLoop (processActionF fuel) (listWrapAlways cv) 0
            (mkNodeId "action" (st.counter + 1))
            { counter := st.counter + 1,
              nodes := st.nodes ++
                [{ id := mkNodeId "action" (st.counter + 1),
                   label := PyVal.str "Choose/If-Then", type := compAction,
                   data := pyD [("type", PyVal.str "choose")],
                   color := some colorAction }],
              edges := st.edges } with
        | error e => rw [hcl] at hok; cases hok
        | ok st3 =>
          rw [hcl] at hok
          obtain ⟨hc3, dnC, deC, rsC, hdnC, hdeC, _, _, _, _, _, hrkC⟩ :=
            choicesLoop_inv (processActionF fuel) ih (listWrapAlways cv) 0
              (mkNodeId "action" (st.counter + 1)) _ st.counter st3
              (by rw [hR]; omega) (by dsimp only; rw [hR]) hcl
          dsimp only at hc3 hdnC hdeC
          cases hdef : pyInKey "default" a with
          | error e => rw [hdef] at hok; cases hok
          | ok hasDef =>
            rw [hdef] at hok
            cases hasDef with
            | false =>
              dsimp only at hok
              injection hok with h
              injection h with h1 h2
              subst h1; subst h2
              exact ⟨rfl, by omega, nodes_delta_two _ _ hdnC,
                edges_delta_of_eq deC hdeC hrkC⟩
            | true =>
              dsimp only at hok
              cases hdv : pyGetD a "default" (pyL []) with
              | error e => rw [hdv] at hok; cases hok
              | ok dv =>
                rw [hdv] at hok
                dsimp only at hok
                cases hsq : seqLoop (processActionF fuel) (listWrapTruthy dv) 0
                    (mkNodeId "action" (st3.counter + 1)) Option.none
                    (mkNodeId "action" (st3.counter + 1))
                    { counter := st3.counter + 1,
                      nodes := st3.nodes ++
                        [{ id := mkNodeId "action" (st3.counter + 1),
                           label := PyVal.str "Default/Else", type := compCondition,
                           data := pyD [("type", PyVal.str "default")],
                           color := some colorCondition }],
                      edges := st3.edges ++
                        [{ from_node := mkNodeId "action" (st.counter + 1),
                           to_node := mkNodeId "action" (st3.counter + 1),
                           label := some "else" }] } with
                | error e => rw [hsq] at hok; cases hok
                | ok r =>
                  obtain ⟨p7, st7⟩ := r
                  rw [hsq] at hok
                  dsimp only at hok
                  injection hok with h
                  injection h with h1 h2
                  subst h1; subst h2
                  obtain ⟨hc7, _, _, ⟨dnD, hdnD⟩, ⟨deD, hdeD, hdeDr⟩⟩ :=
                    seqLoop_inv (processActionF fuel) ih (listWrapTruthy dv) 0
                      (mkNodeId "action" (st3.counter + 1)) Option.none
                      (mkNodeId "action" (st3.counter + 1)) _ st.counter p7 st7
                      (by rw [hR]; omega) (by dsimp only; rw [hR]) hsq
                  dsimp only at hc7 hdnD hdeD
                  have helseD : ∃ de, st3.edges ++
                      [{ from_node := mkNodeId "action" (st.counter + 1),
                         to_node := mkNodeId "action" (st3.counter + 1),
                         label := some "else" }] = st3.edges ++ de ∧
                      ∀ e ∈ de, edgeRanked st.counter (st3.counter + 1) e := by
                    refine edges_delta_of_eq _ rfl ?_
                    intro e he
                    rcases List.mem_singleton.mp he with rfl
                    exact ⟨by dsimp only; rw [hR]; omega,
                      by dsimp only; rw [hR, hR]; omega,
                      by dsimp only; rw [hR]⟩
                  have hD2 : ∃ de, st7.edges = (st3.edges ++
                      [{ from_node := mkNodeId "action" (st.counter + 1),
                         to_node := mkNodeId "action" (st3.counter + 1),
                         label := some "else" }]) ++ de ∧
                      ∀ e ∈ de, edgeRanked st.counter st7.counter e :=
                    ⟨deD, hdeD, hdeDr⟩
                  have hmid := edges_delta_trans helseD hD2 (by omega) (le_refl _)
                  exact ⟨rfl, by omega,
                    nodes_delta_trans (nodes_delta_two _ _ hdnC)
                      (nodes_delta_two _ _ hdnD),
                    edges_delta_trans (edges_delta_of_eq deC hdeC hrkC) hmid
                      (by omega) (le_refl _)⟩
    | false =>
    dsimp only at hok
    cases hin2 : pyInKey "if" a with
    | error e => rw [hin2] at hok; cases hok
    | ok b2 =>
    rw [hin2] at hok
    cases b2 with
    | true =>
      dsimp only at hok
      cases hcondv : pyGetD a "if" (pyL []) with
      | error e => rw [hcondv] at hok; cases hok
      | ok condv =>
        rw [hcondv] at hok
        dsimp only at hok
        cases hsum : summarizeConditions (listWrapTruthy condv) with
        | error e => rw [hsum] at hok; cases hok
        | ok summary =>
          rw [hsum] at hok
          dsimp only at hok
          cases hdatav : pyGetD a "if" (pyD []) with
          | error e => rw [hdatav] at hok; cases hok
          | ok datav =>
            rw [hdatav] at hok
            dsimp only at hok
            cases hthen : pyInKey "then" a with
            | error e => rw [hthen] at hok; cases hok
            | ok hasThen =>
              rw [hthen] at hok
              dsimp only at hok
              cases hstep1 : (if hasThen then
                  match pyGetD a "then" (pyL []) with
                  | Except.error e => Except.error e
                  | Except.ok tv =>
                    match seqLoop (processActionF fuel) (listWrapTruthy tv) 0
                        (mkNodeId "action" (st.counter + 1)) (some "then")
                        (mkNodeId "action" (st.counter + 1))
                        { counter := st.counter + 1,
                          nodes := st.nodes ++
                            [{ id := mkNodeId "action" (st.counter + 1),
                               label := PyVal.str ("If: " ++ pyStrOf summary),
                               type := compCondition, data := datav,
                               color := some colorCondition }],
                          edges := st.edges } with
                    | Except.error e => Except.error e
                    | Except.ok (_, st3) => Except.ok st3
                else Except.ok
                  { counter := st.counter + 1,
                    nodes := st.nodes ++
                      [{ id := mkNodeId "action" (st.counter + 1),
                         label := PyVal.str ("If: " ++ pyStrOf summary),
                         type := compCondition, data := datav,
                         color := some colorCondition }],
                    edges := st.edges }) with
              | error e => rw [hstep1] at hok; cases hok
              | ok st3 =>
                rw [hstep1] at hok
                dsimp only at hok
                have hst3 : st.counter < st3.counter ∧
                    (∃ dn, st3.nodes = st.nodes ++ dn) ∧
                    (∃ de, st3.edges = st.edges ++ de ∧
                      ∀ e ∈ de, edgeRanked st.counter st3.counter e) := by
                  cases hasThen with
                  | false =>
                    simp only [Bool.false_eq_true, if_false] at hstep1
                    injection hstep1 with h
                    subst h
                    exact ⟨by dsimp only; omega, ⟨_, rfl⟩, edges_delta_nil⟩
                  | true =>
                    simp only [if_true] at hstep1
                    cases htv : pyGetD a "then" (pyL []) with
                    | error e => rw [htv] at hstep1; cases hstep1
                    | ok tv =>
                      rw [htv] at hstep1
                      dsimp only at hstep1
                      cases hsqt : seqLoop (processActionF fuel) (listWrapTruthy tv) 0
                          (mkNodeId "action" (st.counter + 1)) (some "then")
                          (mkNodeId "action" (st.counter + 1))
                          { counter := st.counter + 1,
                            nodes := st.nodes ++
                              [{ id := mkNodeId "action" (st.counter + 1),
                                 label := PyVal.str ("If: " ++ pyStrOf summary),
                                 type := compCondition, data := datav,
                                 color := some colorCondition }],
                            edges := st.edges } with
                      | error e => rw [hsqt] at hstep1; cases hstep1
                      | ok r =>
                        obtain ⟨pT, stT⟩ := r
                        rw [hsqt] at hstep1
                        dsimp only at hstep1
                        injection hstep1 with h
                        subst h
                        obtain ⟨hcT, _, _, ⟨dnT, hdnT⟩, ⟨deT, hdeT, hdeTr⟩⟩ :=
                          seqLoop_inv (processActionF fuel) ih (listWrapTruthy tv) 0
                            (mkNodeId "action" (st.counter + 1)) (some "then")
                            (mkNodeId "action" (st.counter + 1)) _ st.counter pT stT
                            (by rw [hR]; omega) (by dsimp only; rw [hR]) hsqt
                        dsimp only at hcT hdnT hdeT
                        exact ⟨by omega, nodes_delta_two _ _ hdnT, ⟨deT, hdeT, hdeTr⟩⟩
                obtain ⟨hc3, hdn3, hde3⟩ := hst3
                cases helse : pyInKey "else" a with
                | error e => rw [helse] at hok; cases hok
                | ok hasElse =>
                  rw [helse] at hok
                  dsimp only at hok
                  cases hstep2 : (if hasElse then
                      match pyGetD a "else" (pyL []) with
                      | Except.error e => Except.error e
                      | Except.ok ev =>
                        match seqLoop (processActionF fuel) (listWrapTruthy ev) 0
                            (mkNodeId "action" (st.counter + 1)) (some "else")
                            (mkNodeId "action" (st.counter + 1)) st3 with
                        | Except.error e => Except.error e
                        | Except.ok (_, st4) => Except.ok st4
                    else Except.ok st3) with
                  | error e => rw [hstep2] at hok; cases hok
                  | ok st4 =>
                    rw [hstep2] at hok
                    dsimp only at hok
                    injection hok with h
                    injection h with h1 h2
                    subst h1; subst h2
                    have hst4 : st3.counter ≤ st4.counter ∧
                        (∃ dn, st4.nodes = st3.nodes ++ dn) ∧
                        (∃ de, st4.edges = st3.edges ++ de ∧
                          ∀ e ∈ de, edgeRanked st.counter st4.counter e) := by
                      cases hasElse with
                      | false =>
                        simp only [Bool.false_eq_true, if_false] at hstep2
                        injection hstep2 with h
                        subst h
                        exact ⟨le_refl _, ⟨[], by simp⟩, edges_delta_nil⟩
                      | true =>
                        simp only [if_true] at hstep2
                        cases hev : pyGetD a "else" (pyL []) with
                        | error e => rw [hev] at hstep2; cases hstep2
                        | ok ev =>
                          rw [hev] at hstep2
                          dsimp only at hstep2
                          cases hsqe : seqLoop (processActionF fuel) (listWrapTruthy ev) 0
                              (mkNodeId "action" (st.counter + 1)) (some "else")
                              (mkNodeId "action" (st.counter + 1)) st3 with
                          | error e => rw [hsqe] at hstep2; cases hstep2
                          | ok r =>
                            obtain ⟨pE, stE⟩ := r
                            rw [hsqe] at hstep2
                            dsimp only at hstep2
                            injection hstep2 with h
                            subst h
                            obtain ⟨hcE, _, _, ⟨dnE, hdnE⟩, ⟨deE, hdeE, hdeEr⟩⟩ :=
                              seqLoop_inv (processActionF fuel) ih (listWrapTruthy ev) 0
                                (mkNodeId "action" (st.counter + 1)) (some "else")
                                (mkNodeId "action" (st.counter + 1)) st3 st.counter pE stE
                                (by rw [hR]; omega) (by rw [hR]; omega) hsqe
                            exact ⟨by omega, ⟨dnE, hdnE⟩, ⟨deE, hdeE, hdeEr⟩⟩
                    obtain ⟨hc4, hdn4, hde4⟩ := hst4
                    exact ⟨rfl, by omega, nodes_delta_trans hdn3 hdn4,
                      edges_delta_trans hde3 hde4 (by omega) (le_refl _)⟩
    | false =>
    dsimp only at hok
    cases hin3 : pyInKey "parallel" a with
    | error e => rw [hin3] at hok; cases hok
    | ok b3 =>
    rw [hin3] at hok
    cases b3 with
    | true =>
      dsimp only at hok
      cases hpv : pyGetD a "parallel" (pyL []) with
      | error e => rw [hpv] at hok; cases hok
      | ok pv =>
        rw [hpv] at hok
        dsimp only at hok
        cases hpl : parallelLoop (processActionF fuel) (listWrapAlways pv) 0
            (mkNodeId "action" (st.counter + 1))
            { counter := st.counter + 1,
              nodes := st.nodes ++
                [{ id := mkNodeId "action" (st.counter + 1),
                   label := PyVal.str "Parallel Actions", type := compAction,
                   data := pyD [("type", PyVal.str "parallel")],
                   color := some colorAction }],
              edges := st.edges } with
        | error e => rw [hpl] at hok; cases hok
        | ok st3 =>
          rw [hpl] at hok
          dsimp only at hok
          injection hok with h
          injection h with h1 h2
          subst h1; subst h2
          obtain ⟨hc3, ⟨dnP, hdnP⟩, ⟨deP, hdeP, hdePr⟩⟩ :=
            parallelLoop_inv (processActionF fuel) ih (listWrapAlways pv) 0
              (mkNodeId "action" (st.counter + 1)) _ st.counter st3
              (by rw [hR]; omega) (by dsimp only; rw [hR]) hpl
          dsimp only at hc3 hdnP hdeP
          exact ⟨rfl, by omega, nodes_delta_two _ _ hdnP,
            edges_delta_of_eq deP hdeP hdePr⟩
    | false =>
    dsimp only at hok
    cases hin4 : pyInKey "repeat" a with
    | error e => rw [hin4] at hok; cases hok
    | ok b4 =>
    rw [hin4] at hok
    cases b4 with
    | true =>
      dsimp only at hok
      cases hrc : pyGetD a "repeat" (pyD []) with
      | error e => rw [hrc] at hok; cases hok
      | ok rc =>
        rw [hrc] at hok
        dsimp only at hok
        cases hcount : pyInKey "count" rc with
        | error e => rw [hcount] at hok; cases hok
        | ok hasCount =>
          rw [hcount] at hok
          dsimp only at hok
          cases hlbl : (if hasCount then
              match pySubscr rc "count" with
              | Except.error e => Except.error e
              | Except.ok cnt => Except.ok ("Repeat " ++ pyStrOf cnt ++ "x")
            else
              match pyInKey "while" rc with
              | Except.error e => Except.error e
              | Except.ok true => Except.ok "Repeat while..."
              | Except.ok false =>
                match pyInKey "until" rc with
                | Except.error e => Except.error e
                | Except.ok true => Except.ok "Repeat until..."
                | Except.ok false => Except.ok "Repeat") with
          | error e => rw [hlbl] at hok; cases hok
          | ok repeatLabel =>
            rw [hlbl] at hok
            dsimp only at hok
            cases hsv : pyGetD rc "sequence" (pyL []) with
            | error e => rw [hsv] at hok; cases hok
            | ok sv =>
              rw [hsv] at hok
              dsimp only at hok
              cases hsq : seqLoop (processActionF fuel) (listWrapTruthy sv) 0
                  (mkNodeId "action" (st.counter + 1)) (some "loop")
                  (mkNodeId "action" (st.counter + 1))
                  { counter := st.counter + 1,
                    nodes := st.nodes ++
                      [{ id := mkNodeId "action" (st.counter + 1),
                         label := PyVal.str repeatLabel, type := compAction,
                         data := pyD [("type", PyVal.str "repeat"), ("config", rc)],
                         color := some colorAction }],
                    edges := st.edges } with
              | error e => rw [hsq] at hok; cases hok
              | ok r =>
                obtain ⟨pL, stL⟩ := r
                rw [hsq] at hok
                dsimp only at hok
                injection hok with h
                injection h with h1 h2
                subst h1; subst h2
                obtain ⟨hcL, _, _, ⟨dnL, hdnL⟩, ⟨deL, hdeL, hdeLr⟩⟩ :=
                  seqLoop_inv (processActionF fuel) ih (listWrapTruthy sv) 0
                    (mkNodeId "action" (st.counter + 1)) (some "loop")
                    (mkNodeId "action" (st.counter + 1)) _ st.counter pL stL
                    (by rw [hR]; omega) (by dsimp only; rw [hR]) hsq
                dsimp only at hcL hdnL hdeL
                exact ⟨rfl, by omega, nodes_delta_two _ _ hdnL,
                  edges_delta_of_eq deL hdeL hdeLr⟩
    | false =>
      dsimp only at hok
      cases hfmt : formatActionLabel a idx with
      | error e => rw [hfmt] at hok; cases hok
      | ok lbl =>
        rw [hfmt] at hok
        dsimp only at hok
        injection hok with h
        injection h with h1 h2
        subst h1; subst h2
        exact ⟨rfl, by dsimp only; omega,
          ⟨[{ id := mkNodeId "action" (st.counter + 1), label := lbl,
              type := compAction, data := a, color := some colorAction }], rfl⟩,
          edges_delta_nil⟩

/-- C5: for every `choose` action with N branches and a `default` key that
the recursive action processor handles successfully, the parser creates one
junction node (returned as the single id of the action, labeled
"Choose/If-Then") and N+1 pairwise distinct branch nodes (all of condition
type with the condition color, and all distinct from the junction), and the
edges leaving the junction in the resulting graph are exactly N edges
labeled "option 1" … "option N" (one to each branch node, in order)
followed by one edge labeled "else" to the default branch node.  The
hypothesis on the incoming state says no pre-existing edge leaves a node
ranked above the current counter, which holds for every state the parser
reaches (ids are minted by incrementing the counter). -/
theorem claim_C5_choose_structure
    (fuel : Nat) (action cv : PyVal) (choices : List PyVal) (idx : Nat)
    (st : PState) (ids : List String) (st' : PState)
    (hchoose : pyInKey "choose" action = Except.ok true)
    (hcv : pyGetD action "choose" (pyL []) = Except.ok cv)
    (hwrap : listWrapAlways cv = choices)
    (hdef : pyInKey "default" action = Except.ok true)
    (hclean : ∀ e ∈ st.edges, idRank e.from_node ≤ st.counter)
    (hok : processActionF fuel action idx st = Except.ok (ids, st')) :
    ∃ bids did,
      ids = [mkNodeId "action" (st.counter + 1)] ∧
      bids.length = choices.length ∧
      (bids ++ [did]).Nodup ∧
      mkNodeId "action" (st.counter + 1) ∉ bids ++ [did] ∧
      st'.edges.filter (fun e => e.from_node == mkNodeId "action" (st.counter + 1)) =
        optionEdges (mkNodeId "action" (st.counter + 1)) bids 0 ++
          [{ from_node := mkNodeId "action" (st.counter + 1), to_node := did,
             label := some "else" }] ∧
      (∃ nd ∈ st'.nodes, nd.id = mkNodeId "action" (st.counter + 1) ∧
        nd.label = PyVal.str "Choose/If-Then" ∧ nd.type = compAction) ∧
      (∀ b ∈ bids ++ [did], ∃ nd ∈ st'.nodes, nd.id = b ∧ nd.type = compCondition ∧
        nd.color = some colorCondition) := by
  subst hwrap
  cases fuel with
  | zero => cases hok
  | succ fuel =>
    have hR : ∀ k : Nat, idRank (mkNodeId "action" k) = k := fun k => idRank_mkNodeId _ _
    simp only [processActionF, genNodeId, addNode, addEdge] at hok
    rw [hchoose] at hok
    dsimp only at hok
    rw [hcv] at hok
    dsimp only at hok
    cases hcl : choicesLoop (processActionF fuel) (listWrapAlways cv) 0
        (mkNodeId "action" (st.counter + 1))
        { counter := st.counter + 1,
          nodes := st.nodes ++
            [{ id := mkNodeId "action" (st.counter + 1),
               label := PyVal.str "Choose/If-Then", type := compAction,
               data := pyD [("type", PyVal.str "choose")],
               color := some colorAction }],
          edges := st.edges } with
    | error e => rw [hcl] at hok; cases hok
    | ok st3 =>
      rw [hcl] at hok
      obtain ⟨hc3, dnC, deC, rsC, hdnC, hdeC, hlenC, hchainC, hwinC, hfilC, hndC, hrkC⟩ :=
        choicesLoop_inv (processActionF fuel) (processActionF_spec fuel)
          (listWrapAlways cv) 0 (mkNodeId "action" (st.counter + 1)) _ st.counter st3
          (by rw [hR]; omega) (by dsimp only; rw [hR]) hcl
      dsimp only at hc3 hdnC hdeC hwinC
      rw [hdef] at hok
      dsimp only at hok
      cases hdv : pyGetD action "default" (pyL []) with
      | error e => rw [hdv] at hok; cases hok
      | ok dv =>
        rw [hdv] at hok
        dsimp only at hok
        cases hsq : seqLoop (processActionF fuel) (listWrapTruthy dv) 0
            (mkNodeId "action" (st3.counter + 1)) Option.none
            (mkNodeId "action" (st3.counter + 1))
            { counter := st3.counter + 1,
              nodes := st3.nodes ++
                [{ id := mkNodeId "action" (st3.counter + 1),
                   label := PyVal.str "Default/Else", type := compCondition,
                   data := pyD [("type", PyVal.str "default")],
                   color := some colorCondition }],
              edges := st3.edges ++
                [{ from_node := mkNodeId "action" (st.counter + 1),
                   to_node := mkNodeId "action" (st3.counter + 1),
                   label := some "else" }] } with
        | error e => rw [hsq] at hok; cases hok
        | ok r =>
          obtain ⟨p7, st7⟩ := r
          rw [hsq] at hok
          dsimp only at hok
          injection hok with h
          injection h with h1 h2
          subst h1; subst h2
          obtain ⟨hc7, _, _, ⟨dnD, hdnD⟩, ⟨deD, hdeD, hdeDr⟩⟩ :=
            seqLoop_inv (processActionF fuel) (processActionF_spec fuel)
              (listWrapTruthy dv) 0 (mkNodeId "action" (st3.counter + 1)) Option.none
              (mkNodeId "action" (st3.counter + 1)) _ (st.counter + 1) p7 st7
              (by rw [hR]; omega) (by dsimp only; rw [hR]) hsq
          dsimp only at hc7 hdnD hdeD
          refine ⟨rsC.map (fun r => mkNodeId "action" r),
            mkNodeId "action" (st3.counter + 1), rfl, by rw [List.length_map, hlenC],
            ?_, ?_, ?_, ?_, ?_⟩
          · have hpw : List.Pairwise (· < ·) rsC := List.chain'_iff_pairwise.mp hchainC
            rw [List.nodup_append]
            refine ⟨?_, List.nodup_singleton _, ?_⟩
            · exact List.Pairwise.map _
                (fun a b hab => mkNodeId_ne_of_rank_ne (by omega)) hpw
            · intro b hb hc
              obtain ⟨rb, hrb, rfl⟩ := List.mem_map.mp hb
              have heq := List.mem_singleton.mp hc
              have := hwinC rb hrb
              exact mkNodeId_ne_of_rank_ne (by omega) heq
          · intro hmem
            rcases List.mem_append.mp hmem with hmem | hmem
            · obtain ⟨rb, hrb, heq⟩ := List.mem_map.mp hmem
              have := hwinC rb hrb
              exact mkNodeId_ne_of_rank_ne (by omega) heq
            · rcases List.mem_singleton.mp hmem with heq
              exact mkNodeId_ne_of_rank_ne (by omega) heq.symm
          · have hedges : st7.edges = ((st.edges ++ deC) ++
                [{ from_node := mkNodeId "action" (st.counter + 1),
                   to_node := mkNodeId "action" (st3.counter + 1),
                   label := some "else" }]) ++ deD := by
              rw [hdeD, hdeC]
            rw [hedges]
            simp only [List.filter_append]
            have hfE : st.edges.filter
                (fun e => e.from_node == mkNodeId "action" (st.counter + 1)) = [] := by
              rw [List.filter_eq_nil_iff]
              intro e he
              simp only [beq_iff_eq]
              intro hc
              have := hclean e he
              rw [hc, hR] at this
              omega
            have hfD : deD.filter
                (fun e => e.from_node == mkNodeId "action" (st.counter + 1)) = [] := by
              rw [List.filter_eq_nil_iff]
              intro e he
              simp only [beq_iff_eq]
              intro hc
              have := (hdeDr e he).1
              rw [hc, hR] at this
              omega
            rw [hfE, hfilC, hfD]
            simp
          · refine ⟨{ id := mkNodeId "action" (st.counter + 1),
                      label := PyVal.str "Choose/If-Then", type := compAction,
                      data := pyD [("type", PyVal.str "choose")],
                      color := some colorAction }, ?_, rfl, rfl, rfl⟩
            rw [hdnD, hdnC]
            simp
          · intro b hb
            rcases List.mem_append.mp hb with hb | hb
            · obtain ⟨rb, hrb, rfl⟩ := List.mem_map.mp hb
              obtain ⟨nd, hndm, hnd1, hnd2, hnd3⟩ := hndC rb hrb
              refine ⟨nd, ?_, hnd1, hnd2, hnd3⟩
              rw [hdnD, hdnC]
              simp only [List.mem_append]
              left; left; right
              exact hndm
            · rcases List.mem_singleton.mp hb with rfl
              refine ⟨{ id := mkNodeId "action" (st3.counter + 1),
                        label := PyVal.str "Default/Else", type := compCondition,
                        data := pyD [("type", PyVal.str "default")],
                        color := some colorCondition }, ?_, rfl, rfl, rfl⟩
              rw [hdnD]
              simp

/-- Initial parser state for the concrete choose example. -/
def c5st0 : PState := { counter := 0, nodes := [], edges := [] }

/-- A concrete choose list with two branches. -/
def c5choices : PyVal :=
  pyL [pyD [("sequence", pyL [pyD [("delay", PyVal.str "5")]])], pyD []]

/-- A concrete choose action with two branches and a default sequence. -/
def c5action : PyVal :=
  pyD [("choose", c5choices), ("default", pyL [pyD [("delay", PyVal.str "1")]])]

/-- The ids returned for the concrete choose action. -/
def c5ids : List String :=
  match processActionF 30 c5action 0 c5st0 with
  | Except.ok (ids, _) => ids
  | Except.error _ => []

/-- The parser state after the concrete choose action. -/
def c5stF : PState :=
  match processActionF 30 c5action 0 c5st0 with
  | Except.ok (_, st) => st
  | Except.error _ => c5st0

theorem claim_C5_witness :
    ∃ bids did,
      c5ids = [mkNodeId "action" (c5st0.counter + 1)] ∧
      bids.length = (listWrapAlways c5choices).length ∧
      (bids ++ [did]).Nodup ∧
      mkNodeId "action" (c5st0.counter + 1) ∉ bids ++ [did] ∧
      c5stF.edges.filter (fun e => e.from_node == mkNodeId "action" (c5st0.counter + 1)) =
        optionEdges (mkNodeId "action" (c5st0.counter + 1)) bids 0 ++
          [{ from_node := mkNodeId "action" (c5st0.counter + 1), to_node := did,
             label := some "else" }] ∧
      (∃ nd ∈ c5stF.nodes, nd.id = mkNodeId "action" (c5st0.counter + 1) ∧
        nd.label = PyVal.str "Choose/If-Then" ∧ nd.type = compAction) ∧
      (∀ b ∈ bids ++ [did], ∃ nd ∈ c5stF.nodes, nd.id = b ∧ nd.type = compCondition ∧
        nd.color = some colorCondition) :=
  claim_C5_choose_structure 30 c5action c5choices (listWrapAlways c5choices) 0 c5st0
    c5ids c5stF rfl rfl rfl rfl
    (by intro e he; simp only [c5st0] at he; cases he) rfl

theorem chain_rank_map (pfx : String) (rs : List Nat)
    (h : List.Chain' (· < ·) rs) :
    List.Chain' (fun a b => idRank a < idRank b)
      (rs.map (fun r => mkNodeId pfx r)) := by
  rw [List.chain'_map]
  exact List.Chain'.imp
    (fun a b hab => by rw [idRank_mkNodeId, idRank_mkNodeId]; exact hab) h

theorem chainEdges_rank : ∀ (lbl : Option String) (ids : List String),
    List.Chain' (fun a b => idRank a < idRank b) ids →
    ∀ e ∈ chainEdges lbl ids, idRank e.from_node < idRank e.to_node := by
  intro lbl ids
  induction ids with
  | nil => intro _ e he; cases he
  | cons a rest ih =>
    intro hch e he
    cases rest with
    | nil => cases he
    | cons b rest2 =>
      simp only [chainEdges] at he
      rcases List.mem_cons.mp he with rfl | he2
      · exact (List.chain'_cons.mp hch).1
      · exact ih (List.chain'_cons.mp hch).2 e he2

theorem mem_map_rank {pfx : String} {rs : List Nat} {b : String}
    (h : b ∈ rs.map (fun r => mkNodeId pfx r)) :
    ∃ r ∈ rs, b = mkNodeId pfx r ∧ idRank b = r := by
  obtain ⟨r, hr, rfl⟩ := List.mem_map.mp h
  exact ⟨r, hr, rfl, idRank_mkNodeId _ _⟩

theorem getLastD_mem_cons : ∀ (l : List String) (d : String), l.getLastD d ∈ d :: l := by
  intro l
  induction l with
  | nil => intro d; simp [List.getLastD]
  | cons a l2 ih =>
    intro d
    rw [List.getLastD_cons]
    exact List.mem_cons_of_mem d (ih a)

theorem extractMetadata_inv {cfg : PyVal} {st : PState} {metaId : String}
    {gmeta : List (String × PyVal)} {st1 : PState}
    (h : extractMetadata cfg st = Except.ok (metaId, gmeta, st1)) :
    metaId = mkNodeId "metadata" (st.counter + 1) ∧ st1.counter = st.counter + 1 ∧
    st1.edges = st.edges ∧ (∃ dn, st1.nodes = st.nodes ++ dn) := by
  simp only [extractMetadata, genNodeId, addNode] at h
  cases ha : pyGetD cfg "alias" (PyVal.str "Automation") with
  | error e => rw [ha] at h; cases h
  | ok aliasV =>
    rw [ha] at h
    dsimp only at h
    cases hd : pyGetD cfg "description" (PyVal.str "") with
    | error e => rw [hd] at h; cases h
    | ok description =>
      rw [hd] at h
      dsimp only at h
      cases hi : pyGetD cfg "id" (PyVal.str "unknown") with
      | error e => rw [hi] at h; cases h
      | ok automationId =>
        rw [hi] at h
        dsimp only at h
        injection h with h
        injection h with h1 h
        injection h with h2 h3
        subst h1; subst h3
        exact ⟨rfl, rfl, rfl, ⟨_, rfl⟩⟩

theorem triggersLoop_inv : ∀ (items : List PyVal) (idx : Nat) (acc : List String)
    (st : PState) (acc2 : List String) (st' : PState),
    triggersLoop items idx acc st = Except.ok (acc2, st') →
    st.counter ≤ st'.counter ∧
    (∃ dn, st'.nodes = st.nodes ++ dn) ∧
    st'.edges = st.edges ∧
    ∃ rs, acc2 = acc ++ rs.map (fun r => mkNodeId "trigger" r) ∧
      List.Chain' (· < ·) rs ∧ ∀ r ∈ rs, st.counter < r ∧ r ≤ st'.counter := by
  intro items
  induction items with
  | nil =>
    intro idx acc st acc2 st' hok
    simp only [triggersLoop] at hok
    injection hok with h
    injection h with h1 h2
    subst h1; subst h2
    exact ⟨le_refl _, ⟨[], by simp⟩, rfl, ⟨[], by simp, by simp, by intro r hr; cases hr⟩⟩
  | cons item rest ih =>
    intro idx acc st acc2 st' hok
    simp only [triggersLoop, genNodeId, addNode] at hok
    cases hp : pyGetD item "platform" (PyVal.str "unknown") with
    | error e => rw [hp] at hok; cases hok
    | ok _ =>
      rw [hp] at hok
      dsimp only at hok
      cases hf : formatTriggerLabel item idx with
      | error e => rw [hf] at hok; cases hok
      | ok lbl =>
        rw [hf] at hok
        dsimp only at hok
        obtain ⟨hc2, ⟨dn2, hdn2⟩, hed2, rs2, hacc2, hch2, hwin2⟩ :=
          ih (idx + 1) (acc ++ [mkNodeId "trigger" (st.counter + 1)]) _ acc2 st' hok
        dsimp only at hc2 hdn2 hed2 hwin2
        refine ⟨by omega, nodes_delta_two _ _ hdn2, hed2,
          ⟨(st.counter + 1) :: rs2, ?_, ?_, ?_⟩⟩
        · rw [hacc2]
          simp
        · rw [List.chain'_cons']
          refine ⟨?_, hch2⟩
          intro b hb
          have := (hwin2 b (List.mem_of_mem_head? hb)).1
          omega
        · intro r hr
          rcases List.mem_cons.mp hr with rfl | hr2
          · omega
          · have := hwin2 r hr2
            omega

theorem conditionsLoop_inv : ∀ (items : List PyVal) (idx : Nat) (acc : List String)
    (st : PState) (acc2 : List String) (st' : PState),
    conditionsLoop items idx acc st = Except.ok (acc2, st') →
    st.counter ≤ st'.counter ∧
    (∃ dn, st'.nodes = st.nodes ++ dn) ∧
    st'.edges = st.edges ∧
    ∃ rs, acc2 = acc ++ rs.map (fun r => mkNodeId "condition" r) ∧
      List.Chain' (· < ·) rs ∧ ∀ r ∈ rs, st.counter < r ∧ r ≤ st'.counter := by
  intro items
  induction items with
  | nil =>
    intro idx acc st acc2 st' hok
    simp only [conditionsLoop] at hok
    injection hok with h
    injection h with h1 h2
    subst h1; subst h2
    exact ⟨le_refl _, ⟨[], by simp⟩, rfl, ⟨[], by simp, by simp, by intro r hr; cases hr⟩⟩
  | cons item rest ih =>
    intro idx acc st acc2 st' hok
    simp only [conditionsLoop, genNodeId, addNode] at hok
    cases hf : formatConditionLabel item idx with
    | error e => rw [hf] at hok; cases hok
    | ok lbl =>
      rw [hf] at hok
      dsimp only at hok
      obtain ⟨hc2, ⟨dn2, hdn2⟩, hed2, rs2, hacc2, hch2, hwin2⟩ :=
        ih (idx + 1) (acc ++ [mkNodeId "condition" (st.counter + 1)]) _ acc2 st' hok
      dsimp only at hc2 hdn2 hed2 hwin2
      refine ⟨by omega, nodes_delta_two _ _ hdn2, hed2,
        ⟨(st.counter + 1) :: rs2, ?_, ?_, ?_⟩⟩
      · rw [hacc2]
        simp
      · rw [List.chain'_cons']
        refine ⟨?_, hch2⟩
        intro b hb
        have := (hwin2 b (List.mem_of_mem_head? hb)).1
        omega
      · intro r hr
        rcases List.mem_cons.mp hr with rfl | hr2
        · omega
        · have := hwin2 r hr2
          omega

theorem actionsLoop_inv (fuel : Nat) : ∀ (items : List PyVal) (idx : Nat)
    (acc : List String) (st : PState) (acc2 : List String) (st' : PState),
    actionsLoop fuel items idx acc st = Except.ok (acc2, st') →
    st.counter ≤ st'.counter ∧
    (∃ dn, st'.nodes = st.nodes ++ dn) ∧
    (∃ de, st'.edges = st.edges ++ de ∧ ∀ e ∈ de, edgeRanked st.counter st'.counter e) ∧
    ∃ rs, acc2 = acc ++ rs.map (fun r => mkNodeId "action" r) ∧
      List.Chain' (· < ·) rs ∧ ∀ r ∈ rs, st.counter < r ∧ r ≤ st'.counter := by
  intro items
  induction items with
  | nil =>
    intro idx acc st acc2 st' hok
    simp only [actionsLoop] at hok
    injection hok with h
    injection h with h1 h2
    subst h1; subst h2
    exact ⟨le_refl _, ⟨[], by simp⟩, edges_delta_nil,
      ⟨[], by simp, by simp, by intro r hr; cases hr⟩⟩
  | cons item rest ih =>
    intro idx acc st acc2 st' hok
    simp only [actionsLoop] at hok
    cases hx : processActionF fuel item idx st with
    | error e => rw [hx] at hok; cases hok
    | ok r =>
      obtain ⟨ids, st1⟩ := r
      rw [hx] at hok
      obtain ⟨hids, hcnt, hdn1, ⟨de1, hde1, hde1r⟩⟩ :=
        processActionF_spec fuel item idx st ids st1 hx
      subst hids
      dsimp only at hok
      obtain ⟨hc2, hdn2, ⟨de2, hde2, hde2r⟩, rs2, hacc2, hch2, hwin2⟩ :=
        ih (idx + 1) (acc ++ [mkNodeId "action" (st.counter + 1)]) st1 acc2 st' hok
      refine ⟨by omega, nodes_delta_trans hdn1 hdn2,
        edges_delta_trans ⟨de1, hde1, hde1r⟩ ⟨de2, hde2, ?_⟩ (by omega) (le_refl _),
        ⟨(st.counter + 1) :: rs2, ?_, ?_, ?_⟩⟩
      · intro e he
        exact edgeRanked_mono (hde2r e he) (by omega) (le_refl _)
      · rw [hacc2]
        simp
      · rw [List.chain'_cons']
        refine ⟨?_, hch2⟩
        intro b hb
        have := (hwin2 b (List.mem_of_mem_head? hb)).1
        omega
      · intro r hr
        rcases List.mem_cons.mp hr with rfl | hr2
        · omega
        · have := hwin2 r hr2
          omega

theorem buildEdges_rank (metaId : String) (rsT rsC rsA : List Nat)
    (c2 c3 c4 : Nat) (st : PState)
    (hT : ∀ r ∈ rsT, idRank metaId < r ∧ r ≤ c2)
    (hC : ∀ r ∈ rsC, c2 < r ∧ r ≤ c3)
    (hCc : List.Chain' (· < ·) rsC)
    (hA : ∀ r ∈ rsA, c3 < r ∧ r ≤ c4)
    (hAc : List.Chain' (· < ·) rsA)
    (hc23 : c2 ≤ c3)
    (hprev : ∀ e ∈ st.edges, idRank e.from_node < idRank e.to_node) :
    ∀ e ∈ (buildEdges metaId (rsT.map (fun r => mkNodeId "trigger" r))
        (rsC.map (fun r => mkNodeId "condition" r))
        (rsA.map (fun r => mkNodeId "action" r)) st).edges,
      idRank e.from_node < idRank e.to_node := by
  intro e he
  simp only [buildEdges, addEdges, addEdge] at he
  cases rsC with
  | nil =>
    cases rsA with
    | nil =>
      simp only [List.map_nil, chainEdges, List.append_nil, List.map_map] at he
      rcases List.mem_append.mp he with h1 | h2
      · exact hprev e h1
      · obtain ⟨t, ht, rfl⟩ := List.mem_map.mp h2
        have := hT t ht
        simp only [Function.comp, idRank_mkNodeId]
        omega
    | cons a0 arest =>
      simp only [List.map_cons, List.map_map] at he
      rcases List.mem_append.mp he with he1 | hchain
      · rcases List.mem_append.mp he1 with he2 | hta
        · rcases List.mem_append.mp he2 with h1 | h2
          · exact hprev e h1
          · obtain ⟨t, ht, rfl⟩ := List.mem_map.mp h2
            have := hT t ht
            simp only [Function.comp, idRank_mkNodeId]
            omega
        · obtain ⟨t, ht, rfl⟩ := List.mem_map.mp hta
          have h1 := hT t ht
          have h2 := hA a0 (by simp)
          simp only [Function.comp, idRank_mkNodeId]
          omega
      · refine chainEdges_rank Option.none _ ?_ e hchain
        exact chain_rank_map "action" (a0 :: arest) hAc
  | cons c0 crest =>
    have hchainC := chain_rank_map "condition" (c0 :: crest) hCc
    have hchainA := chain_rank_map "action" rsA hAc
    cases rsA with
    | nil =>
      simp only [List.map_cons, List.map_nil, chainEdges, List.append_nil,
        List.map_map] at he
      rcases List.mem_append.mp he with he1 | hcchain
      · rcases List.mem_append.mp he1 with he2 | htc
        · rcases List.mem_append.mp he2 with h1 | h2
          · exact hprev e h1
          · obtain ⟨t, ht, rfl⟩ := List.mem_map.mp h2
            have := hT t ht
            simp only [Function.comp, idRank_mkNodeId]
            omega
        · obtain ⟨t, ht, rfl⟩ := List.mem_map.mp htc
          have h1 := hT t ht
          have h2 := hC c0 (by simp)
          simp only [Function.comp, idRank_mkNodeId]
          omega
      · exact chainEdges_rank (some "AND") _ (by
          simpa using hchainC) e (by simpa using hcchain)
    | cons a0 arest =>
      simp only [List.map_cons, List.map_map] at he
      rcases List.mem_append.mp he with he1 | hachain
      · rcases List.mem_append.mp he1 with he2 | hlast
        · rcases List.mem_append.mp he2 with he3 | hcchain
          · rcases List.mem_append.mp he3 with he4 | htc
            · rcases List.mem_append.mp he4 with h1 | h2
              · exact hprev e h1
              · obtain ⟨t, ht, rfl⟩ := List.mem_map.mp h2
                have := hT t ht
                simp only [Function.comp, idRank_mkNodeId]
                omega
            · obtain ⟨t, ht, rfl⟩ := List.mem_map.mp htc
              have h1 := hT t ht
              have h2 := hC c0 (by simp)
              simp only [Function.comp, idRank_mkNodeId]
              omega
          · exact chainEdges_rank (some "AND") _ (by
              simpa using hchainC) e (by simpa using hcchain)
        · rcases List.mem_singleton.mp hlast with rfl
          have hmem : ((crest.map (fun r => mkNodeId "condition" r)).getLastD
              (mkNodeId "condition" c0)) ∈
              (mkNodeId "condition" c0) :: crest.map (fun r => mkNodeId "condition" r) :=
            getLastD_mem_cons _ _
          have hmem2 : ((crest.map (fun r => mkNodeId "condition" r)).getLastD
              (mkNodeId "condition" c0)) ∈
              (c0 :: crest).map (fun r => mkNodeId "condition" r) := by
            simpa using hmem
          obtain ⟨r, hr, heq, hrank⟩ := mem_map_rank hmem2
          have h1 := hC r hr
          have h2 := hA a0 (by simp)
          simp only [Function.comp, idRank_mkNodeId]
          rw [hrank]
          omega
      · exact chainEdges_rank Option.none _ (by
          simpa using hchainA) e (by simpa using hachain)

theorem parseFrom_edges_rank (fuel : Nat) (cfg : PyVal) (g : AutomationGraph) (cnt : Nat)
    (hok : parseFrom fuel cfg = Except.ok (g, cnt)) :
    ∀ e ∈ g.edges, idRank e.from_node < idRank e.to_node := by
  simp only [parseFrom] at hok
  cases hm : extractMetadata cfg { counter := 0, nodes := [], edges := [] } with
  | error e => rw [hm] at hok; cases hok
  | ok r1 =>
    obtain ⟨metaId, gmeta, st1⟩ := r1
    rw [hm] at hok
    dsimp only at hok
    obtain ⟨hmid, hc1, hed1, _⟩ := extractMetadata_inv hm
    dsimp only at hc1 hed1
    cases hnt : normTriggers cfg with
    | error e => rw [hnt] at hok; cases hok
    | ok trigItems =>
      rw [hnt] at hok
      dsimp only at hok
      cases htl : triggersLoop trigItems 0 [] st1 with
      | error e => rw [htl] at hok; cases hok
      | ok r2 =>
        obtain ⟨triggerIds, st2⟩ := r2
        rw [htl] at hok
        dsimp only at hok
        obtain ⟨hc2, _, hed2, rsT, haccT, hchT, hwinT⟩ := triggersLoop_inv _ _ _ _ _ _ htl
        cases hnc : normConditions cfg with
        | error e => rw [hnc] at hok; cases hok
        | ok condItems =>
          rw [hnc] at hok
          dsimp only at hok
          cases hcl : conditionsLoop condItems 0 [] st2 with
          | error e => rw [hcl] at hok; cases hok
          | ok r3 =>
            obtain ⟨conditionIds, st3⟩ := r3
            rw [hcl] at hok
            dsimp only at hok
            obtain ⟨hc3, _, hed3, rsC, haccC, hchC, hwinC⟩ :=
              conditionsLoop_inv _ _ _ _ _ _ hcl
            cases hna : normActions cfg with
            | error e => rw [hna] at hok; cases hok
            | ok actItems =>
              rw [hna] at hok
              dsimp only at hok
              cases hal : actionsLoop fuel actItems 0 [] st3 with
              | error e => rw [hal] at hok; cases hok
              | ok r4 =>
                obtain ⟨actionIds, st4⟩ := r4
                rw [hal] at hok
                dsimp only at hok
                obtain ⟨hc4, _, ⟨deA, hedA, hedAr⟩, rsA, haccA, hchA, hwinA⟩ :=
                  actionsLoop_inv fuel _ _ _ _ _ _ hal
                injection hok with h
                injection h with h1 h2
                subst h1
                intro e he
                dsimp only at he
                rw [List.nil_append] at haccT haccC haccA
                subst haccT; subst haccC; subst haccA
                subst hmid
                refine buildEdges_rank _ rsT rsC rsA st2.counter st3.counter
                  st4.counter st4 ?_ ?_ hchC ?_ hchA (by omega) ?_ e he
                · intro r hr
                  have := hwinT r hr
                  simp only [idRank_mkNodeId]
                  omega
                · exact hwinC
                · exact hwinA
                · intro e2 he2
                  rw [hedA, hed3, hed2, hed1] at he2
                  rw [List.nil_append] at he2
                  exact (hedAr e2 he2).2.1

/-- Directed reachability (by at least one edge) along a graph edge list. -/
inductive EdgePath (es : List AutomationEdge) : String → String → Prop where
  | single : ∀ e, e ∈ es → EdgePath es e.from_node e.to_node
  | step : ∀ e b, e ∈ es → EdgePath es e.to_node b → EdgePath es e.from_node b

theorem edgePath_rank {es : List AutomationEdge}
    (h : ∀ e ∈ es, idRank e.from_node < idRank e.to_node) :
    ∀ a b, EdgePath es a b → idRank a < idRank b := by
  intro a b hp
  induction hp with
  | single e he => exact h e he
  | step e b he _ ih => exact lt_trans (h e he) ih

/-- C7: every graph returned by `parse_automation` is acyclic at the
data-structure level: its edge list, including the forward "loop" edge of a
`repeat` construct, admits no directed cycle among node ids.  The proof
exhibits a rank certificate: every node id embeds the counter value it was
minted with, and every edge the parser creates (sequence chains,
option/else/then/else/thread/loop edges, and the trigger/condition/action
wiring of `_build_edges`) points from a lower counter to a strictly higher
one, so a directed path strictly increases the rank and can never return
to its start. -/
theorem claim_C7_graph_acyclic :
    ∀ (cfg : PyVal) (g : AutomationGraph), parse_automation cfg = Except.ok g →
    ∀ x, ¬ EdgePath g.edges x x := by
  intro cfg g hp x hpath
  simp only [parse_automation] at hp
  cases hpf : parseFrom (pySize cfg) cfg with
  | error e => rw [hpf] at hp; cases hp
  | ok r =>
    obtain ⟨g2, cnt⟩ := r
    rw [hpf] at hp
    simp only [Except.map] at hp
    injection hp with h
    subst h
    have hrank := parseFrom_edges_rank _ _ _ _ hpf
    have := edgePath_rank hrank x x hpath
    omega

/-- A concrete automation with a `repeat` action (its body produces the
forward edge labeled "loop"). -/
def c7cfg : PyVal :=
  pyD [("alias", PyVal.str "nightly"),
       ("trigger", pyD [("platform", PyVal.str "state")]),
       ("action", pyD [("repeat", pyD [("count", PyVal.int 3),
         ("sequence", pyL [pyD [("delay", PyVal.str "1")]])])])]

/-- The graph parsed from the repeat automation. -/
def c7graph : AutomationGraph :=
  match parse_automation c7cfg with
  | Except.ok g => g
  | Except.error _ => { nodes := [], edges := [], metadata := [] }

theorem claim_C7_witness : ¬ EdgePath c7graph.edges "action_3" "action_3" :=
  claim_C7_graph_acyclic c7cfg c7graph rfl "action_3"
